import Mathlib

/-!
The package s2x: mapping SQL rows to Go structs and back.

A shallow embedding of the Go package `s2x` (`scan.go`, `struct.go`, `slices.go`,
`error.go`) together with the properties of its column resolver (`Scanner`) and of its value
extractor (`SQLValues`).

Conventions of the embedding.

* Go functions returning `(T, error)` return a pair `Option T × Option Error`; `none` is `nil`.
* A Go `map[K]V` is an association list with unique keys (`GoMap`); `GoMap.find` is the
  two-valued index expression `v, found := m[k]` and `GoMap.put` is the assignment `m[k] = v`.
* The order in which `range` visits a map is unspecified in Go; the functions that range over a
  map take a `RangeOrder`, which supplies a permutation for each execution of the loop.
* Struct types are named: `GoType.struct id` refers to the declaration `env id` of a type
  environment, so that a struct type may mention itself behind a pointer.
* Code from package `reflect` that may panic returns `Res`, which also has an outcome for a
  computation that did not finish within the recursion budget.
-/

namespace S2x

/-! ## Package reflect: kinds, types, struct fields -/

/-- The kinds of package reflect, in declaration order. -/
inductive Kind
  | Invalid | Bool
  | Int | Int8 | Int16 | Int32 | Int64
  | Uint | Uint8 | Uint16 | Uint32 | Uint64 | Uintptr
  | Float32 | Float64 | Complex64 | Complex128
  | Array | Chan | Func | Interface | Map | Ptr | Slice | String | Struct | UnsafePointer
  deriving DecidableEq, Repr

/-- A Go type as package reflect presents it. `basic k` is a type of kind `k` whose inner
structure the package never inspects (scalars, interfaces, channels, functions, maps, arrays);
`struct id` is the struct type declared under `id` in the type environment. -/
inductive GoType
  | basic (k : Kind)
  | ptr (elem : GoType)
  | slice (elem : GoType)
  | struct (id : Nat)
  deriving DecidableEq, Repr

/-- The method `Type.Kind`. -/
def GoType.Kind : GoType → Kind
  | .basic k => k
  | .ptr _ => .Ptr
  | .slice _ => .Slice
  | .struct _ => .Struct

/-- A struct tag, already split into its `key:"value"` pairs. -/
abbrev StructTag := List (String × String)

/-- The method `StructTag.Lookup`: the value of the first pair with the given key. -/
def StructTag.Lookup : StructTag → String → Option String
  | [], _ => none
  | (k, v) :: rest, key => if k = key then some v else StructTag.Lookup rest key

/-- A field of a struct type (`reflect.StructField`). -/
structure StructField where
  Name : String
  PkgPath : String
  Typ : GoType
  Tag : StructTag
  deriving DecidableEq, Repr

/-- The method `StructField.IsExported`: the package path is empty. -/
def StructField.IsExported (f : StructField) : Bool :=
  f.PkgPath = ""

/-- The struct declarations of the program: the fields, in declaration order, of each struct
type. -/
abbrev TypeEnv := Nat → List StructField

/-! ## Go values -/

/-- The data of a Go value, without its type. -/
inductive Data
  | bool (b : Bool)
  | int (n : Int)
  | float (bits : Nat)
  | str (s : String)
  | nil
  | ptr (target : Data)
  | slice (elems : List Data)
  | struct (fields : List Data)
  | iface (dyn : GoType) (d : Data)
  | other
  deriving Repr

/-- A value of type `any`: `none` is the nil interface, `some (t, d)` holds data `d` of dynamic
type `t`. -/
abbrev AnyVal := Option (GoType × Data)

/-- An addressable `reflect.Value` of kind struct, as `toValues` produces them from the
arguments of `Scan`: the struct type and the data of the fields. -/
structure StructValue where
  typ : Nat
  fields : List Data
  deriving Repr

/-- A `reflect.Value`: the zero Value, or data with its type. A Value is only ever obtained
here from an argument of type `any` or through exported fields, so `Interface` is permitted on
every valid Value. -/
inductive Value
  | invalid
  | mk (t : GoType) (d : Data)
  deriving Repr

/-! ## error.go -/

/-- An argument of a format string. -/
inductive ErrArg
  | str (s : String)
  | typ (t : GoType)
  | values (vs : List StructValue)
  | any (a : AnyVal)
  | value (v : Value)
  deriving Repr

/-- The error kind of the package. The message is `fmt.Sprintf(format, args...)`, kept as the
format with its arguments. -/
structure Error where
  format : String
  args : List ErrArg
  deriving Repr

/-- The constructor `newError`. -/
def newError (format : String) (args : List ErrArg) : Error :=
  Error.mk format args

/-! ## Go maps -/

/-- A Go map as an association list. -/
abbrev GoMap (κ ν : Type) := List (κ × ν)

/-- The index expression `v, found := m[k]`. -/
def GoMap.find {κ ν : Type} [DecidableEq κ] : GoMap κ ν → κ → Option ν
  | [], _ => none
  | (k, v) :: rest, key => if k = key then some v else GoMap.find rest key

/-- The assignment `m[k] = v`: replaces the entry of `k`, or adds one. -/
def GoMap.put {κ ν : Type} [DecidableEq κ] : GoMap κ ν → κ → ν → GoMap κ ν
  | [], key, val => [(key, val)]
  | (k, v) :: rest, key, val =>
    if k = key then (key, val) :: rest else (k, v) :: GoMap.put rest key val

/-- The orders in which `range` may visit the entries of a map: one permutation for each
execution of a `range` statement, numbered by the caller. -/
structure RangeOrder where
  visit : Nat → List (String × Nat) → List (String × Nat)
  visit_perm : ∀ n l, (visit n l).Perm l

/-- The order of insertion. -/
def RangeOrder.insertion : RangeOrder :=
  RangeOrder.mk (fun _ l => l) (fun _ l => List.Perm.refl l)

/-- The reverse of the order of insertion. -/
def RangeOrder.reversed : RangeOrder :=
  RangeOrder.mk (fun _ l => l.reverse) (fun _ l => List.reverse_perm l)

/-! ## slices.go -/

/-- The function `contains`. -/
def contains {α : Type} [DecidableEq α] : List α → α → Bool
  | [], _ => false
  | a :: s, item => if a = item then true else contains s item

/-! ## Outcomes of code that may panic -/

/-- The outcome of running code that may panic: it returns, it panics with a message, or it
has not finished within the recursion budget given to it. -/
inductive Res (α : Type)
  | ret (a : α)
  | panic (msg : String)
  | timeout
  deriving Repr

/-! ## scan.go -/

/-- The constant `SQLTag`. -/
def SQLTag : String := "sql"

/-- The global `SQLTagsCache`: the field index stored for each struct type. -/
abbrev TagsCache := GoMap Nat (Option (GoMap String Nat))

/-- The entries of a map, or the elements of a slice, that may be nil: nil has none. -/
def entries {α : Type} : Option (List α) → List α
  | none => []
  | some l => l

/-- The struct `columnMetadata`. -/
structure columnMetadata where
  structIndex : Nat
  fieldIndex : Nat
  deriving DecidableEq, Repr

/-- The pointer `&values[structIndex].field` to field `fieldIndex`, whose type is `elemType`:
what `value.Field(fieldIndex).Addr().Interface()` holds. -/
structure FieldAddr where
  structIndex : Nat
  fieldIndex : Nat
  elemType : GoType
  deriving DecidableEq, Repr

/-- A call received by the row source. -/
inductive RowsCall
  | Columns
  | Scan (dest : List FieldAddr)
  deriving DecidableEq, Repr

/-- The interface `Rows`, the external row source: what `Columns()` returns, what `Scan(dest...)`
writes through the addresses it is given and returns, and the calls received so far. -/
structure Rows where
  columnsResult : List String × Option Error
  scanResult : List FieldAddr → List (FieldAddr × Data) × Option Error
  calls : List RowsCall

/-- The call `rows.Columns()`. -/
def Rows.Columns (rows : Rows) : (List String × Option Error) × Rows :=
  (rows.columnsResult, Rows.mk rows.columnsResult rows.scanResult (rows.calls ++ [.Columns]))

/-- The call `rows.Scan(dest...)`. -/
def Rows.Scan (rows : Rows) (dest : List FieldAddr) :
    (List (FieldAddr × Data) × Option Error) × Rows :=
  (rows.scanResult dest,
    Rows.mk rows.columnsResult rows.scanResult (rows.calls ++ [.Scan dest]))

/-- The struct `Scanner`; `columns = none` is the nil slice. -/
structure Scanner where
  columns : Option (List columnMetadata)
  rows : Rows

/-- The function `NewScanner`. -/
def NewScanner (rows : Rows) : Scanner :=
  Scanner.mk none rows

/-- The loop of `buildFieldsIndex` from field `i` on, `fields` being the fields from `i`: either
the function returns an error from inside the loop, or the loop ends with `result`. -/
def buildFieldsIndex.loop (t : Nat) :
    List StructField → Nat → GoMap String Nat → Except Error (GoMap String Nat)
  | [], _, result => .ok result
  | field :: rest, i, result =>
    match field.Tag.Lookup SQLTag with
    | some tag =>
      match GoMap.find result tag with
      | some _ =>
        .error (newError "s2x: duplicate SQL tag %q in %v" [.str tag, .typ (.struct t)])
      | none => buildFieldsIndex.loop t rest (i + 1) (GoMap.put result tag i)
    | none => buildFieldsIndex.loop t rest (i + 1) result

/-- The function `buildFieldsIndex`: field index by SQL tag in the given struct type. -/
def buildFieldsIndex (env : TypeEnv) (t : Nat) : Option (GoMap String Nat) × Option Error :=
  match buildFieldsIndex.loop t (env t) 0 [] with
  | .error err => (none, some err)
  | .ok result => (some result, none)

/-- The function `fieldsIndex`, with the cache it reads and the cache it leaves. -/
def fieldsIndex (env : TypeEnv) (cache : TagsCache) (t : Nat) :
    (Option (GoMap String Nat) × Option Error) × TagsCache :=
  match GoMap.find cache t with
  | some cached => ((cached, none), cache)
  | none =>
    match buildFieldsIndex env t with
    | (_, some err) => ((none, some err), cache)
    | (result, none) => ((result, none), GoMap.put cache t result)

/-- The inner loop of `computeMetadata` over the entries of one field index, in the order in
which `range` visits them. -/
def computeMetadata.inner (columns : List String) (values : List StructValue)
    (structIndex : Nat) :
    List (String × Nat) → GoMap String columnMetadata → Except Error (GoMap String columnMetadata)
  | [], result => .ok result
  | (name, fieldIndex) :: rest, result =>
    if !contains columns name then
      computeMetadata.inner columns values structIndex rest result
    else
      match GoMap.find result name with
      | some _ =>
        .error (newError "s2x: duplicate SQL tag %q between structs %v"
          [.str name, .values values])
      | none =>
        computeMetadata.inner columns values structIndex rest
          (GoMap.put result name (columnMetadata.mk structIndex fieldIndex))

/-- The outer loop of `computeMetadata` from target `structIndex` on, `rest` being the targets
from `structIndex`. -/
def computeMetadata.loop (env : TypeEnv) (ρ : RangeOrder) (columns : List String)
    (values : List StructValue) :
    List StructValue → Nat → TagsCache → GoMap String columnMetadata →
      Except Error (GoMap String columnMetadata) × TagsCache
  | [], _, cache, result => (.ok result, cache)
  | v :: rest, structIndex, cache, result =>
    match fieldsIndex env cache v.typ with
    | ((_, some err), cache1) => (.error err, cache1)
    | ((indexByName, none), cache1) =>
      match computeMetadata.inner columns values structIndex
          (ρ.visit structIndex (entries indexByName)) result with
      | .error err => (.error err, cache1)
      | .ok result1 =>
        computeMetadata.loop env ρ columns values rest (structIndex + 1) cache1 result1

/-- The function `computeMetadata`: metadata by SQL tag in the given structs, filtered by the
given columns. -/
def computeMetadata (env : TypeEnv) (ρ : RangeOrder) (columns : List String)
    (values : List StructValue) (cache : TagsCache) :
    (Option (GoMap String columnMetadata) × Option Error) × TagsCache :=
  match computeMetadata.loop env ρ columns values values 0 cache [] with
  | (.error err, cache1) => ((none, some err), cache1)
  | (.ok result, cache1) => ((some result, none), cache1)

/-- The loop of `Scanner.doInit` from column `i` on: the slice `scanner.columns` it leaves and
the error it returns. -/
def Scanner.doInit.loop (columnsByName : GoMap String columnMetadata) :
    List String → Nat → GoMap String Bool → List columnMetadata →
      List columnMetadata × Option Error
  | [], _, _, cols => (cols, none)
  | column :: rest, i, uniq, cols =>
    if (GoMap.find uniq column).getD false then
      (cols, some (newError "s2x: duplicate SQL column %q in query" [.str column]))
    else
      match GoMap.find columnsByName column with
      | none => (cols, some (newError "s2x: missing SQL tag for column %q" [.str column]))
      | some metadata =>
        Scanner.doInit.loop columnsByName rest (i + 1) (GoMap.put uniq column true)
          (cols.set i metadata)

/-- The method `Scanner.doInit`: the scanner it leaves and the error it returns. Its caller
`init` has made `scanner.columns` a slice of `len(columns)` entries, so that the assignments
`scanner.columns[i] = metadata` are in range. -/
def Scanner.doInit (scanner : Scanner) (columns : List String)
    (columnsByName : Option (GoMap String columnMetadata)) : Scanner × Option Error :=
  match Scanner.doInit.loop (entries columnsByName) columns 0 []
      (entries scanner.columns) with
  | (cols, err) => (Scanner.mk (scanner.columns.map (fun _ => cols)) scanner.rows, err)

/-- The method `Scanner.init`: the scanner and the cache it leaves and the error it
returns. -/
def Scanner.init (env : TypeEnv) (ρ : RangeOrder) (scanner : Scanner)
    (values : List StructValue) (cache : TagsCache) : Scanner × TagsCache × Option Error :=
  match scanner.rows.Columns with
  | ((_, some err), rows1) => (Scanner.mk scanner.columns rows1, cache, some err)
  | ((columns, none), rows1) =>
    match computeMetadata env ρ columns values cache with
    | ((_, some err), cache1) => (Scanner.mk scanner.columns rows1, cache1, some err)
    | ((columnsByName, none), cache1) =>
      match Scanner.doInit
          (Scanner.mk (some (List.replicate columns.length (columnMetadata.mk 0 0))) rows1)
          columns columnsByName with
      | (scanner1, err) => (scanner1, cache1, err)

/-- The body of the loop of `Scanner.newDest`:
`values[column.structIndex].Field(column.fieldIndex).Addr().Interface()`. Indexing `values`
and `Field` panic out of range, and `Interface` panics on a value obtained from an unexported
field. -/
def Scanner.newDest.addr (env : TypeEnv) (values : List StructValue)
    (column : columnMetadata) : Res FieldAddr :=
  match values[column.structIndex]? with
  | none => .panic "runtime error: index out of range"
  | some value =>
    match (env value.typ)[column.fieldIndex]? with
    | none => .panic "reflect: Field index out of range"
    | some field =>
      if field.IsExported then
        .ret (FieldAddr.mk column.structIndex column.fieldIndex field.Typ)
      else
        .panic "reflect.Value.Interface: cannot return value obtained from unexported field or method"

/-- The loop of `Scanner.newDest`. -/
def Scanner.newDest.loop (env : TypeEnv) (values : List StructValue) :
    List columnMetadata → Res (List FieldAddr)
  | [] => .ret []
  | column :: rest =>
    match Scanner.newDest.addr env values column with
    | .ret a =>
      match Scanner.newDest.loop env values rest with
      | .ret result => .ret (a :: result)
      | .panic msg => .panic msg
      | .timeout => .timeout
    | .panic msg => .panic msg
    | .timeout => .timeout

/-- The method `Scanner.newDest`. -/
def Scanner.newDest (env : TypeEnv) (scanner : Scanner) (values : List StructValue) :
    Res (List FieldAddr) :=
  Scanner.newDest.loop env values (entries scanner.columns)

/-- The data of a target after one write through a field address. -/
def StructValue.store (v : StructValue) (fieldIndex : Nat) (d : Data) : StructValue :=
  StructValue.mk v.typ (v.fields.set fieldIndex d)

/-- The targets after the writes of the row source, applied in order. -/
def applyWrites : List (FieldAddr × Data) → List StructValue → List StructValue
  | [], values => values
  | (a, d) :: rest, values =>
    applyWrites rest
      (values.modify (fun v => v.store a.fieldIndex d) a.structIndex)

/-- The method `Scanner.doScan`: the error it returns, the scanner and the cache it leaves, and
the targets as the row source leaves them. -/
def Scanner.doScan (env : TypeEnv) (ρ : RangeOrder) (scanner : Scanner)
    (values : List StructValue) (cache : TagsCache) :
    Res (Option Error × Scanner × TagsCache × List StructValue) :=
  match (match scanner.columns with
      | none => Scanner.init env ρ scanner values cache
      | some _ => (scanner, cache, none)) with
  | (scanner1, cache1, some err) => .ret (some err, scanner1, cache1, values)
  | (scanner1, cache1, none) =>
    match Scanner.newDest env scanner1 values with
    | .ret dest =>
      match scanner1.rows.Scan dest with
      | ((writes, err), rows1) =>
        .ret (err, Scanner.mk scanner1.columns rows1, cache1, applyWrites writes values)
    | .panic msg => .panic msg
    | .timeout => .timeout

/-- A row source with the given columns whose `Scan` writes the i-th value of the current row
through the i-th address it is given. -/
def positionalRows (columns : List String) (row : List Data) : Rows :=
  Rows.mk (columns, none) (fun dest => (dest.zip row, none)) []

/-! ## Package reflect: values -/

/-- The function `reflect.ValueOf`. -/
def ValueOf : AnyVal → Value
  | none => .invalid
  | some (t, d) => .mk t d

/-- The method `Value.Kind`. -/
def Value.Kind : Value → Kind
  | .invalid => .Invalid
  | .mk t _ => t.Kind

/-- The method `Value.IsValid`. -/
def Value.IsValid : Value → Bool
  | .invalid => false
  | .mk _ _ => true

/-- The method `Value.Type`, which panics on the zero Value. -/
def Value.Type : Value → Res GoType
  | .invalid => .panic "reflect: call of reflect.Value.Type on zero Value"
  | .mk t _ => .ret t

/-- The method `Value.Elem`: the value a pointer points to or an interface contains, the zero
Value for a nil pointer or interface; it panics on a Value of another kind. -/
def Value.Elem : Value → Res Value
  | .mk (.ptr e) (.ptr d) => .ret (.mk e d)
  | .mk (.ptr _) .nil => .ret .invalid
  | .mk (.basic .Interface) (.iface dyn d) => .ret (.mk dyn d)
  | .mk (.basic .Interface) .nil => .ret .invalid
  | _ => .panic "reflect: call of reflect.Value.Elem on a Value that is no pointer or interface"

/-- The method `Value.Field`: field `i` of a struct, with the declared type of the field. -/
def Value.Field (env : TypeEnv) : Value → Nat → Res Value
  | .mk (.struct id) (.struct ds), i =>
    match (env id)[i]?, ds[i]? with
    | some f, some d => .ret (.mk f.Typ d)
    | _, _ => .panic "reflect: Field index out of range"
  | _, _ => .panic "reflect: call of reflect.Value.Field on a Value that is no struct"

/-- The method `Value.Interface`: the value as an `any`; it panics on the zero Value. The
value of a field of interface type is the `any` it holds. -/
def Value.Interface : Value → Res AnyVal
  | .invalid => .panic "reflect: call of reflect.Value.Interface on zero Value"
  | .mk (.basic .Interface) .nil => .ret none
  | .mk (.basic .Interface) (.iface dyn d) => .ret (some (dyn, d))
  | .mk t d => .ret (some (t, d))

/-! ## struct.go -/

/-- The function value `nilValuer`, as the result of calling it. -/
def nilValuer : Res AnyVal :=
  .ret none

/-- The table `supportedSQLKinds`; a kind that is no key yields false. -/
def supportedSQLKinds : Kind → Bool
  | .Bool => true
  | .Int => true
  | .Int8 => true
  | .Int16 => true
  | .Int32 => true
  | .Int64 => true
  | .Uint => true
  | .Uint8 => true
  | .Uint16 => true
  | .Uint32 => true
  | .Uint64 => true
  | .Float32 => true
  | .Float64 => true
  | .String => true
  | .Interface => true
  | _ => false

/-- The function `supportedColumnType`. -/
def supportedColumnType (t : GoType) : Bool :=
  supportedSQLKinds t.Kind ||
    (t.Kind = .Slice && (match t with
      | .slice e => decide (e.Kind = .Uint8)
      | _ => false))

/-- The function `SQLName`. -/
def SQLName (field : StructField) : String :=
  match field.Tag.Lookup SQLTag with
  | some tag => tag
  | none => ""

/-- The function `toMap`, and its loop from the map built so far. -/
def toMap.loop : List String → GoMap String Bool → GoMap String Bool
  | [], result => result
  | item :: rest, result => toMap.loop rest (GoMap.put result item true)

/-- The function `toMap`. -/
def toMap (a : List String) : GoMap String Bool :=
  toMap.loop a []

/-- The loop of `structValue` on a valid Value, `for kind == Interface || kind == Ptr`: a
non-nil pointer or interface is followed and the loop goes on; on a nil one `Elem` yields the
zero Value, whose kind ends the loop; a Value of another kind ends the loop. -/
def structValue.loop : GoType → Data → Res Value
  | .ptr e, .ptr d => structValue.loop e d
  | .basic .Interface, .iface dyn d => structValue.loop dyn d
  | t, d =>
    if t.Kind = .Interface ∨ t.Kind = .Ptr then (Value.mk t d).Elem else .ret (.mk t d)

/-- The loop of `structValue` from any Value: the zero Value has kind `Invalid`, which ends the
loop at once. -/
def structValue.follow : Value → Res Value
  | .invalid => .ret .invalid
  | .mk t d => structValue.loop t d

/-- The function `structValue`. -/
def structValue (a : AnyVal) : Res (Value × Option Error) :=
  match structValue.follow (ValueOf a) with
  | .ret v =>
    if v.Kind ≠ .Struct then
      .ret (v, some (newError "s2x: failed to find a struct in %v" [.any a]))
    else
      .ret (v, none)
  | .panic msg => .panic msg
  | .timeout => .timeout

/-- The struct `structSQLScanner`. The map `sqlValues` is shared by all copies of the
scanner, so the methods return the scanner with the map as they leave it. -/
structure structSQLScanner where
  root : Value
  exclusions : GoMap String Bool
  sqlValues : GoMap String AnyVal

/-- The method `structSQLScanner.addValue`; `valuer` is the outcome of calling the valuer,
which is only looked at where the source calls it. -/
def structSQLScanner.addValue (scanner : structSQLScanner) (structField : StructField)
    (fieldType : GoType) (valuer : Res AnyVal) : Res (structSQLScanner × Option Error) :=
  if supportedColumnType fieldType then
    if SQLName structField ≠ ""
        ∧ (GoMap.find scanner.exclusions (SQLName structField)).getD false = false then
      match GoMap.find scanner.sqlValues (SQLName structField) with
      | some _ =>
        .ret (scanner, some (newError "s2x: duplicate SQL column %q in struct %v"
          [.str (SQLName structField), .value scanner.root]))
      | none =>
        match valuer with
        | .ret a =>
          .ret (structSQLScanner.mk scanner.root scanner.exclusions
            (GoMap.put scanner.sqlValues (SQLName structField) a), none)
        | .panic msg => .panic msg
        | .timeout => .timeout
    else .ret (scanner, none)
  else .ret (scanner, none)

/-- The loop `for fieldKind == reflect.Ptr` of `scanType`: the type behind the pointers. -/
def derefType : GoType → GoType
  | .ptr e => derefType e
  | t => t

/-- The loop `for fieldKind == reflect.Ptr` of `ScanValue`: the value and the type behind the
pointers. `Elem` of a nil pointer is the zero Value, and `Elem` of the zero Value panics. -/
def derefValue : Value → GoType → Res (Value × GoType)
  | fieldValue, .ptr e =>
    match fieldValue.Elem with
    | .ret fieldValue1 => derefValue fieldValue1 e
    | .panic msg => .panic msg
    | .timeout => .timeout
  | fieldValue, fieldType => .ret (fieldValue, fieldType)

/-- The body of the loop of `scanType` for an exported field, up to the check of `err`. -/
def structSQLScanner.scanType.field
    (recur : structSQLScanner → GoType → Res (structSQLScanner × Option Error))
    (structField : StructField) (scanner : structSQLScanner) :
    Res (structSQLScanner × Option Error) :=
  if (derefType structField.Typ).Kind = .Struct then
    recur scanner (derefType structField.Typ)
  else
    scanner.addValue structField (derefType structField.Typ) nilValuer

/-- The loop of `scanType` over the fields of the type; `recur` is `scanType` itself. -/
def structSQLScanner.scanType.loop
    (recur : structSQLScanner → GoType → Res (structSQLScanner × Option Error)) :
    List StructField → structSQLScanner → Res (structSQLScanner × Option Error)
  | [], scanner => .ret (scanner, none)
  | structField :: rest, scanner =>
    if structField.IsExported = false then
      structSQLScanner.scanType.loop recur rest scanner
    else
      match structSQLScanner.scanType.field recur structField scanner with
      | .ret (scanner1, none) => structSQLScanner.scanType.loop recur rest scanner1
      | .ret (scanner1, some err) => .ret (scanner1, some err)
      | .panic msg => .panic msg
      | .timeout => .timeout

/-- The method `structSQLScanner.scanType`, with a budget for the depth of its recursion;
`NumField` panics on a type that is not a struct. -/
def structSQLScanner.scanType (env : TypeEnv) :
    Nat → structSQLScanner → GoType → Res (structSQLScanner × Option Error)
  | 0, _, _ => .timeout
  | fuel + 1, scanner, .struct id =>
    structSQLScanner.scanType.loop (structSQLScanner.scanType env fuel) (env id) scanner
  | _ + 1, _, _ => .panic "reflect: NumField of non-struct type"

/-- The method `structSQLScanner.structFieldColumns`; `recurV` is `ScanValue` and `recurT` is
`scanType`. -/
def structSQLScanner.structFieldColumns
    (recurV : structSQLScanner → Value → Res (structSQLScanner × Option Error))
    (recurT : structSQLScanner → GoType → Res (structSQLScanner × Option Error))
    (scanner : structSQLScanner) (fieldValue : Value) (fieldType : GoType) :
    Res (structSQLScanner × Option Error) :=
  if fieldValue.IsValid then recurV scanner fieldValue else recurT scanner fieldType

/-- The body of the loop of `ScanValue` for an exported field `i`, up to the check of `err`. -/
def structSQLScanner.ScanValue.field (env : TypeEnv)
    (recurV : structSQLScanner → Value → Res (structSQLScanner × Option Error))
    (recurT : structSQLScanner → GoType → Res (structSQLScanner × Option Error))
    (v : Value) (structField : StructField) (i : Nat) (scanner : structSQLScanner) :
    Res (structSQLScanner × Option Error) :=
  match v.Field env i with
  | .ret fieldValue0 =>
    match fieldValue0.Type with
    | .ret fieldType0 =>
      match derefValue fieldValue0 fieldType0 with
      | .ret (fieldValue, fieldType) =>
        if fieldType.Kind = .Struct then
          structSQLScanner.structFieldColumns recurV recurT scanner fieldValue fieldType
        else
          scanner.addValue structField fieldType fieldValue.Interface
      | .panic msg => .panic msg
      | .timeout => .timeout
    | .panic msg => .panic msg
    | .timeout => .timeout
  | .panic msg => .panic msg
  | .timeout => .timeout

/-- The loop of `ScanValue` from field `i` on, `fields` being the fields of the type of `v`
from `i`. -/
def structSQLScanner.ScanValue.loop (env : TypeEnv)
    (recurV : structSQLScanner → Value → Res (structSQLScanner × Option Error))
    (recurT : structSQLScanner → GoType → Res (structSQLScanner × Option Error))
    (v : Value) :
    List StructField → Nat → structSQLScanner → Res (structSQLScanner × Option Error)
  | [], _, scanner => .ret (scanner, none)
  | structField :: rest, i, scanner =>
    if structField.IsExported = false then
      structSQLScanner.ScanValue.loop env recurV recurT v rest (i + 1) scanner
    else
      match structSQLScanner.ScanValue.field env recurV recurT v structField i scanner with
      | .ret (scanner1, none) =>
        structSQLScanner.ScanValue.loop env recurV recurT v rest (i + 1) scanner1
      | .ret (scanner1, some err) => .ret (scanner1, some err)
      | .panic msg => .panic msg
      | .timeout => .timeout

/-- The method `structSQLScanner.ScanValue`, with a budget for the depth of the recursion
through `structFieldColumns`; `NumField` panics on a Value that is not a struct. -/
def structSQLScanner.ScanValue (env : TypeEnv) :
    Nat → structSQLScanner → Value → Res (structSQLScanner × Option Error)
  | 0, _, _ => .timeout
  | fuel + 1, scanner, .mk (.struct id) d =>
    structSQLScanner.ScanValue.loop env (structSQLScanner.ScanValue env fuel)
      (structSQLScanner.scanType env fuel) (.mk (.struct id) d) (env id) 0 scanner
  | _ + 1, _, _ => .panic "reflect: call of reflect.Value.NumField on a Value that is no struct"

/-- The function `SQLValues`, with a budget for the depth of the recursion of the walk: the
map and the error it returns. -/
def SQLValues (env : TypeEnv) (fuel : Nat) (a : AnyVal) (exclusions : List String) :
    Res (Option (GoMap String AnyVal) × Option Error) :=
  match structValue a with
  | .ret (_, some err) => .ret (none, some err)
  | .ret (v, none) =>
    match structSQLScanner.ScanValue env fuel (structSQLScanner.mk v (toMap exclusions) []) v with
    | .ret (scanner1, err) => .ret (some scanner1.sqlValues, err)
    | .panic msg => .panic msg
    | .timeout => .timeout
  | .panic msg => .panic msg
  | .timeout => .timeout

/-! ## Vocabulary of the properties of scan.go -/

/-- The sql tag a field carries, if it carries one. -/
def sqlTag (f : StructField) : Option String :=
  f.Tag.Lookup SQLTag

/-- The sql tag carried by field `i` of struct type `t`, if there is such a field and it
carries one. -/
def tagAt (env : TypeEnv) (t i : Nat) : Option String :=
  (env t)[i]?.bind sqlTag

/-- The pairs (tag, position) of the fields that carry an sql tag, in declaration order, for
fields numbered from `i`. -/
def taggedFields : List StructField → Nat → List (String × Nat)
  | [], _ => []
  | f :: rest, i =>
    match sqlTag f with
    | some tag => (tag, i) :: taggedFields rest (i + 1)
    | none => taggedFields rest (i + 1)

/-- No two fields of struct type `t` share an sql tag. -/
def UniqueTags (env : TypeEnv) (t : Nat) : Prop :=
  ∀ (i j : Nat) (tag : String), tagAt env t i = some tag → tagAt env t j = some tag → i = j

/-- The tag cache is consistent with `buildFieldsIndex`: every stored entry is what
`buildFieldsIndex` returns, without error, for its key. The empty cache is consistent. -/
def CacheConsistent (env : TypeEnv) (cache : TagsCache) : Prop :=
  ∀ (t : Nat) (idx : Option (GoMap String Nat)),
    GoMap.find cache t = some idx → buildFieldsIndex env t = (idx, none)

/-- The ambiguity errors of the package: a tag carried twice in one struct type, or carried by
two of the target structs. -/
def IsAmbiguity (err : Error) : Prop :=
  err.format = "s2x: duplicate SQL tag %q in %v"
    ∨ err.format = "s2x: duplicate SQL tag %q between structs %v"

/-- Some target declares the column: a field of the type of a target carries the sql tag
`name`. -/
def Declared (env : TypeEnv) (values : List StructValue) (name : String) : Prop :=
  ∃ (s : Nat) (v : StructValue) (f : Nat), values[s]? = some v ∧ tagAt env v.typ f = some name

/-- The targets resolve the columns without ambiguity: no target type carries a tag twice, and
no column is declared by two different targets. -/
def Unambiguous (env : TypeEnv) (values : List StructValue) (columns : List String) : Prop :=
  (∀ (s : Nat) (v : StructValue), values[s]? = some v → UniqueTags env v.typ)
    ∧ ∀ (n : String) (s1 s2 : Nat) (v1 v2 : StructValue) (f1 f2 : Nat), n ∈ columns →
        values[s1]? = some v1 → values[s2]? = some v2 →
        tagAt env v1.typ f1 = some n → tagAt env v2.typ f2 = some n → s1 = s2

/-! ## Vocabulary of the properties of struct.go: the flattened traversal -/

/-- A terminal field that the traversal of a record reaches: the field, its type behind the
pointers, and the outcome of reading its value, which is the nil placeholder under an absent
pointer to a struct and a panic for an absent pointer to a terminal type. -/
structure Leaf where
  field : StructField
  typ : GoType
  value : Res AnyVal

/-- How a traversal ends: it completes, package reflect panics, or the recursion budget is
used up. -/
inductive Status
  | done
  | panic (msg : String)
  | timeout
  deriving DecidableEq, Repr

/-- The leaves a traversal reaches, in order, and how it ends. -/
abbrev Trace := List Leaf × Status

/-- One traversal after another; the second is not started when the first does not
complete. -/
def Trace.andThen (t k : Trace) : Trace :=
  match t.2 with
  | .done => (t.1 ++ k.1, k.2)
  | .panic msg => (t.1, .panic msg)
  | .timeout => (t.1, .timeout)

/-- A leaf is included in the output: its type is on the allow-list, it is annotated with a
non-empty column identifier, and the identifier is not excluded. -/
def Leaf.Included (exclusions : GoMap String Bool) (l : Leaf) : Prop :=
  supportedColumnType l.typ = true ∧ SQLName l.field ≠ ""
    ∧ (GoMap.find exclusions (SQLName l.field)).getD false = false

/-- Inclusion is decidable. -/
instance Leaf.decidableIncluded (exclusions : GoMap String Bool) (l : Leaf) :
    Decidable (l.Included exclusions) := by
  unfold Leaf.Included
  exact inferInstance

/-- The leaves under one exported field of a struct type that is traversed without a value:
those of the struct type behind the field, or the field itself with the nil placeholder. -/
def typeLeaves.field (recur : GoType → Trace) (structField : StructField) : Trace :=
  if (derefType structField.Typ).Kind = .Struct then
    recur (derefType structField.Typ)
  else
    ([Leaf.mk structField (derefType structField.Typ) nilValuer], .done)

/-- The leaves under the exported fields of a list of fields traversed without a value. -/
def typeLeaves.loop (recur : GoType → Trace) : List StructField → Trace
  | [] => ([], .done)
  | structField :: rest =>
    if structField.IsExported = false then
      typeLeaves.loop recur rest
    else
      (typeLeaves.field recur structField).andThen (typeLeaves.loop recur rest)

/-- The flattened traversal of a struct type without a value, to the given depth. -/
def typeLeaves (env : TypeEnv) : Nat → GoType → Trace
  | 0, _ => ([], .timeout)
  | fuel + 1, .struct id => typeLeaves.loop (typeLeaves env fuel) (env id)
  | _ + 1, _ => ([], .panic "reflect: NumField of non-struct type")

/-- The leaves under the exported field `i` of a live struct: those of the struct behind the
field, traversed with its value if the pointers to it are not nil and without a value
otherwise, or the field itself with its value. -/
def valueLeaves.field (env : TypeEnv) (recurV : Value → Trace) (recurT : GoType → Trace)
    (v : Value) (structField : StructField) (i : Nat) : Trace :=
  match v.Field env i with
  | .ret fieldValue0 =>
    match fieldValue0.Type with
    | .ret fieldType0 =>
      match derefValue fieldValue0 fieldType0 with
      | .ret (fieldValue, fieldType) =>
        if fieldType.Kind = .Struct then
          if fieldValue.IsValid then recurV fieldValue else recurT fieldType
        else
          ([Leaf.mk structField fieldType fieldValue.Interface], .done)
      | .panic msg => ([], .panic msg)
      | .timeout => ([], .timeout)
    | .panic msg => ([], .panic msg)
    | .timeout => ([], .timeout)
  | .panic msg => ([], .panic msg)
  | .timeout => ([], .timeout)

/-- The leaves under the exported fields of a live struct, from field `i` on. -/
def valueLeaves.loop (env : TypeEnv) (recurV : Value → Trace) (recurT : GoType → Trace)
    (v : Value) : List StructField → Nat → Trace
  | [], _ => ([], .done)
  | structField :: rest, i =>
    if structField.IsExported = false then
      valueLeaves.loop env recurV recurT v rest (i + 1)
    else
      (valueLeaves.field env recurV recurT v structField i).andThen
        (valueLeaves.loop env recurV recurT v rest (i + 1))

/-- The flattened traversal of a record, to the given depth: its exported fields in declaration
order, through nested structs and pointers to structs, live or absent. -/
def valueLeaves (env : TypeEnv) : Nat → Value → Trace
  | 0, _ => ([], .timeout)
  | fuel + 1, .mk (.struct id) d =>
    valueLeaves.loop env (valueLeaves env fuel) (typeLeaves env fuel) (.mk (.struct id) d)
      (env id) 0
  | _ + 1, _ =>
    ([], .panic "reflect: call of reflect.Value.NumField on a Value that is no struct")

/-- The value collector run over a traversal: `addValue` on each leaf in order, up to the first
error or panic, and then the end of the traversal. -/
def feed : List Leaf → Status → structSQLScanner → Res (structSQLScanner × Option Error)
  | [], .done, scanner => .ret (scanner, none)
  | [], .panic msg, _ => .panic msg
  | [], .timeout, _ => .timeout
  | l :: rest, st, scanner =>
    match scanner.addValue l.field l.typ l.value with
    | .ret (scanner1, none) => feed rest st scanner1
    | .ret (scanner1, some err) => .ret (scanner1, some err)
    | .panic msg => .panic msg
    | .timeout => .timeout

/-- The column identifier of a leaf. -/
def Leaf.name (l : Leaf) : String :=
  SQLName l.field

/-- The entries that the included leaves contribute, in order: the column identifier of each
included leaf with the value read from it. -/
def leafPairs (exclusions : GoMap String Bool) : List Leaf → List (String × AnyVal)
  | [] => []
  | l :: rest =>
    if l.Included exclusions then
      match l.value with
      | .ret a => (l.name, a) :: leafPairs exclusions rest
      | _ => leafPairs exclusions rest
    else leafPairs exclusions rest

/-- The column identifiers of the included leaves, in order. -/
def includedNames (exclusions : GoMap String Bool) : List Leaf → List String
  | [] => []
  | l :: rest =>
    if l.Included exclusions then l.name :: includedNames exclusions rest
    else includedNames exclusions rest

/-- The traversal reaches the leaf at position `j`: reading the value of an included leaf
before it does not panic, as it does on a nil pointer to a terminal type. -/
def Reaches (exclusions : GoMap String Bool) (ls : List Leaf) (j : Nat) : Prop :=
  ∀ (k : Nat) (lk : Leaf), k < j → ls[k]? = some lk → lk.Included exclusions →
    ∃ x, lk.value = .ret x

/-- The leaf of a struct type at the end of a path of field positions: the path goes through
exported fields whose type is, behind any pointers, a struct, and ends at an exported field
whose type is, behind any pointers, not a struct. -/
def leafAt (env : TypeEnv) : GoType → List Nat → Option (StructField × GoType)
  | _, [] => none
  | t, i :: rest =>
    match t with
    | .struct id =>
      match (env id)[i]? with
      | some f =>
        if f.IsExported = false then none
        else if (derefType f.Typ).Kind = .Struct then leafAt env (derefType f.Typ) rest
        else if rest = [] then some (f, derefType f.Typ)
        else none
      | none => none
    | _ => none

/-- The leaf at the end of a path that goes through no pointer: every field on the path, the
last included, has a type that is not a pointer. -/
def leafAtDirect (env : TypeEnv) : GoType → List Nat → Option (StructField × GoType)
  | _, [] => none
  | t, i :: rest =>
    match t with
    | .struct id =>
      match (env id)[i]? with
      | some f =>
        if f.IsExported = false then none
        else
          match f.Typ with
          | .ptr _ => none
          | .struct id1 => leafAtDirect env (.struct id1) rest
          | ft => if rest = [] then some (f, ft) else none
      | none => none
    | _ => none

/-- The zero value of a type of a basic kind: false, 0, the empty string, and nil for an
interface, a channel, a function or a map. -/
def zeroBasic : Kind → Data
  | .Bool => .bool false
  | .Int => .int 0
  | .Int8 => .int 0
  | .Int16 => .int 0
  | .Int32 => .int 0
  | .Int64 => .int 0
  | .Uint => .int 0
  | .Uint8 => .int 0
  | .Uint16 => .int 0
  | .Uint32 => .int 0
  | .Uint64 => .int 0
  | .Uintptr => .int 0
  | .Float32 => .float 0
  | .Float64 => .float 0
  | .String => .str ""
  | .Interface => .nil
  | .Chan => .nil
  | .Func => .nil
  | .Map => .nil
  | .UnsafePointer => .nil
  | _ => .other

/-- The zero value of a type; `n` bounds the nesting of struct values. -/
def zeroData (env : TypeEnv) : Nat → GoType → Data
  | _, .basic k => zeroBasic k
  | _, .ptr _ => .nil
  | _, .slice _ => .nil
  | 0, .struct _ => .other
  | n + 1, .struct id => .struct ((env id).map (fun f => zeroData env n f.Typ))

/-- The zero value of a terminal type as an `any`: the nil interface for an interface type,
else the zero value with its type. -/
def zeroAny (env : TypeEnv) (t : GoType) : AnyVal :=
  if t.Kind = .Interface then none else some (t, zeroData env 0 t)

/-! ## Test data: the records of scan_test.go, of struct_test.go and of the scenarios -/

/-- The field `private string` that ends every test struct. -/
def privateField : StructField :=
  StructField.mk "private" "s2x" (.basic .String) []

/-- The declarations of `testScanStruct` (0), `testScanOtherStruct` (1),
`testScanStructSingleField` (2) and `testScanStructDuplicateField` (3). -/
def testEnv : TypeEnv
  | 0 => [StructField.mk "Bool" "" (.basic .Bool) [("sql", "bool")],
          StructField.mk "Bytes" "" (.slice (.basic .Uint8)) [("sql", "data")],
          StructField.mk "String" "" (.basic .String) [("sql", "string")],
          StructField.mk "Nullable" "" (.ptr (.basic .String)) [("sql", "nullable_string")],
          StructField.mk "Unmapped" "" (.basic .Int) [],
          privateField]
  | 1 => [StructField.mk "Int" "" (.basic .Int) [("sql", "number")],
          StructField.mk "Nullable" "" (.ptr (.basic .Int)) [("sql", "nullable_int")],
          StructField.mk "Unmapped" "" (.basic .Bool) [],
          privateField]
  | 2 => [StructField.mk "Bool" "" (.basic .Bool) [("sql", "bool")], privateField]
  | 3 => [StructField.mk "Bool1" "" (.basic .Bool) [("sql", "bool")],
          StructField.mk "Bool2" "" (.basic .Bool) [("sql", "bool")],
          privateField]
  | _ => []

/-- A struct type whose only field is unexported and carries an sql tag:
`struct { flag bool "sql:\"f\"" }`. -/
def unexportedEnv : TypeEnv
  | 0 => [StructField.mk "flag" "s2x" (.basic .Bool) [("sql", "f")]]
  | _ => []

/-- The record of the scenario of the specification:
`struct { Flag bool "sql:\"f\""; Text string "sql:\"t\"" }`. -/
def scenarioEnv : TypeEnv
  | 0 => [StructField.mk "Flag" "" (.basic .Bool) [("sql", "f")],
          StructField.mk "Text" "" (.basic .String) [("sql", "t")]]
  | _ => []

/-- The declarations of `testStruct` (0), `testNestedStruct` (1), `testNestedStructPointer` (2)
of struct_test.go, and of the records `Outer` (3) and `Inner` (4) of the specification. -/
def structTestEnv : TypeEnv
  | 0 => [StructField.mk "Bool" "" (.basic .Bool) [("sql", "bool")],
          StructField.mk "Bytes" "" (.slice (.basic .Uint8)) [("sql", "data")],
          StructField.mk "Int" "" (.basic .Int) [],
          StructField.mk "String" "" (.basic .String) [("sql", "string")],
          privateField]
  | 1 => [StructField.mk "MainBool" "" (.basic .Bool) [("sql", "mainBool")],
          StructField.mk "MainInt" "" (.basic .Int) [],
          StructField.mk "MainString" "" (.basic .String) [("sql", "mainString")],
          StructField.mk "Nested" "" (.struct 0) [],
          StructField.mk "Reader" "" (.basic .Interface) [],
          privateField]
  | 2 => [StructField.mk "MainBool" "" (.basic .Bool) [("sql", "mainBool")],
          StructField.mk "MainInt" "" (.basic .Int) [],
          StructField.mk "MainString" "" (.basic .String) [("sql", "mainString")],
          StructField.mk "Pointer" "" (.ptr (.struct 0)) [],
          StructField.mk "Reader" "" (.basic .Interface) [],
          privateField]
  | 3 => [StructField.mk "A" "" (.basic .Bool) [("sql", "a")],
          StructField.mk "Inner" "" (.ptr (.struct 4)) []]
  | 4 => [StructField.mk "B" "" (.basic .String) [("sql", "b")]]
  | _ => []

/-- The value `testStruct{}`. -/
def testStructZero : Data :=
  .struct [.bool false, .nil, .int 0, .str "", .str ""]

/-- The value `testNestedStruct{}`. -/
def testNestedStructZero : Data :=
  .struct [.bool false, .int 0, .str "", testStructZero, .nil, .str ""]

/-- The value `testNestedStructPointer{}`. -/
def testNestedStructPointerZero : Data :=
  .struct [.bool false, .int 0, .str "", .nil, .nil, .str ""]

/-- Two records with one column identifier on two leaves: `Dup` (0) is
`struct { A string "sql:\"x\""; Inner *In }` and `In` (1) is `struct { B string "sql:\"x\"" }`. -/
def dupEnv : TypeEnv
  | 0 => [StructField.mk "A" "" (.basic .String) [("sql", "x")],
          StructField.mk "Inner" "" (.ptr (.struct 1)) []]
  | 1 => [StructField.mk "B" "" (.basic .String) [("sql", "x")]]
  | _ => []

/-- Records nested through two pointers: `Top` (0) is `struct { P *Mid }`, `Mid` (1) is
`struct { N int "sql:\"n\""; Q *Low }` and `Low` (2) is `struct { B string "sql:\"b\"" }`. -/
def deepEnv : TypeEnv
  | 0 => [StructField.mk "P" "" (.ptr (.struct 1)) []]
  | 1 => [StructField.mk "N" "" (.basic .Int) [("sql", "n")],
          StructField.mk "Q" "" (.ptr (.struct 2)) []]
  | 2 => [StructField.mk "B" "" (.basic .String) [("sql", "b")]]
  | _ => []

/-- A record whose pointer to a struct is an unexported field: `Hidden` (0) is
`struct { inner *Inner }` and `Inner` (1) is `struct { B string "sql:\"b\"" }`. -/
def hiddenEnv : TypeEnv
  | 0 => [StructField.mk "inner" "s2x" (.ptr (.struct 1)) []]
  | 1 => [StructField.mk "B" "" (.basic .String) [("sql", "b")]]
  | _ => []

/-! ## scan.go: the arguments of `Scan` -/

/-- The method `Value.IsNil`, which panics on a Value whose kind has no nil. -/
def Value.IsNil : Value → Res Bool
  | .invalid => .panic "reflect: call of reflect.Value.IsNil on zero Value"
  | .mk t d =>
    if t.Kind = .Chan ∨ t.Kind = .Func ∨ t.Kind = .Interface ∨ t.Kind = .Map ∨ t.Kind = .Ptr
        ∨ t.Kind = .Slice ∨ t.Kind = .UnsafePointer then
      match d with
      | .nil => .ret true
      | _ => .ret false
    else
      .panic "reflect: call of reflect.Value.IsNil on a Value whose kind has no nil"

/-- The condition `vs.Type().Kind() != reflect.Ptr || vs.IsNil()` of `toValues`: `Type` is
called first, and `IsNil` only on a pointer. -/
def toValues.notPointer (vs : Value) : Res Bool :=
  match vs.Type with
  | .ret t => if t.Kind ≠ .Ptr then .ret true else vs.IsNil
  | .panic msg => .panic msg
  | .timeout => .timeout

/-- The value `result[i]` of `toValues` once its kind is known to be struct, as a target of
the scan. A Value of kind struct has a declared struct type and the data of a struct. -/
def toValues.target : Value → Res StructValue
  | .mk (.struct id) (.struct ds) => .ret (StructValue.mk id ds)
  | _ => .panic "reflect: Value of kind struct without the data of a struct"

/-- The loop of `toValues`: either the function returns an error from inside the loop, or the
loop ends with the targets. -/
def toValues.loop : List AnyVal → Res (Except Error (List StructValue))
  | [] => .ret (.ok [])
  | s :: rest =>
    match toValues.notPointer (ValueOf s) with
    | .ret true => .ret (.error (newError "s2x: expected a non nil pointer, got %v" [.any s]))
    | .ret false =>
      match (ValueOf s).Elem with
      | .ret elem =>
        match elem.Type with
        | .ret t =>
          if t.Kind ≠ .Struct then
            .ret (.error (newError "s2x: expected a pointer on a struct, got %v" [.any s]))
          else
            match toValues.target elem with
            | .ret v =>
              match toValues.loop rest with
              | .ret (.ok result) => .ret (.ok (v :: result))
              | .ret (.error err) => .ret (.error err)
              | .panic msg => .panic msg
              | .timeout => .timeout
            | .panic msg => .panic msg
            | .timeout => .timeout
        | .panic msg => .panic msg
        | .timeout => .timeout
      | .panic msg => .panic msg
      | .timeout => .timeout
    | .panic msg => .panic msg
    | .timeout => .timeout

/-- The function `toValues`. -/
def toValues (structs : List AnyVal) : Res (Option (List StructValue) × Option Error) :=
  match toValues.loop structs with
  | .ret (.ok result) => .ret (some result, none)
  | .ret (.error err) => .ret (none, some err)
  | .panic msg => .panic msg
  | .timeout => .timeout

/-- The method `Scanner.Scan`: the error it returns, the scanner and the cache it leaves, and
the targets as the row source leaves them, none when the arguments are refused. -/
def Scanner.Scan (env : TypeEnv) (ρ : RangeOrder) (scanner : Scanner)
    (structs : List AnyVal) (cache : TagsCache) :
    Res (Option Error × Scanner × TagsCache × List StructValue) :=
  match toValues structs with
  | .ret (_, some err) => .ret (some err, scanner, cache, [])
  | .ret (values, none) => scanner.doScan env ρ (entries values) cache
  | .panic msg => .panic msg
  | .timeout => .timeout

/-! ## Vocabulary of the properties of `Scan` -/

/-- The argument `&x` of `Scan` for a target `x`: a non-nil pointer to a struct. -/
def pointerToStruct (v : StructValue) : AnyVal :=
  some (.ptr (.struct v.typ), .ptr (.struct v.fields))

/-- The number of calls of `rows.Columns()` in a log of calls. -/
def columnsCalls (calls : List RowsCall) : Nat :=
  calls.count RowsCall.Columns

/-- A run of calls of `Scan` on one scanner, each with its own arguments: the scanner and the
cache after the last call. A panic ends the run. -/
def Scanner.scans (env : TypeEnv) (ρ : RangeOrder) :
    List (List AnyVal) → Scanner → TagsCache → Res (Scanner × TagsCache)
  | [], scanner, cache => .ret (scanner, cache)
  | structs :: rest, scanner, cache =>
    match scanner.Scan env ρ structs cache with
    | .ret (_, scanner1, cache1, _) => Scanner.scans env ρ rest scanner1 cache1
    | .panic msg => .panic msg
    | .timeout => .timeout

/-- A typed argument of `Scan` that is no non-nil pointer to a struct: a value that is no
pointer, a nil pointer, or a non-nil pointer to a value that is no struct. The untyped nil is
not among them. -/
def Refused : AnyVal → Prop
  | none => False
  | some (t, d) =>
    t.Kind ≠ .Ptr ∨ (t.Kind = .Ptr ∧ d = .nil)
      ∨ ∃ e x, t = .ptr e ∧ d = .ptr x ∧ e.Kind ≠ .Struct

/-- The errors with which `toValues` refuses argument `s`. -/
def IsRefusal (err : Error) (s : AnyVal) : Prop :=
  (err.format = "s2x: expected a non nil pointer, got %v"
      ∨ err.format = "s2x: expected a pointer on a struct, got %v")
    ∧ err.args = [.any s]

/-! ## Vocabulary of the properties of struct.go: pointers at the root -/

/-- The value `x` behind `n` levels of non-nil pointers: `&x` for `n = 1`, a pointer to `&x`
for `n = 2`. -/
def pointerTo : Nat → GoType × Data → GoType × Data
  | 0, x => x
  | n + 1, x => (.ptr (pointerTo n x).1, .ptr (pointerTo n x).2)

/-! ## Test data: records with nil pointers -/

/-- Records with pointers that may be nil: `Row` (0) is `struct { N *string "sql:\"n\"" }`,
`Deep` (1) is `struct { P **Inner }` and `Inner` (2) is `struct { B string "sql:\"b\"" }`. -/
def nullableEnv : TypeEnv
  | 0 => [StructField.mk "N" "" (.ptr (.basic .String)) [("sql", "n")]]
  | 1 => [StructField.mk "P" "" (.ptr (.ptr (.struct 2))) []]
  | 2 => [StructField.mk "B" "" (.basic .String) [("sql", "b")]]
  | _ => []

/-- The value `testScanStruct{}` of scan_test.go. -/
def testScanStructZero : Data :=
  .struct [.bool false, .nil, .str "", .nil, .int 0, .str ""]

/-! ## Test data: records with fields of many kinds -/

/-- Records for the allow-list of column types: `Mixed` (0) is
`struct { A chan int "sql:\"x\""; B string "sql:\"x\"" }`, `Blank` (1) is
`struct { S string "sql:\"\"" }`, and `Wide` (2) has one annotated field of each of the types
`bool`, `*int64`, `float64`, `[]byte`, `any`, `chan int`, `map[string]int`, `[]int`, `[2]int`,
`func()`, `complex128` and `uintptr`. -/
def kindsEnv : TypeEnv
  | 0 => [StructField.mk "A" "" (.basic .Chan) [("sql", "x")],
          StructField.mk "B" "" (.basic .String) [("sql", "x")]]
  | 1 => [StructField.mk "S" "" (.basic .String) [("sql", "")]]
  | 2 => [StructField.mk "Flag" "" (.basic .Bool) [("sql", "flag")],
          StructField.mk "Count" "" (.ptr (.basic .Int64)) [("sql", "count")],
          StructField.mk "Rate" "" (.basic .Float64) [("sql", "rate")],
          StructField.mk "Raw" "" (.slice (.basic .Uint8)) [("sql", "raw")],
          StructField.mk "Any" "" (.basic .Interface) [("sql", "any")],
          StructField.mk "Ch" "" (.basic .Chan) [("sql", "ch")],
          StructField.mk "M" "" (.basic .Map) [("sql", "m")],
          StructField.mk "Ints" "" (.slice (.basic .Int)) [("sql", "ints")],
          StructField.mk "Arr" "" (.basic .Array) [("sql", "arr")],
          StructField.mk "F" "" (.basic .Func) [("sql", "f")],
          StructField.mk "Z" "" (.basic .Complex128) [("sql", "z")],
          StructField.mk "U" "" (.basic .Uintptr) [("sql", "u")]]
  | _ => []

/-- A value of `Wide` with the pointer set:
`Wide{Flag: true, Count: &7, Raw: []byte{1}, Any: "v", Ints: []int{3}}`. -/
def wideValue : Data :=
  .struct [.bool true, .ptr (.int 7), .float 0, .slice [.int 1],
    .iface (.basic .String) (.str "v"), .nil, .nil, .slice [.int 3], .other, .nil, .other,
    .int 0]

/-! ## Vocabulary of the properties of struct.go: flat records -/

/-- A flat record type: every exported field has a type that is no pointer and no struct; every
field that carries an sql tag is exported, its tag is not empty and its type is on the
allow-list; and no two fields share a tag. -/
def FlatRecord (env : TypeEnv) (T : Nat) : Prop :=
  (∀ f ∈ env T, f.IsExported = true → f.Typ.Kind ≠ .Ptr ∧ f.Typ.Kind ≠ .Struct)
    ∧ (∀ f ∈ env T, sqlTag f ≠ none →
        f.IsExported = true ∧ SQLName f ≠ "" ∧ supportedColumnType f.Typ = true)
    ∧ UniqueTags env T

/-- The leaf of an exported field of a zero-valued flat record. -/
def zeroLeaf (env : TypeEnv) (f : StructField) : Leaf :=
  Leaf.mk f f.Typ (.ret (zeroAny env f.Typ))

/-- The mapping from each sql tag of the fields of `T` to the zero value of its field, in
declaration order. -/
def zeroColumns (env : TypeEnv) (T : Nat) : GoMap String AnyVal :=
  (env T).filterMap (fun f => (sqlTag f).map (fun tag => (tag, zeroAny env f.Typ)))

/-! ## Test data: row sources that fail -/

/-- A row source whose `Columns` fails with `test error`, as in the test
`TestScanner_init/rows_error` of scan_test.go. -/
def failingRows : Rows :=
  Rows.mk ([], some (Error.mk "test error" [])) (fun _ => ([], none)) []

/-- The argument `&Rec{}` of the scenario: a pointer to the record
`{Flag bool "f"; Text string "t"}` with its zero value. -/
def scenarioTarget : AnyVal :=
  pointerToStruct (StructValue.mk 0 [.bool false, .str ""])

/-! ## Vocabulary of the properties of struct.go: the depth of the recursion -/

/-- The struct types are ranked: the rank of a struct type is above the rank of every struct
type that one of its exported fields has behind its pointers. A ranked environment has no
self-referential struct type, directly or indirectly. -/
def Ranked (env : TypeEnv) (rank : Nat → Nat) : Prop :=
  ∀ (id : Nat) (f : StructField), f ∈ env id → f.IsExported = true →
    ∀ id2 : Nat, derefType f.Typ = .struct id2 → rank id2 < rank id

/-- A budget for the depth of the recursion that is enough for the walk of a type in a ranked
environment: two more than the rank of a struct type, and one for another type, on which
`NumField` panics. -/
def typeBudget (rank : Nat → Nat) : GoType → Nat
  | .struct id => rank id + 2
  | _ => 1

/-- A budget that is enough for the walk of a value in a ranked environment. -/
def valueBudget (rank : Nat → Nat) : Value → Nat
  | .invalid => 1
  | .mk t _ => typeBudget rank t

/-! ## Test data: self-referential records -/

/-- Self-referential struct types: `Node` (0) is `struct { Next *Node }`, `Item` (1) is
`struct { V int "sql:\"v\""; Next *Item }`, `Ping` (2) is `struct { Pong *Pong }` and `Pong` (3)
is `struct { Ping *Ping }`, and `Tail` (4) is `struct { Next *Tail; V int "sql:\"v\"" }`. -/
def selfEnv : TypeEnv
  | 0 => [StructField.mk "Next" "" (.ptr (.struct 0)) []]
  | 1 => [StructField.mk "V" "" (.basic .Int) [("sql", "v")],
          StructField.mk "Next" "" (.ptr (.struct 1)) []]
  | 2 => [StructField.mk "Pong" "" (.ptr (.struct 3)) []]
  | 3 => [StructField.mk "Ping" "" (.ptr (.struct 2)) []]
  | 4 => [StructField.mk "Next" "" (.ptr (.struct 4)) [],
          StructField.mk "V" "" (.basic .Int) [("sql", "v")]]
  | _ => []

/-! ## Theorems -/

/-! ### The field index: `buildFieldsIndex` -/

/-- The test `Test_buildFieldsIndex/ok`. -/
theorem buildFieldsIndex_test_ok :
    buildFieldsIndex testEnv 0
      = (some [("bool", 0), ("data", 1), ("string", 2), ("nullable_string", 3)], none) := by
  rfl

/-- A key is not found exactly when it is not among the keys. -/
theorem GoMap.find_eq_none_iff {κ ν : Type} [DecidableEq κ] (m : GoMap κ ν) (k : κ) :
    GoMap.find m k = none ↔ k ∉ m.map Prod.fst := by
  induction m with
  | nil => simp [GoMap.find]
  | cons e rest ih =>
    obtain ⟨k1, v1⟩ := e
    by_cases h : k1 = k
    · simp [GoMap.find, h]
    · simp [GoMap.find, h, ih, Ne.symm h]

/-- Assigning to an absent key appends the entry. -/
theorem GoMap.put_of_find_none {κ ν : Type} [DecidableEq κ] (m : GoMap κ ν) (k : κ) (v : ν)
    (h : GoMap.find m k = none) : GoMap.put m k v = m ++ [(k, v)] := by
  induction m with
  | nil => rfl
  | cons e rest ih =>
    obtain ⟨k1, v1⟩ := e
    by_cases hk : k1 = k
    · simp [GoMap.find, hk] at h
    · simp only [GoMap.find, hk, if_false] at h
      simp [GoMap.put, hk, ih h]

/-- The keys of `taggedFields` are the tags of the fields, in order. -/
theorem taggedFields_keys (fields : List StructField) (i : Nat) :
    (taggedFields fields i).map Prod.fst = fields.filterMap sqlTag := by
  induction fields generalizing i with
  | nil => rfl
  | cons f rest ih =>
    cases h : sqlTag f with
    | none => simp [taggedFields, h, List.filterMap_cons, ih]
    | some tag => simp [taggedFields, h, List.filterMap_cons, ih]

/-- Without a repeated tag the loop of `buildFieldsIndex` appends the tagged fields. -/
theorem buildFieldsIndex_loop_ok (t : Nat) (fields : List StructField) (i : Nat)
    (result : GoMap String Nat)
    (h : (result.map Prod.fst ++ fields.filterMap sqlTag).Nodup) :
    buildFieldsIndex.loop t fields i result = .ok (result ++ taggedFields fields i) := by
  induction fields generalizing i result with
  | nil => simp [buildFieldsIndex.loop, taggedFields]
  | cons f rest ih =>
    cases hf : sqlTag f with
    | none =>
      have hf1 : f.Tag.Lookup SQLTag = none := hf
      simp only [buildFieldsIndex.loop, hf1, taggedFields, hf]
      apply ih
      simpa [List.filterMap_cons, hf] using h
    | some tag =>
      have hf1 : f.Tag.Lookup SQLTag = some tag := hf
      have hnd : (result.map Prod.fst ++ tag :: rest.filterMap sqlTag).Nodup := by
        simpa [List.filterMap_cons, hf] using h
      have hnot : tag ∉ result.map Prod.fst := by
        intro hmem
        have := List.nodup_append.mp hnd
        exact this.2.2 hmem (List.mem_cons_self _ _)
      have hfind : GoMap.find result tag = none := (GoMap.find_eq_none_iff result tag).mpr hnot
      simp only [buildFieldsIndex.loop, hf1, hfind, taggedFields, hf]
      rw [GoMap.put_of_find_none result tag i hfind, ih]
      · simp
      · simpa [List.map_append, List.append_assoc] using hnd

/-- With a repeated tag the loop of `buildFieldsIndex` returns the duplicate-tag error. -/
theorem buildFieldsIndex_loop_error (t : Nat) (fields : List StructField) (i : Nat)
    (result : GoMap String Nat)
    (h : ¬ (result.map Prod.fst ++ fields.filterMap sqlTag).Nodup) 
    (hr : (result.map Prod.fst).Nodup) :
    ∃ tag, tag ∈ fields.filterMap sqlTag ∧ buildFieldsIndex.loop t fields i result
      = .error (newError "s2x: duplicate SQL tag %q in %v" [.str tag, .typ (.struct t)]) := by
  induction fields generalizing i result with
  | nil => simp at h; exact absurd hr h
  | cons f rest ih =>
    cases hf : sqlTag f with
    | none =>
      have hf1 : f.Tag.Lookup SQLTag = none := hf
      simp only [buildFieldsIndex.loop, hf1, List.filterMap_cons, hf]
      apply ih _ _ _ hr
      simpa [List.filterMap_cons, hf] using h
    | some tag =>
      have hf1 : f.Tag.Lookup SQLTag = some tag := hf
      simp only [buildFieldsIndex.loop, hf1, List.filterMap_cons, hf]
      cases hfind : GoMap.find result tag with
      | some v => exact ⟨tag, List.mem_cons_self _ _, rfl⟩
      | none =>
        simp only
        have hnot : tag ∉ result.map Prod.fst := (GoMap.find_eq_none_iff result tag).mp hfind
        rw [GoMap.put_of_find_none result tag i hfind]
        have hr2 : ((result ++ [(tag, i)]).map Prod.fst).Nodup := by
          simp only [List.map_append, List.map_cons, List.map_nil]
          exact List.Nodup.append hr (List.nodup_singleton _) (by simpa using hnot)
        obtain ⟨tag2, hmem, heq⟩ := ih (i + 1) (result ++ [(tag, i)]) (by
          simpa [List.filterMap_cons, hf, List.map_append, List.append_assoc] using h) hr2
        exact ⟨tag2, List.mem_cons_of_mem _ hmem, heq⟩

/-- Membership in a `filterMap` by position. -/
theorem mem_filterMap_iff_index {α β : Type} (f : α → Option β) (l : List α) (b : β) :
    b ∈ l.filterMap f ↔ ∃ j : Nat, l[j]?.bind f = some b := by
  constructor
  · intro h
    obtain ⟨a, ha, hfa⟩ := List.mem_filterMap.mp h
    obtain ⟨j, hj⟩ := List.getElem?_of_mem ha
    exact ⟨j, by simp [hj, hfa]⟩
  · rintro ⟨j, hj⟩
    cases hl : l[j]? with
    | none => simp [hl] at hj
    | some a =>
      simp only [hl, Option.bind_some] at hj
      exact List.mem_filterMap.mpr ⟨a, List.getElem?_mem hl, hj⟩

/-- A `filterMap` has no duplicates exactly when no two positions yield the same value. -/
theorem nodup_filterMap_iff_index {α β : Type} (f : α → Option β) (l : List α) :
    (l.filterMap f).Nodup ↔
      ∀ (i j : Nat) (b : β), l[i]?.bind f = some b → l[j]?.bind f = some b → i = j := by
  induction l with
  | nil => simp
  | cons a l ih =>
    cases hfa : f a with
    | none =>
      rw [List.filterMap_cons, hfa, ih]
      constructor
      · intro h i j b hi hj
        cases i with
        | zero => simp [hfa] at hi
        | succ i =>
          cases j with
          | zero => simp [hfa] at hj
          | succ j =>
            simp only [List.getElem?_cons_succ] at hi hj
            rw [h i j b hi hj]
      · intro h i j b hi hj
        have := h (i + 1) (j + 1) b (by simpa using hi) (by simpa using hj)
        omega
    | some b0 =>
      rw [List.filterMap_cons, hfa, List.nodup_cons, mem_filterMap_iff_index, ih]
      constructor
      · rintro ⟨hno, hnd⟩ i j b hi hj
        cases i with
        | zero =>
          cases j with
          | zero => rfl
          | succ j =>
            simp [hfa] at hi
            simp only [List.getElem?_cons_succ] at hj
            subst hi
            exact absurd ⟨j, hj⟩ hno
        | succ i =>
          cases j with
          | zero =>
            simp [hfa] at hj
            simp only [List.getElem?_cons_succ] at hi
            subst hj
            exact absurd ⟨i, hi⟩ hno
          | succ j =>
            simp only [List.getElem?_cons_succ] at hi hj
            rw [hnd i j b hi hj]
      · intro h
        refine ⟨?_, ?_⟩
        · rintro ⟨j, hj⟩
          have := h 0 (j + 1) b0 (by simp [hfa]) (by simpa using hj)
          omega
        · intro i j b hi hj
          have := h (i + 1) (j + 1) b (by simpa using hi) (by simpa using hj)
          omega

/-- The pairs of `taggedFields` are the tagged positions. -/
theorem mem_taggedFields_iff (fields : List StructField) (i : Nat) (tag : String) (j : Nat) :
    (tag, j) ∈ taggedFields fields i ↔ i ≤ j ∧ fields[j - i]?.bind sqlTag = some tag := by
  induction fields generalizing i with
  | nil => simp [taggedFields]
  | cons f rest ih =>
    cases hf : sqlTag f with
    | none =>
      simp only [taggedFields, hf, ih]
      constructor
      · rintro ⟨hle, h⟩
        refine ⟨by omega, ?_⟩
        have : j - i = (j - (i + 1)) + 1 := by omega
        rw [this, List.getElem?_cons_succ]; exact h
      · rintro ⟨hle, h⟩
        by_cases hij : i = j
        · subst hij; simp [hf] at h
        · refine ⟨by omega, ?_⟩
          have : j - i = (j - (i + 1)) + 1 := by omega
          rw [this, List.getElem?_cons_succ] at h; exact h
    | some tag0 =>
      simp only [taggedFields, hf, List.mem_cons, Prod.mk.injEq, ih]
      constructor
      · rintro (⟨rfl, rfl⟩ | ⟨hle, h⟩)
        · simp [hf]
        · refine ⟨by omega, ?_⟩
          have : j - i = (j - (i + 1)) + 1 := by omega
          rw [this, List.getElem?_cons_succ]; exact h
      · rintro ⟨hle, h⟩
        by_cases hij : i = j
        · subst hij
          simp [hf] at h
          exact Or.inl ⟨h.symm, rfl⟩
        · refine Or.inr ⟨by omega, ?_⟩
          have : j - i = (j - (i + 1)) + 1 := by omega
          rw [this, List.getElem?_cons_succ] at h; exact h

/-- With unique keys, lookup and membership agree. -/
theorem GoMap.find_eq_some_iff_mem {κ ν : Type} [DecidableEq κ] (m : GoMap κ ν)
    (hm : (m.map Prod.fst).Nodup) (k : κ) (v : ν) :
    GoMap.find m k = some v ↔ (k, v) ∈ m := by
  induction m with
  | nil => simp [GoMap.find]
  | cons e rest ih =>
    obtain ⟨k1, v1⟩ := e
    simp only [List.map_cons, List.nodup_cons] at hm
    by_cases h : k1 = k
    · subst h
      simp only [GoMap.find, if_true, Option.some.injEq, List.mem_cons, Prod.mk.injEq, true_and]
      constructor
      · intro h; exact Or.inl h.symm
      · rintro (h | h)
        · exact h.symm
        · exact absurd (List.mem_map_of_mem Prod.fst h) hm.1
    · simp only [GoMap.find, h, if_false, ih hm.2, List.mem_cons, Prod.mk.injEq]
      constructor
      · intro hmem; exact Or.inr hmem
      · rintro (⟨hk, _⟩ | hmem)
        · exact absurd hk.symm h
        · exact hmem

/-- Unique tags, as a property of the list of tags. -/
theorem uniqueTags_iff_nodup (env : TypeEnv) (t : Nat) :
    UniqueTags env t ↔ ((env t).filterMap sqlTag).Nodup :=
  (nodup_filterMap_iff_index sqlTag (env t)).symm

/-- The result of `buildFieldsIndex` on a type without a repeated tag. -/
theorem buildFieldsIndex_of_nodup (env : TypeEnv) (t : Nat)
    (h : ((env t).filterMap sqlTag).Nodup) :
    buildFieldsIndex env t = (some (taggedFields (env t) 0), none) := by
  have := buildFieldsIndex_loop_ok t (env t) 0 [] (by simpa using h)
  simp [buildFieldsIndex, this]

/-- Claim C9. For every struct type `t` in which no two fields share an sql tag,
`buildFieldsIndex(t)` succeeds and returns the map whose entries are exactly the pairs
(tag, position) of the fields of `t` that carry an sql tag: each tag is a key once, a field with
a tag is present at its declaration position, a field without a tag contributes no entry, and
looking a tag up yields that position. -/
theorem buildFieldsIndex_unique_tags (env : TypeEnv) (t : Nat) (h : UniqueTags env t) :
    ∃ m, buildFieldsIndex env t = (some m, none)
      ∧ (m.map Prod.fst).Nodup
      ∧ (∀ (tag : String) (i : Nat), (tag, i) ∈ m ↔ tagAt env t i = some tag)
      ∧ (∀ (tag : String) (i : Nat), GoMap.find m tag = some i ↔ tagAt env t i = some tag) := by
  have hnd := (uniqueTags_iff_nodup env t).mp h
  have hkeys : ((taggedFields (env t) 0).map Prod.fst).Nodup := by
    rw [taggedFields_keys]; exact hnd
  have hmem : ∀ (tag : String) (i : Nat),
      (tag, i) ∈ taggedFields (env t) 0 ↔ tagAt env t i = some tag := by
    intro tag i
    rw [mem_taggedFields_iff]
    simp [tagAt]
  refine ⟨taggedFields (env t) 0, buildFieldsIndex_of_nodup env t hnd, hkeys, hmem, ?_⟩
  intro tag i
  rw [GoMap.find_eq_some_iff_mem _ hkeys, hmem]

/-- Witness of claim C9 on `testScanStruct`. -/
theorem buildFieldsIndex_unique_tags_witness :
    UniqueTags testEnv 0 ∧
    ∃ m, buildFieldsIndex testEnv 0 = (some m, none)
      ∧ (m.map Prod.fst).Nodup
      ∧ (∀ (tag : String) (i : Nat), (tag, i) ∈ m ↔ tagAt testEnv 0 i = some tag)
      ∧ (∀ (tag : String) (i : Nat), GoMap.find m tag = some i ↔ tagAt testEnv 0 i = some tag) :=
  ⟨(uniqueTags_iff_nodup testEnv 0).mpr (by decide),
    buildFieldsIndex_unique_tags testEnv 0 ((uniqueTags_iff_nodup testEnv 0).mpr (by decide))⟩

/-- The result of `buildFieldsIndex` on a type with a repeated tag. -/
theorem buildFieldsIndex_of_not_nodup (env : TypeEnv) (t : Nat)
    (h : ¬ ((env t).filterMap sqlTag).Nodup) :
    ∃ tag, tag ∈ (env t).filterMap sqlTag ∧ buildFieldsIndex env t
      = (none, some (newError "s2x: duplicate SQL tag %q in %v" [.str tag, .typ (.struct t)])) := by
  obtain ⟨tag, hmem, heq⟩ := buildFieldsIndex_loop_error t (env t) 0 [] (by simpa using h)
    (by simp)
  exact ⟨tag, hmem, by simp [buildFieldsIndex, heq]⟩

/-- Claim C10. For every struct type `t`, `buildFieldsIndex(t)` returns an error if and only if
two distinct fields of `t` carry the same sql tag; on error the index returned is nil, and the
error is the duplicate-tag error naming a tag carried by a field of `t`. -/
theorem buildFieldsIndex_error_iff (env : TypeEnv) (t : Nat) :
    ((buildFieldsIndex env t).2 ≠ none ↔
        ∃ (i j : Nat) (tag : String),
          i ≠ j ∧ tagAt env t i = some tag ∧ tagAt env t j = some tag)
      ∧ ((buildFieldsIndex env t).2 ≠ none → (buildFieldsIndex env t).1 = none)
      ∧ (∀ err, (buildFieldsIndex env t).2 = some err →
          ∃ (tag : String) (i : Nat), tagAt env t i = some tag ∧
            err = newError "s2x: duplicate SQL tag %q in %v" [.str tag, .typ (.struct t)]) := by
  by_cases hnd : ((env t).filterMap sqlTag).Nodup
  · have hu := (uniqueTags_iff_nodup env t).mpr hnd
    rw [buildFieldsIndex_of_nodup env t hnd]
    refine ⟨⟨fun h => absurd rfl h, ?_⟩, fun h => absurd rfl h, fun err h => by simp at h⟩
    rintro ⟨i, j, tag, hij, hi, hj⟩
    exact absurd (hu i j tag hi hj) hij
  · obtain ⟨tag, hmem, heq⟩ := buildFieldsIndex_of_not_nodup env t hnd
    rw [heq]
    refine ⟨⟨fun _ => ?_, fun _ => by simp⟩, fun _ => rfl, fun err h => ?_⟩
    · have hu : ¬ UniqueTags env t := fun hu => hnd ((uniqueTags_iff_nodup env t).mp hu)
      simp only [UniqueTags, not_forall] at hu
      obtain ⟨i, j, tag, hi, hj, hij⟩ := hu
      exact ⟨i, j, tag, hij, hi, hj⟩
    · obtain ⟨i, hi⟩ := (mem_filterMap_iff_index sqlTag (env t) tag).mp hmem
      simp only [Option.some.injEq] at h
      exact ⟨tag, i, hi, h.symm⟩

/-- Witness of claim C10 on `testScanStructDuplicateField`, whose fields 0 and 1 both carry the
tag `bool`. -/
theorem buildFieldsIndex_error_iff_witness :
    (buildFieldsIndex testEnv 3).2 ≠ none
      ∧ (∃ (i j : Nat) (tag : String),
          i ≠ j ∧ tagAt testEnv 3 i = some tag ∧ tagAt testEnv 3 j = some tag)
      ∧ (buildFieldsIndex testEnv 3).1 = none :=
  ⟨(buildFieldsIndex_error_iff testEnv 3).1.mpr ⟨0, 1, "bool", by decide, rfl, rfl⟩,
    ⟨0, 1, "bool", by decide, rfl, rfl⟩,
    (buildFieldsIndex_error_iff testEnv 3).2.1
      ((buildFieldsIndex_error_iff testEnv 3).1.mpr ⟨0, 1, "bool", by decide, rfl, rfl⟩)⟩

/-! ### The tag cache and metadata construction: `fieldsIndex`, `computeMetadata` -/

/-- Lookup after an assignment. -/
theorem GoMap.find_put {κ ν : Type} [DecidableEq κ] (m : GoMap κ ν) (k k2 : κ) (v : ν) :
    GoMap.find (GoMap.put m k v) k2 = if k = k2 then some v else GoMap.find m k2 := by
  induction m with
  | nil => simp [GoMap.put, GoMap.find]
  | cons e rest ih =>
    obtain ⟨k1, v1⟩ := e
    by_cases h : k1 = k
    · subst h
      by_cases h2 : k1 = k2 <;> simp [GoMap.put, GoMap.find, h2]
    · by_cases h2 : k1 = k2
      · subst h2
        have : ¬ k = k1 := fun hk => h hk.symm
        simp [GoMap.put, GoMap.find, h, this]
      · simp [GoMap.put, GoMap.find, h, h2, ih]

/-- With an error `buildFieldsIndex` returns a nil index. -/
theorem buildFieldsIndex_fst_of_error (env : TypeEnv) (t : Nat) (x : Option (GoMap String Nat))
    (err : Error) (h : buildFieldsIndex env t = (x, some err)) : x = none := by
  unfold buildFieldsIndex at h
  cases hl : buildFieldsIndex.loop t (env t) 0 [] with
  | error e => rw [hl] at h; simp at h; exact h.1.symm
  | ok r => rw [hl] at h; simp at h

/-- With a consistent cache `fieldsIndex` returns what `buildFieldsIndex` returns and leaves a consistent cache. -/
theorem fieldsIndex_of_consistent (env : TypeEnv) (cache : TagsCache) (t : Nat)
    (hc : CacheConsistent env cache) :
    (fieldsIndex env cache t).1 = buildFieldsIndex env t
      ∧ CacheConsistent env (fieldsIndex env cache t).2 := by
  unfold fieldsIndex
  cases hfind : GoMap.find cache t with
  | some cached => exact ⟨(hc t cached hfind).symm, hc⟩
  | none =>
    rcases hb : buildFieldsIndex env t with ⟨result, _ | err⟩
    · refine ⟨rfl, ?_⟩
      intro t2 idx h2
      simp only [GoMap.find_put] at h2
      by_cases ht : t = t2
      · subst ht
        simp only [if_true, Option.some.injEq] at h2
        rw [← h2, hb]
      · simp only [ht, if_false] at h2
        exact hc t2 idx h2
    · have := buildFieldsIndex_fst_of_error env t result err hb
      subst this
      exact ⟨rfl, hc⟩

/-- The function `contains` decides membership. -/
theorem contains_iff_mem {α : Type} [DecidableEq α] (s : List α) (item : α) :
    contains s item = true ↔ item ∈ s := by
  induction s with
  | nil => simp [contains]
  | cons a s ih =>
    by_cases h : a = item
    · simp [contains, h]
    · simp [contains, h, ih, Ne.symm h]

/-- What a successful run of the inner loop of `computeMetadata` leaves: the entries it found
are kept, every visited name of the query was absent before and is bound afterwards, and every
new entry comes from a visited name of the query. -/
theorem computeMetadata_inner_ok (columns : List String) (values : List StructValue) (s : Nat)
    (l : List (String × Nat)) (result result1 : GoMap String columnMetadata)
    (h : computeMetadata.inner columns values s l result = .ok result1) :
    (∀ n c, GoMap.find result n = some c → GoMap.find result1 n = some c)
      ∧ (∀ n fi, (n, fi) ∈ l → n ∈ columns →
          GoMap.find result n = none ∧ GoMap.find result1 n = some (columnMetadata.mk s fi))
      ∧ (∀ n c, GoMap.find result1 n = some c → GoMap.find result n = some c ∨
          (n ∈ columns ∧ ∃ fi, (n, fi) ∈ l ∧ c = columnMetadata.mk s fi)) := by
  induction l generalizing result with
  | nil =>
    simp only [computeMetadata.inner, Except.ok.injEq] at h
    subst h
    exact ⟨fun _ _ hc => hc, fun _ _ hm => absurd hm (List.not_mem_nil _),
      fun _ _ hc => Or.inl hc⟩
  | cons e rest ih =>
    obtain ⟨name, fieldIndex⟩ := e
    by_cases hcont : contains columns name = true
    · have hmem : name ∈ columns := (contains_iff_mem columns name).mp hcont
      cases hfind : GoMap.find result name with
      | some c0 => simp [computeMetadata.inner, hcont, hfind] at h
      | none =>
        simp only [computeMetadata.inner, hcont, hfind, Bool.not_true, Bool.false_eq_true,
          if_false] at h
        obtain ⟨ih1, ih2, ih3⟩ := ih _ h
        have hput : ∀ n, GoMap.find (GoMap.put result name (columnMetadata.mk s fieldIndex)) n
            = if name = n then some (columnMetadata.mk s fieldIndex) else GoMap.find result n :=
          fun n => GoMap.find_put result name n _
        refine ⟨?_, ?_, ?_⟩
        · intro n c hc
          apply ih1
          rw [hput]
          by_cases hn : name = n
          · subst hn; rw [hfind] at hc; exact absurd hc (by simp)
          · simp [hn, hc]
        · intro n fi hin hncol
          rcases List.mem_cons.mp hin with heq | hin
          · simp only [Prod.mk.injEq] at heq
            obtain ⟨rfl, rfl⟩ := heq
            exact ⟨hfind, ih1 _ _ (by rw [hput]; simp)⟩
          · obtain ⟨h1, h2⟩ := ih2 n fi hin hncol
            rw [hput] at h1
            by_cases hn : name = n
            · simp [hn] at h1
            · simp only [hn, if_false] at h1
              exact ⟨h1, h2⟩
        · intro n c hc
          rcases ih3 n c hc with h1 | ⟨hncol, fi, hin, hceq⟩
          · rw [hput] at h1
            by_cases hn : name = n
            · subst hn
              simp only [if_true, Option.some.injEq] at h1
              exact Or.inr ⟨hmem, fieldIndex, List.mem_cons_self _ _, h1.symm⟩
            · simp only [hn, if_false] at h1
              exact Or.inl h1
          · exact Or.inr ⟨hncol, fi, List.mem_cons_of_mem _ hin, hceq⟩
    · have hcont2 : contains columns name = false := by simpa using hcont
      simp only [computeMetadata.inner, hcont2, Bool.not_false, if_true] at h
      obtain ⟨ih1, ih2, ih3⟩ := ih _ h
      refine ⟨ih1, ?_, ?_⟩
      · intro n fi hin hncol
        rcases List.mem_cons.mp hin with heq | hin
        · simp only [Prod.mk.injEq] at heq
          obtain ⟨rfl, rfl⟩ := heq
          exact absurd ((contains_iff_mem columns n).mpr hncol) hcont
        · exact ih2 n fi hin hncol
      · intro n c hc
        rcases ih3 n c hc with h1 | ⟨hncol, fi, hin, hceq⟩
        · exact Or.inl h1
        · exact Or.inr ⟨hncol, fi, List.mem_cons_of_mem _ hin, hceq⟩

/-- An error of the inner loop of `computeMetadata` is the error for a tag of the query found
in two structs. -/
theorem computeMetadata_inner_error (columns : List String) (values : List StructValue)
    (s : Nat) (l : List (String × Nat)) (result : GoMap String columnMetadata) (err : Error)
    (h : computeMetadata.inner columns values s l result = .error err) :
    ∃ name, name ∈ columns ∧
      err = newError "s2x: duplicate SQL tag %q between structs %v"
        [.str name, .values values] := by
  induction l generalizing result with
  | nil => simp [computeMetadata.inner] at h
  | cons e rest ih =>
    obtain ⟨name, fieldIndex⟩ := e
    by_cases hcont : contains columns name = true
    · cases hfind : GoMap.find result name with
      | some c0 =>
        simp only [computeMetadata.inner, hcont, hfind, Bool.not_true, Bool.false_eq_true,
          if_false, Except.error.injEq] at h
        exact ⟨name, (contains_iff_mem columns name).mp hcont, h.symm⟩
      | none =>
        simp only [computeMetadata.inner, hcont, hfind, Bool.not_true, Bool.false_eq_true,
          if_false] at h
        exact ih _ h
    · have hcont2 : contains columns name = false := by simpa using hcont
      simp only [computeMetadata.inner, hcont2, Bool.not_false, if_true] at h
      exact ih _ h

/-- The error of `buildFieldsIndex` is the duplicate-tag error. -/
theorem buildFieldsIndex_error_fmt (env : TypeEnv) (t : Nat) (err : Error)
    (h : (buildFieldsIndex env t).2 = some err) :
    ∃ (tag : String), tag ∈ (env t).filterMap sqlTag ∧
      err = newError "s2x: duplicate SQL tag %q in %v" [.str tag, .typ (.struct t)] := by
  by_cases hnd : ((env t).filterMap sqlTag).Nodup
  · rw [buildFieldsIndex_of_nodup env t hnd] at h
    simp at h
  · obtain ⟨tag, hmem, heq⟩ := buildFieldsIndex_of_not_nodup env t hnd
    rw [heq] at h
    simp only [Option.some.injEq] at h
    exact ⟨tag, hmem, h.symm⟩

/-- A successful `buildFieldsIndex` returns the tagged fields of a type with unique tags. -/
theorem buildFieldsIndex_ok_inv (env : TypeEnv) (t : Nat) (idx : Option (GoMap String Nat))
    (h : buildFieldsIndex env t = (idx, none)) :
    idx = some (taggedFields (env t) 0) ∧ UniqueTags env t := by
  by_cases hnd : ((env t).filterMap sqlTag).Nodup
  · rw [buildFieldsIndex_of_nodup env t hnd] at h
    simp only [Prod.mk.injEq, and_true] at h
    exact ⟨h.symm, (uniqueTags_iff_nodup env t).mpr hnd⟩
  · obtain ⟨tag, _, heq⟩ := buildFieldsIndex_of_not_nodup env t hnd
    rw [heq] at h
    simp at h

/-- The entries that `range` visits in a field index returned without error are the tagged
positions of the type. -/
theorem mem_visit_iff (env : TypeEnv) (ρ : RangeOrder) (s t : Nat)
    (idx : Option (GoMap String Nat)) (h : buildFieldsIndex env t = (idx, none))
    (n : String) (fi : Nat) :
    (n, fi) ∈ ρ.visit s (entries idx) ↔ tagAt env t fi = some n := by
  obtain ⟨rfl, _⟩ := buildFieldsIndex_ok_inv env t idx h
  rw [(ρ.visit_perm s _).mem_iff]
  simp only [entries]
  rw [mem_taggedFields_iff]
  simp [tagAt]

/-- What a successful run of the outer loop of `computeMetadata` leaves, from a consistent
cache: a consistent cache; the entries it found; for every remaining target, a binding to that
target for each of its tags that the query names, absent before; and no other new entry. -/
theorem computeMetadata_loop_ok (env : TypeEnv) (ρ : RangeOrder) (columns : List String)
    (values rest : List StructValue) (s : Nat) (cache cache1 : TagsCache)
    (result md : GoMap String columnMetadata) (hc : CacheConsistent env cache)
    (h : computeMetadata.loop env ρ columns values rest s cache result = (.ok md, cache1)) :
    CacheConsistent env cache1
      ∧ (∀ (k : Nat) v, rest[k]? = some v → UniqueTags env v.typ)
      ∧ (∀ n c, GoMap.find result n = some c → GoMap.find md n = some c)
      ∧ (∀ (k : Nat) v fi n, rest[k]? = some v → tagAt env v.typ fi = some n → n ∈ columns →
          GoMap.find result n = none ∧ GoMap.find md n = some (columnMetadata.mk (s + k) fi))
      ∧ (∀ n c, GoMap.find md n = some c → GoMap.find result n = some c ∨
          (n ∈ columns ∧ ∃ (k : Nat) (v : StructValue), rest[k]? = some v ∧
            c.structIndex = s + k ∧ tagAt env v.typ c.fieldIndex = some n)) := by
  induction rest generalizing s cache result with
  | nil =>
    simp only [computeMetadata.loop, Prod.mk.injEq, Except.ok.injEq] at h
    obtain ⟨rfl, rfl⟩ := h
    refine ⟨hc, ?_, fun _ _ hf => hf, ?_, fun _ _ hf => Or.inl hf⟩
    · intro k v hk; simp at hk
    · intro k v fi n hk; simp at hk
  | cons v rest ih =>
    obtain ⟨hfi, hc1⟩ := fieldsIndex_of_consistent env cache v.typ hc
    rcases hfx : fieldsIndex env cache v.typ with ⟨⟨indexByName, _ | err⟩, cacheA⟩
    · rw [hfx] at hfi hc1
      simp only at hfi hc1
      have hb : buildFieldsIndex env v.typ = (indexByName, none) := hfi.symm
      cases hin : computeMetadata.inner columns values s
          (ρ.visit s (entries indexByName)) result with
      | error err => simp [computeMetadata.loop, hfx, hin] at h
      | ok result1 =>
        simp only [computeMetadata.loop, hfx, hin] at h
        obtain ⟨i1, i2, i3⟩ := computeMetadata_inner_ok columns values s _ result result1 hin
        obtain ⟨r1, r2, r3, r4, r5⟩ := ih (s + 1) cacheA result1 hc1 h
        refine ⟨r1, ?_, fun n c hf => r3 n c (i1 n c hf), ?_, ?_⟩
        · intro k w hk
          cases k with
          | zero =>
            simp only [List.getElem?_cons_zero, Option.some.injEq] at hk
            subst hk
            exact (buildFieldsIndex_ok_inv env _ _ hb).2
          | succ k => exact r2 k w (by simpa using hk)
        · intro k w fi n hk htag hn
          cases k with
          | zero =>
            simp only [List.getElem?_cons_zero, Option.some.injEq] at hk
            subst hk
            have hmem := (mem_visit_iff env ρ s _ _ hb n fi).mpr htag
            obtain ⟨a1, a2⟩ := i2 n fi hmem hn
            exact ⟨a1, r3 n _ a2⟩
          | succ k =>
            obtain ⟨a1, a2⟩ := r4 k w fi n (by simpa using hk) htag hn
            refine ⟨?_, by rw [a2]; congr 2; omega⟩
            cases hres : GoMap.find result n with
            | none => rfl
            | some c0 => rw [i1 n c0 hres] at a1; simp at a1
        · intro n c hf
          rcases r5 n c hf with h1 | ⟨hn, k, w, hk, hs, htag⟩
          · rcases i3 n c h1 with h2 | ⟨hn, fi, hmem, hceq⟩
            · exact Or.inl h2
            · refine Or.inr ⟨hn, 0, v, by simp, by simp [hceq], ?_⟩
              have := (mem_visit_iff env ρ s _ _ hb n fi).mp hmem
              simpa [hceq] using this
          · exact Or.inr ⟨hn, k + 1, w, by simpa using hk, by omega, htag⟩
    · simp [computeMetadata.loop, hfx] at h

/-- The ambiguity errors: the duplicate tag in one struct type and the duplicate tag between
structs. -/
theorem computeMetadata_loop_error (env : TypeEnv) (ρ : RangeOrder) (columns : List String)
    (values rest : List StructValue) (s : Nat) (cache cache1 : TagsCache)
    (result : GoMap String columnMetadata) (err : Error)
    (h : computeMetadata.loop env ρ columns values rest s cache result = (.error err, cache1)) :
    IsAmbiguity err := by
  induction rest generalizing s cache result with
  | nil => simp [computeMetadata.loop] at h
  | cons v rest ih =>
    rcases hfx : fieldsIndex env cache v.typ with ⟨⟨indexByName, _ | e⟩, cacheA⟩
    · cases hin : computeMetadata.inner columns values s
          (ρ.visit s (entries indexByName)) result with
      | error e =>
        simp only [computeMetadata.loop, hfx, hin, Prod.mk.injEq, Except.error.injEq] at h
        obtain ⟨name, _, heq⟩ := computeMetadata_inner_error columns values s _ result e hin
        rw [← h.1, heq]
        exact Or.inr rfl
      | ok result1 =>
        simp only [computeMetadata.loop, hfx, hin] at h
        exact ih _ _ _ h
    · simp only [computeMetadata.loop, hfx, Prod.mk.injEq, Except.error.injEq] at h
      rw [← h.1]
      unfold fieldsIndex at hfx
      cases hfind : GoMap.find cache v.typ with
      | some cached => rw [hfind] at hfx; simp at hfx
      | none =>
        rw [hfind] at hfx
        rcases hb : buildFieldsIndex env v.typ with ⟨r, _ | e2⟩
        · rw [hb] at hfx; simp at hfx
        · rw [hb] at hfx
          simp only [Prod.mk.injEq, Option.some.injEq] at hfx
          obtain ⟨_, _, h3⟩ := (buildFieldsIndex_error_fmt env v.typ) e2 (by rw [hb])
          rw [← hfx.1.2, h3]
          exact Or.inl rfl

/-! ### Binding the query columns: `Scanner.doInit`, `Scanner.init` -/

/-- What a successful run of the loop of `doInit` leaves in `scanner.columns`: the entries
before `i` untouched and, from `i` on, the metadata found for each column. -/
theorem doInit_loop_ok (md : GoMap String columnMetadata) (rest : List String) (i : Nat)
    (uniq : GoMap String Bool) (cols cols1 : List columnMetadata)
    (hlen : i + rest.length ≤ cols.length)
    (h : Scanner.doInit.loop md rest i uniq cols = (cols1, none)) :
    cols1.length = cols.length
      ∧ (∀ j : Nat, j < i → cols1[j]? = cols[j]?)
      ∧ (∀ (k : Nat) name, rest[k]? = some name →
          ∃ c, GoMap.find md name = some c ∧ cols1[i + k]? = some c) := by
  induction rest generalizing i uniq cols with
  | nil =>
    simp only [Scanner.doInit.loop, Prod.mk.injEq, and_true] at h
    subst h
    exact ⟨rfl, fun _ _ => rfl, fun k name hk => by simp at hk⟩
  | cons column rest ih =>
    by_cases hu : (GoMap.find uniq column).getD false = true
    · simp [Scanner.doInit.loop, hu] at h
    · cases hf : GoMap.find md column with
      | none => simp [Scanner.doInit.loop, hu, hf] at h
      | some metadata =>
        simp only [Scanner.doInit.loop, hu, hf, if_false] at h
        simp only [List.length_cons] at hlen
        obtain ⟨h1, h2, h3⟩ := ih (i + 1) _ (cols.set i metadata)
          (by simp only [List.length_set]; omega) h
        simp only [List.length_set] at h1
        refine ⟨h1, ?_, ?_⟩
        · intro j hj
          rw [h2 j (by omega), List.getElem?_set_ne (by omega)]
        · intro k name hk
          cases k with
          | zero =>
            simp only [List.getElem?_cons_zero, Option.some.injEq] at hk
            subst hk
            refine ⟨metadata, hf, ?_⟩
            rw [Nat.add_zero, h2 i (by omega), List.getElem?_set_eq_of_lt _ (by omega)]
          | succ k =>
            obtain ⟨c, hc1, hc2⟩ := h3 k name (by simpa using hk)
            exact ⟨c, hc1, by rw [← hc2]; congr 1; omega⟩

/-- The loop of `doInit` fails when a remaining column was seen before or occurs twice. -/
theorem doInit_loop_fails_of_dup (md : GoMap String columnMetadata) (rest : List String)
    (i : Nat) (uniq : GoMap String Bool) (cols : List columnMetadata)
    (h : (∃ c ∈ rest, (GoMap.find uniq c).getD false = true) ∨ ¬ rest.Nodup) :
    (Scanner.doInit.loop md rest i uniq cols).2 ≠ none := by
  induction rest generalizing i uniq cols with
  | nil => simp at h
  | cons column rest ih =>
    by_cases hu : (GoMap.find uniq column).getD false = true
    · simp [Scanner.doInit.loop, hu]
    · cases hf : GoMap.find md column with
      | none => simp [Scanner.doInit.loop, hu, hf]
      | some metadata =>
        simp only [Scanner.doInit.loop, hu, hf, if_false]
        apply ih
        rcases h with ⟨c, hc, hcu⟩ | hnd
        · rcases List.mem_cons.mp hc with rfl | hc
          · exact absurd hcu hu
          · refine Or.inl ⟨c, hc, ?_⟩
            rw [GoMap.find_put]
            by_cases hcc : column = c
            · simp [hcc]
            · simpa [hcc] using hcu
        · rw [List.nodup_cons, not_and_or, not_not] at hnd
          rcases hnd with hmem | hnd
          · exact Or.inl ⟨column, hmem, by rw [GoMap.find_put]; simp⟩
          · exact Or.inr hnd

/-- The loop of `doInit` fails when a remaining column has no metadata. -/
theorem doInit_loop_fails_of_unresolved (md : GoMap String columnMetadata)
    (rest : List String) (i : Nat) (uniq : GoMap String Bool) (cols : List columnMetadata)
    (h : ∃ c ∈ rest, GoMap.find md c = none) :
    (Scanner.doInit.loop md rest i uniq cols).2 ≠ none := by
  induction rest generalizing i uniq cols with
  | nil => simp at h
  | cons column rest ih =>
    by_cases hu : (GoMap.find uniq column).getD false = true
    · simp [Scanner.doInit.loop, hu]
    · cases hf : GoMap.find md column with
      | none => simp [Scanner.doInit.loop, hu, hf]
      | some metadata =>
        simp only [Scanner.doInit.loop, hu, hf, if_false]
        apply ih
        obtain ⟨c, hc, hcn⟩ := h
        rcases List.mem_cons.mp hc with rfl | hc
        · rw [hf] at hcn; simp at hcn
        · exact ⟨c, hc, hcn⟩

/-- The error of the loop of `doInit` at the first column that fails, after a prefix of
distinct, unseen, resolved columns: the duplicate-column error if the column was seen or is in
the prefix, else the missing-tag error if it has no metadata. -/
theorem doInit_loop_first_failure (md : GoMap String columnMetadata) (pre : List String)
    (x : String) (post : List String) (i : Nat) (uniq : GoMap String Bool)
    (cols : List columnMetadata)
    (hu : ∀ c ∈ pre, (GoMap.find uniq c).getD false = false) (hpre : pre.Nodup)
    (hres : ∀ c ∈ pre, GoMap.find md c ≠ none) :
    (((GoMap.find uniq x).getD false = true ∨ x ∈ pre) →
        (Scanner.doInit.loop md (pre ++ x :: post) i uniq cols).2
          = some (newError "s2x: duplicate SQL column %q in query" [.str x]))
      ∧ ((GoMap.find uniq x).getD false = false → x ∉ pre → GoMap.find md x = none →
        (Scanner.doInit.loop md (pre ++ x :: post) i uniq cols).2
          = some (newError "s2x: missing SQL tag for column %q" [.str x])) := by
  induction pre generalizing i uniq cols with
  | nil =>
    constructor
    · intro hx
      have hx1 : (GoMap.find uniq x).getD false = true := by simpa using hx
      simp [Scanner.doInit.loop, hx1]
    · intro hx1 _ hx3
      simp [Scanner.doInit.loop, hx1, hx3]
  | cons c pre ih =>
    have huc : (GoMap.find uniq c).getD false = false := hu c (List.mem_cons_self _ _)
    obtain ⟨hcpre, hpre1⟩ := List.nodup_cons.mp hpre
    cases hf : GoMap.find md c with
    | none => exact absurd hf (hres c (List.mem_cons_self _ _))
    | some metadata =>
      have hu1 : ∀ c1 ∈ pre, (GoMap.find (GoMap.put uniq c true) c1).getD false = false := by
        intro c1 hc1
        rw [GoMap.find_put]
        have : ¬ c = c1 := fun heq => hcpre (heq ▸ hc1)
        simpa [this] using hu c1 (List.mem_cons_of_mem _ hc1)
      obtain ⟨ih1, ih2⟩ := ih (i + 1) (GoMap.put uniq c true) (cols.set i metadata) hu1 hpre1
        (fun c1 hc1 => hres c1 (List.mem_cons_of_mem _ hc1))
      constructor
      · intro hx
        simp only [List.cons_append, Scanner.doInit.loop, huc, hf, Bool.false_eq_true, if_false]
        apply ih1
        rw [GoMap.find_put]
        by_cases hcx : c = x
        · simp [hcx]
        · rcases hx with hx | hx
          · left; simpa [hcx] using hx
          · rcases List.mem_cons.mp hx with rfl | hx
            · exact absurd rfl hcx
            · exact Or.inr hx
      · intro hx1 hx2 hx3
        simp only [List.cons_append, Scanner.doInit.loop, huc, hf, Bool.false_eq_true, if_false]
        have hcx : ¬ c = x := fun heq => hx2 (heq ▸ List.mem_cons_self _ _)
        apply ih2
        · rw [GoMap.find_put]; simpa [hcx] using hx1
        · exact fun hmem => hx2 (List.mem_cons_of_mem _ hmem)
        · exact hx3

/-- The function `computeMetadata` in terms of its outer loop. -/
theorem computeMetadata_eq_ok (env : TypeEnv) (ρ : RangeOrder) (columns : List String)
    (values : List StructValue) (cache cache1 : TagsCache)
    (md : Option (GoMap String columnMetadata))
    (h : computeMetadata env ρ columns values cache = ((md, none), cache1)) :
    ∃ m, md = some m ∧
      computeMetadata.loop env ρ columns values values 0 cache [] = (.ok m, cache1) := by
  unfold computeMetadata at h
  rcases hl : computeMetadata.loop env ρ columns values values 0 cache [] with ⟨_ | m, c⟩
  · rw [hl] at h; simp at h
  · rw [hl] at h
    simp only [Prod.mk.injEq, and_true] at h
    exact ⟨m, h.1.symm, by rw [h.2]⟩

/-- Claim C1. For every query column list, every list of target struct values and every tag
cache consistent with `buildFieldsIndex` (the empty cache is), if `Scanner.init` succeeds then
`scanner.columns` has exactly as many entries as the query has columns and, for every position
`i`, entry `i` is `(s, f)` where `s` is a valid index into the targets and field number `f` of
the type of target `s` carries the sql tag equal to column `i`. -/
theorem init_binds_columns (env : TypeEnv) (ρ : RangeOrder) (scanner scanner1 : Scanner)
    (values : List StructValue) (cache cache1 : TagsCache)
    (hc : CacheConsistent env cache)
    (h : Scanner.init env ρ scanner values cache = (scanner1, cache1, none)) :
    ∃ cs, scanner1.columns = some cs
      ∧ cs.length = scanner.rows.columnsResult.1.length
      ∧ ∀ (i : Nat) (name : String), scanner.rows.columnsResult.1[i]? = some name →
          ∃ c v, cs[i]? = some c ∧ values[c.structIndex]? = some v
            ∧ tagAt env v.typ c.fieldIndex = some name := by
  unfold Scanner.init Rows.Columns at h
  rcases hcr : scanner.rows.columnsResult with ⟨columns, _ | e⟩
  · rw [hcr] at h
    simp only at h
    rcases hcm : computeMetadata env ρ columns values cache with ⟨⟨md, _ | e⟩, cacheA⟩
    · rw [hcm] at h
      simp only [Scanner.doInit, entries, Option.map_some', Prod.mk.injEq] at h
      obtain ⟨m, rfl, hloop⟩ := computeMetadata_eq_ok env ρ columns values cache cacheA md hcm
      obtain ⟨_, _, _, _, hsound⟩ :=
        computeMetadata_loop_ok env ρ columns values values 0 cache cacheA [] m hc hloop
      rcases hdi : Scanner.doInit.loop m columns 0 []
          (List.replicate columns.length (columnMetadata.mk 0 0)) with ⟨cols1, err⟩
      rw [hdi] at h
      simp only [entries] at h
      obtain ⟨hs, _, herr⟩ := h
      subst herr
      obtain ⟨h1, _, h3⟩ := doInit_loop_ok m columns 0 [] _ cols1 (by simp) hdi
      refine ⟨cols1, by rw [← hs], by simpa using h1, ?_⟩
      intro i name hi
      obtain ⟨c, hc1, hc2⟩ := h3 i name hi
      rcases hsound name c hc1 with h0 | ⟨_, k, v, hk, hsk, htag⟩
      · simp [GoMap.find] at h0
      · refine ⟨c, v, by simpa using hc2, ?_, htag⟩
        rw [hsk, Nat.zero_add]; exact hk
    · rw [hcm] at h; simp at h
  · rw [hcr] at h; simp at h

/-- Witness of claim C1: the test `TestScanner_init/ok`. -/
theorem init_binds_columns_witness :
    CacheConsistent testEnv []
      ∧ Scanner.init testEnv RangeOrder.reversed
          (NewScanner (positionalRows ["bool", "string", "number"] []))
          [StructValue.mk 0 [], StructValue.mk 1 []] []
        = (Scanner.mk (some [columnMetadata.mk 0 0, columnMetadata.mk 0 2, columnMetadata.mk 1 0])
            (Rows.mk (["bool", "string", "number"], none)
              (positionalRows ["bool", "string", "number"] []).scanResult [RowsCall.Columns]),
          [(0, some [("bool", 0), ("data", 1), ("string", 2), ("nullable_string", 3)]),
            (1, some [("number", 0), ("nullable_int", 1)])], none)
      ∧ ∃ cs, (Scanner.mk (some [columnMetadata.mk 0 0, columnMetadata.mk 0 2,
            columnMetadata.mk 1 0])
            (Rows.mk (["bool", "string", "number"], none)
              (positionalRows ["bool", "string", "number"] []).scanResult
              [RowsCall.Columns])).columns = some cs
        ∧ cs.length = (NewScanner
            (positionalRows ["bool", "string", "number"] [])).rows.columnsResult.1.length
        ∧ ∀ (i : Nat) (name : String),
            (NewScanner (positionalRows ["bool", "string", "number"] [])).rows.columnsResult.1[i]?
              = some name →
            ∃ c v, cs[i]? = some c
              ∧ [StructValue.mk 0 [], StructValue.mk 1 []][c.structIndex]? = some v
              ∧ tagAt testEnv v.typ c.fieldIndex = some name :=
  ⟨fun _ _ h => by simp [GoMap.find] at h, rfl,
    init_binds_columns testEnv RangeOrder.reversed _ _ _ [] _
      (fun _ _ h => by simp [GoMap.find] at h) rfl⟩

/-- The inner loop of `computeMetadata` succeeds when the visited names are distinct and those
that the query names are not bound yet. -/
theorem computeMetadata_inner_succeeds (columns : List String) (values : List StructValue)
    (s : Nat) (l : List (String × Nat)) (result : GoMap String columnMetadata)
    (hl : (l.map Prod.fst).Nodup)
    (habs : ∀ n fi, (n, fi) ∈ l → n ∈ columns → GoMap.find result n = none) :
    ∃ result1, computeMetadata.inner columns values s l result = .ok result1 := by
  induction l generalizing result with
  | nil => exact ⟨result, rfl⟩
  | cons e rest ih =>
    obtain ⟨name, fieldIndex⟩ := e
    simp only [List.map_cons, List.nodup_cons] at hl
    by_cases hcont : contains columns name = true
    · have hmem := (contains_iff_mem columns name).mp hcont
      have hfind := habs name fieldIndex (List.mem_cons_self _ _) hmem
      simp only [computeMetadata.inner, hcont, hfind, Bool.not_true, Bool.false_eq_true,
        if_false]
      apply ih _ hl.2
      intro n fi hin hn
      rw [GoMap.find_put]
      have hne : ¬ name = n := by
        intro heq
        subst heq
        exact hl.1 (List.mem_map_of_mem Prod.fst hin)
      simpa [hne] using habs n fi (List.mem_cons_of_mem _ hin) hn
    · have hcont2 : contains columns name = false := by simpa using hcont
      simp only [computeMetadata.inner, hcont2, Bool.not_false, if_true]
      exact ih _ hl.2 (fun n fi hin hn => habs n fi (List.mem_cons_of_mem _ hin) hn)

/-- The outer loop of `computeMetadata` succeeds, from a consistent cache, when no remaining
target type carries a tag twice, no name of the query declared by a remaining target is bound
yet, and no name of the query is declared by two remaining targets. -/
theorem computeMetadata_loop_succeeds (env : TypeEnv) (ρ : RangeOrder) (columns : List String)
    (values rest : List StructValue) (s : Nat) (cache : TagsCache)
    (result : GoMap String columnMetadata) (hc : CacheConsistent env cache)
    (hu : ∀ (k : Nat) v, rest[k]? = some v → UniqueTags env v.typ)
    (habs : ∀ (k : Nat) v fi n, rest[k]? = some v → tagAt env v.typ fi = some n →
      n ∈ columns → GoMap.find result n = none)
    (hamb : ∀ (n : String) (k1 k2 : Nat) (v1 v2 : StructValue) (f1 f2 : Nat), n ∈ columns →
      rest[k1]? = some v1 → rest[k2]? = some v2 →
      tagAt env v1.typ f1 = some n → tagAt env v2.typ f2 = some n → k1 = k2) :
    ∃ md cache1,
      computeMetadata.loop env ρ columns values rest s cache result = (.ok md, cache1) := by
  induction rest generalizing s cache result with
  | nil => exact ⟨result, cache, rfl⟩
  | cons v rest ih =>
    obtain ⟨hfi, hc1⟩ := fieldsIndex_of_consistent env cache v.typ hc
    have hnd := (uniqueTags_iff_nodup env v.typ).mp (hu 0 v (by simp))
    have hb := buildFieldsIndex_of_nodup env v.typ hnd
    rcases hfx : fieldsIndex env cache v.typ with ⟨res, cacheA⟩
    rw [hfx] at hfi hc1
    simp only at hfi hc1
    rw [hb] at hfi
    subst hfi
    have hkeys : ((ρ.visit s (entries (some (taggedFields (env v.typ) 0)))).map Prod.fst).Nodup := by
      have hp := (ρ.visit_perm s (entries (some (taggedFields (env v.typ) 0)))).map Prod.fst
      rw [hp.nodup_iff]
      simp only [entries]
      rw [taggedFields_keys]
      exact hnd
    have hinabs : ∀ n fi, (n, fi) ∈ ρ.visit s (entries (some (taggedFields (env v.typ) 0))) →
        n ∈ columns → GoMap.find result n = none := by
      intro n fi hin hn
      exact habs 0 v fi n (by simp) ((mem_visit_iff env ρ s _ _ hb n fi).mp hin) hn
    obtain ⟨result1, hin⟩ := computeMetadata_inner_succeeds columns values s _ result hkeys hinabs
    obtain ⟨_, i2, i3⟩ := computeMetadata_inner_ok columns values s _ result result1 hin
    simp only [computeMetadata.loop, hfx, hin]
    apply ih (s + 1) cacheA result1 hc1
    · exact fun k w hk => hu (k + 1) w (by simpa using hk)
    · intro k w fi n hk htag hn
      cases hres : GoMap.find result1 n with
      | none => rfl
      | some c =>
        rcases i3 n c hres with h0 | ⟨_, fi0, hmem0, _⟩
        · rw [habs (k + 1) w fi n (by simpa using hk) htag hn] at h0
          simp at h0
        · have htag0 := (mem_visit_iff env ρ s _ _ hb n fi0).mp hmem0
          have := hamb n 0 (k + 1) v w fi0 fi hn (by simp) (by simpa using hk) htag0 htag
          omega
    · intro n k1 k2 v1 v2 f1 f2 hn h1 h2 t1 t2
      have := hamb n (k1 + 1) (k2 + 1) v1 v2 f1 f2 hn (by simpa using h1) (by simpa using h2)
        t1 t2
      omega

/-- From a consistent cache and targets that resolve the columns without ambiguity,
`computeMetadata` succeeds and binds exactly the declared columns of the query. -/
theorem computeMetadata_of_unambiguous (env : TypeEnv) (ρ : RangeOrder)
    (columns : List String) (values : List StructValue) (cache : TagsCache)
    (hc : CacheConsistent env cache) (hun : Unambiguous env values columns) :
    ∃ md cache1, computeMetadata env ρ columns values cache = ((some md, none), cache1)
      ∧ CacheConsistent env cache1
      ∧ (∀ n, n ∈ columns → Declared env values n → GoMap.find md n ≠ none)
      ∧ (∀ n, GoMap.find md n ≠ none → Declared env values n) := by
  obtain ⟨md, cache1, hloop⟩ := computeMetadata_loop_succeeds env ρ columns values values 0
    cache [] hc hun.1 (fun _ _ _ _ _ _ _ => rfl)
    (fun n k1 k2 v1 v2 f1 f2 hn h1 h2 t1 t2 => hun.2 n k1 k2 v1 v2 f1 f2 hn h1 h2 t1 t2)
  obtain ⟨r1, _, _, r4, r5⟩ :=
    computeMetadata_loop_ok env ρ columns values values 0 cache cache1 [] md hc hloop
  refine ⟨md, cache1, by simp [computeMetadata, hloop], r1, ?_, ?_⟩
  · rintro n hn ⟨s, v, f, hv, htag⟩
    rw [(r4 s v f n hv htag hn).2]
    simp
  · intro n hfound
    cases hf : GoMap.find md n with
    | none => exact absurd hf hfound
    | some c =>
      rcases r5 n c hf with h0 | ⟨_, k, v, hk, _, htag⟩
      · simp [GoMap.find] at h0
      · exact ⟨k, v, c.fieldIndex, hk, htag⟩

/-- The error of `Scanner.init` when `Columns` succeeds: the error of `computeMetadata` if it
has one, else the error of the loop of `doInit`. -/
theorem init_error_eq (env : TypeEnv) (ρ : RangeOrder) (scanner : Scanner)
    (values : List StructValue) (cache : TagsCache) (columns : List String)
    (hcols : scanner.rows.columnsResult = (columns, none)) :
    (Scanner.init env ρ scanner values cache).2.2 =
      match (computeMetadata env ρ columns values cache).1 with
      | (_, some err) => some err
      | (md, none) =>
        (Scanner.doInit.loop (entries md) columns 0 []
          (List.replicate columns.length (columnMetadata.mk 0 0))).2 := by
  unfold Scanner.init Rows.Columns
  rw [hcols]
  simp only
  rcases computeMetadata env ρ columns values cache with ⟨⟨md, _ | e⟩, cacheA⟩
  · simp only [Scanner.doInit, entries]
  · rfl

/-- Claim C6, amended. For every query column list in which a name `x` occurs twice and every
list of targets, `Scanner.init` fails. When moreover the tag cache is consistent, the second
occurrence of `x` is the first repetition in the list, the targets resolve the columns without
ambiguity and every column before that occurrence is declared by a target, the failure is the
duplicate-query-column error `s2x: duplicate SQL column %q in query` naming `x`. -/
theorem init_duplicate_column (env : TypeEnv) (ρ : RangeOrder) (scanner : Scanner)
    (values : List StructValue) (cache : TagsCache) (pre post : List String) (x : String)
    (hcols : scanner.rows.columnsResult = (pre ++ x :: post, none)) (hx : x ∈ pre) :
    (Scanner.init env ρ scanner values cache).2.2 ≠ none
      ∧ (CacheConsistent env cache → pre.Nodup → Unambiguous env values (pre ++ x :: post) →
          (∀ c ∈ pre, Declared env values c) →
          (Scanner.init env ρ scanner values cache).2.2
            = some (newError "s2x: duplicate SQL column %q in query" [.str x])) := by
  rw [init_error_eq env ρ scanner values cache _ hcols]
  constructor
  · rcases computeMetadata env ρ (pre ++ x :: post) values cache with ⟨⟨md, _ | e⟩, cacheA⟩
    · simp only
      apply doInit_loop_fails_of_dup
      right
      intro hnd
      have := (List.nodup_append.mp hnd).2.2 hx (List.mem_cons_self _ _)
      exact this
    · simp
  · intro hc hpre hun hdecl
    obtain ⟨md, cache1, hcm, _, hres, _⟩ :=
      computeMetadata_of_unambiguous env ρ (pre ++ x :: post) values cache hc hun
    rw [hcm]
    simp only [entries]
    refine (doInit_loop_first_failure md pre x post 0 [] _ (fun _ _ => rfl) hpre ?_).1 (Or.inr hx)
    intro c hcpre
    exact hres c (List.mem_append_left _ hcpre) (hdecl c hcpre)

/-- Claim C7, amended. With a consistent tag cache, for every query column list that contains
a name `x` which is not the sql tag of any field of any target, `Scanner.init` fails. When
moreover the columns before `x` are distinct and declared by a target and the targets resolve
the columns without ambiguity, the failure is the unresolved-column error
`s2x: missing SQL tag for column %q` naming `x`. -/
theorem init_unresolved_column (env : TypeEnv) (ρ : RangeOrder) (scanner : Scanner)
    (values : List StructValue) (cache : TagsCache) (pre post : List String) (x : String)
    (hcols : scanner.rows.columnsResult = (pre ++ x :: post, none))
    (hc : CacheConsistent env cache) (hx : ¬ Declared env values x) :
    (Scanner.init env ρ scanner values cache).2.2 ≠ none
      ∧ (pre.Nodup → Unambiguous env values (pre ++ x :: post) →
          (∀ c ∈ pre, Declared env values c) →
          (Scanner.init env ρ scanner values cache).2.2
            = some (newError "s2x: missing SQL tag for column %q" [.str x])) := by
  rw [init_error_eq env ρ scanner values cache _ hcols]
  constructor
  · rcases hcm : computeMetadata env ρ (pre ++ x :: post) values cache with
      ⟨⟨md, _ | e⟩, cacheA⟩
    · simp only
      obtain ⟨m, rfl, hloop⟩ := computeMetadata_eq_ok env ρ _ values cache cacheA md hcm
      obtain ⟨_, _, _, _, r5⟩ :=
        computeMetadata_loop_ok env ρ _ values values 0 cache cacheA [] m hc hloop
      apply doInit_loop_fails_of_unresolved
      refine ⟨x, by simp, ?_⟩
      simp only [entries]
      cases hf : GoMap.find m x with
      | none => rfl
      | some c =>
        rcases r5 x c hf with h0 | ⟨_, k, v, hk, _, htag⟩
        · simp [GoMap.find] at h0
        · exact absurd ⟨k, v, c.fieldIndex, hk, htag⟩ hx
    · simp
  · intro hpre hun hdecl
    obtain ⟨md, cache1, hcm, _, hres, hback⟩ :=
      computeMetadata_of_unambiguous env ρ (pre ++ x :: post) values cache hc hun
    rw [hcm]
    simp only [entries]
    refine (doInit_loop_first_failure md pre x post 0 [] _ (fun _ _ => rfl) hpre ?_).2 rfl
      (fun hmem => hx (hdecl x hmem)) ?_
    · intro c hcpre
      exact hres c (List.mem_append_left _ hcpre) (hdecl c hcpre)
    · cases hf : GoMap.find md x with
      | none => rfl
      | some c => exact absurd (hback x (by simp [hf])) hx

/-- Claim C8, amended. With a consistent tag cache, for every list of targets in which two
different targets both declare the column identifier `x`, and for every query column list that
contains `x`, `computeMetadata` returns a nil map and an ambiguity error (a duplicate tag in a
struct type or between structs), and `Scanner.init` returns that error when `Columns` yields
the list. -/
theorem computeMetadata_ambiguous (env : TypeEnv) (ρ : RangeOrder) (columns : List String)
    (values : List StructValue) (cache : TagsCache) (x : String) (s1 s2 : Nat)
    (v1 v2 : StructValue) (f1 f2 : Nat) (hc : CacheConsistent env cache) (hx : x ∈ columns)
    (hne : s1 ≠ s2) (h1 : values[s1]? = some v1) (h2 : values[s2]? = some v2)
    (t1 : tagAt env v1.typ f1 = some x) (t2 : tagAt env v2.typ f2 = some x) :
    ∃ err, (computeMetadata env ρ columns values cache).1 = (none, some err)
      ∧ IsAmbiguity err
      ∧ ∀ scanner : Scanner, scanner.rows.columnsResult = (columns, none) →
          (Scanner.init env ρ scanner values cache).2.2 = some err := by
  rcases hl : computeMetadata.loop env ρ columns values values 0 cache [] with ⟨e | md, cacheA⟩
  · refine ⟨e, by simp [computeMetadata, hl],
      computeMetadata_loop_error env ρ columns values values 0 cache cacheA [] e hl, ?_⟩
    intro scanner hcols
    rw [init_error_eq env ρ scanner values cache _ hcols]
    simp [computeMetadata, hl]
  · obtain ⟨_, _, _, r4, _⟩ :=
      computeMetadata_loop_ok env ρ columns values values 0 cache cacheA [] md hc hl
    have a1 := (r4 s1 v1 f1 x h1 t1 hx).2
    have a2 := (r4 s2 v2 f2 x h2 t2 hx).2
    rw [a1] at a2
    simp only [Option.some.injEq, columnMetadata.mk.injEq] at a2
    omega
/-- Errors with different formats are different. -/
theorem Error.some_ne_of_format (e1 e2 : Error) (h : e1.format ≠ e2.format) :
    some e1 ≠ some e2 := by
  intro heq
  exact h (congrArg Error.format (Option.some.inj heq))

/-- The empty cache is consistent. -/
theorem cacheConsistent_nil (env : TypeEnv) : CacheConsistent env [] := by
  intro t idx h
  simp [GoMap.find] at h

/-- A single target whose type has unique tags resolves any columns without ambiguity. -/
theorem unambiguous_single (env : TypeEnv) (v : StructValue) (columns : List String)
    (h : UniqueTags env v.typ) : Unambiguous env [v] columns := by
  constructor
  · intro s w hs
    cases s with
    | zero => simp at hs; subst hs; exact h
    | succ s => simp at hs
  · intro n s1 s2 v1 v2 f1 f2 _ h1 h2 _ _
    cases s1 with
    | zero =>
      cases s2 with
      | zero => rfl
      | succ s2 => simp at h2
    | succ s1 => simp at h1

/-- Counterexample to claim C6 as stated: for the columns `["x", "x"]` against a target that
does not declare `x`, `Scanner.init` fails with the unresolved-column error, not with the
duplicate-query-column error. -/
theorem init_duplicate_column_counterexample :
    List.count "x" ["x", "x"] = 2
      ∧ (Scanner.init testEnv RangeOrder.insertion (NewScanner (positionalRows ["x", "x"] []))
          [StructValue.mk 0 []] []).2.2
        = some (newError "s2x: missing SQL tag for column %q" [.str "x"])
      ∧ (Scanner.init testEnv RangeOrder.insertion (NewScanner (positionalRows ["x", "x"] []))
          [StructValue.mk 0 []] []).2.2
        ≠ some (newError "s2x: duplicate SQL column %q in query" [.str "x"]) :=
  ⟨by decide, rfl, Error.some_ne_of_format _ _ (by decide)⟩

/-- Witness of claim C6, amended: the test `TestScanner_init/duplicate SQL column`. -/
theorem init_duplicate_column_witness :
    (Scanner.init testEnv RangeOrder.insertion
        (NewScanner (positionalRows (["bool"] ++ "bool" :: []) []))
        [StructValue.mk 0 []] []).2.2 ≠ none
      ∧ (Scanner.init testEnv RangeOrder.insertion
        (NewScanner (positionalRows (["bool"] ++ "bool" :: []) []))
        [StructValue.mk 0 []] []).2.2
        = some (newError "s2x: duplicate SQL column %q in query" [.str "bool"]) :=
  ⟨(init_duplicate_column testEnv RangeOrder.insertion
      (NewScanner (positionalRows (["bool"] ++ "bool" :: []) [])) [StructValue.mk 0 []] []
      ["bool"] [] "bool" rfl (by decide)).1,
    (init_duplicate_column testEnv RangeOrder.insertion
      (NewScanner (positionalRows (["bool"] ++ "bool" :: []) [])) [StructValue.mk 0 []] []
      ["bool"] [] "bool" rfl (by decide)).2
      (cacheConsistent_nil testEnv) (by decide)
      (unambiguous_single testEnv _ _ ((uniqueTags_iff_nodup testEnv 0).mpr (by decide)))
      (fun c hc => ⟨0, StructValue.mk 0 [], 0, rfl, by
        have : c = "bool" := by simpa using hc
        subst this
        rfl⟩)⟩

/-- Counterexample to claim C7 as stated: for the columns `["bool", "bool", "other"]` against
`testScanStruct`, which has no field tagged `other`, `Scanner.init` fails with the
duplicate-query-column error, not with the unresolved-column error. -/
theorem init_unresolved_column_counterexample :
    (∀ f : Nat, tagAt testEnv 0 f ≠ some "other")
      ∧ (Scanner.init testEnv RangeOrder.insertion
          (NewScanner (positionalRows ["bool", "bool", "other"] []))
          [StructValue.mk 0 []] []).2.2
        = some (newError "s2x: duplicate SQL column %q in query" [.str "bool"])
      ∧ (Scanner.init testEnv RangeOrder.insertion
          (NewScanner (positionalRows ["bool", "bool", "other"] []))
          [StructValue.mk 0 []] []).2.2
        ≠ some (newError "s2x: missing SQL tag for column %q" [.str "other"]) := by
  refine ⟨?_, rfl, Error.some_ne_of_format _ _ (by decide)⟩
  intro f hf
  have hmem : "other" ∈ (testEnv 0).filterMap sqlTag :=
    (mem_filterMap_iff_index sqlTag (testEnv 0) "other").mpr ⟨f, hf⟩
  revert hmem
  decide

/-- Witness of claim C7, amended: the test `TestScanner_init/no SQL tag for column`. -/
theorem init_unresolved_column_witness :
    (Scanner.init testEnv RangeOrder.insertion
        (NewScanner (positionalRows ([] ++ "other" :: []) []))
        [StructValue.mk 0 []] []).2.2 ≠ none
      ∧ (Scanner.init testEnv RangeOrder.insertion
        (NewScanner (positionalRows ([] ++ "other" :: []) []))
        [StructValue.mk 0 []] []).2.2
        = some (newError "s2x: missing SQL tag for column %q" [.str "other"]) := by
  have hx : ¬ Declared testEnv [StructValue.mk 0 []] "other" := by
    rintro ⟨s, v, f, hv, hf⟩
    cases s with
    | zero =>
      simp only [List.getElem?_cons_zero, Option.some.injEq] at hv
      subst hv
      have hmem : "other" ∈ (testEnv 0).filterMap sqlTag :=
        (mem_filterMap_iff_index sqlTag (testEnv 0) "other").mpr ⟨f, hf⟩
      revert hmem
      decide
    | succ s => simp at hv
  exact ⟨(init_unresolved_column testEnv RangeOrder.insertion
      (NewScanner (positionalRows ([] ++ "other" :: []) [])) [StructValue.mk 0 []] []
      [] [] "other" rfl (cacheConsistent_nil testEnv) hx).1,
    (init_unresolved_column testEnv RangeOrder.insertion
      (NewScanner (positionalRows ([] ++ "other" :: []) [])) [StructValue.mk 0 []] []
      [] [] "other" rfl (cacheConsistent_nil testEnv) hx).2
      (by decide)
      (unambiguous_single testEnv _ _ ((uniqueTags_iff_nodup testEnv 0).mpr (by decide)))
      (fun c hc => absurd hc (List.not_mem_nil c))⟩

/-- Counterexample to claim C8 as stated: `testScanStructSingleField` and `testScanStruct` both
declare `bool`, and for the query columns `["string"]` metadata construction succeeds:
`computeMetadata` returns the binding of `string` and `Scanner.init` returns no error. -/
theorem computeMetadata_ambiguous_counterexample :
    tagAt testEnv 2 0 = some "bool" ∧ tagAt testEnv 0 0 = some "bool"
      ∧ (computeMetadata testEnv RangeOrder.insertion ["string"]
          [StructValue.mk 2 [], StructValue.mk 0 []] []).1
        = (some [("string", columnMetadata.mk 1 2)], none)
      ∧ (Scanner.init testEnv RangeOrder.insertion (NewScanner (positionalRows ["string"] []))
          [StructValue.mk 2 [], StructValue.mk 0 []] []).2.2 = none :=
  ⟨rfl, rfl, rfl, rfl⟩

/-- Witness of claim C8, amended: the test `TestScanner_init/duplicate SQL tag`. -/
theorem computeMetadata_ambiguous_witness :
    ∃ err, (computeMetadata testEnv RangeOrder.reversed
          ["bool", "string", "mainBool", "mainString"]
          [StructValue.mk 2 [], StructValue.mk 2 []] []).1 = (none, some err)
      ∧ IsAmbiguity err
      ∧ ∀ scanner : Scanner,
          scanner.rows.columnsResult = (["bool", "string", "mainBool", "mainString"], none) →
          (Scanner.init testEnv RangeOrder.reversed scanner
            [StructValue.mk 2 [], StructValue.mk 2 []] []).2.2 = some err :=
  computeMetadata_ambiguous testEnv RangeOrder.reversed
    ["bool", "string", "mainBool", "mainString"] [StructValue.mk 2 [], StructValue.mk 2 []] []
    "bool" 0 1 (StructValue.mk 2 []) (StructValue.mk 2 []) 0 0 (cacheConsistent_nil testEnv)
    (by decide) (by decide) rfl rfl rfl rfl

/-- The error of the test `TestScanner_init/duplicate SQL tag`. -/
theorem init_test_duplicate_tag :
    (Scanner.init testEnv RangeOrder.reversed
      (NewScanner (positionalRows ["bool", "string", "mainBool", "mainString"] []))
      [StructValue.mk 2 [], StructValue.mk 2 []] []).2.2
      = some (newError "s2x: duplicate SQL tag %q between structs %v"
          [.str "bool", .values [StructValue.mk 2 [], StructValue.mk 2 []]]) :=
  rfl

/-! ### Destinations: `Scanner.newDest`, `Scanner.doScan` -/

/-- When every bound field exists and is exported, the loop of `newDest` returns, for each
entry of `scanner.columns` in order, the address of the bound field in the bound target. -/
theorem newDest_loop_of_exported (env : TypeEnv) (values : List StructValue)
    (cs : List columnMetadata)
    (h : ∀ c ∈ cs, ∃ v field, values[c.structIndex]? = some v
      ∧ (env v.typ)[c.fieldIndex]? = some field ∧ field.IsExported = true) :
    ∃ dest, Scanner.newDest.loop env values cs = .ret dest
      ∧ dest.length = cs.length
      ∧ ∀ (i : Nat) c, cs[i]? = some c →
          ∃ v field, values[c.structIndex]? = some v
            ∧ (env v.typ)[c.fieldIndex]? = some field
            ∧ dest[i]? = some (FieldAddr.mk c.structIndex c.fieldIndex field.Typ) := by
  induction cs with
  | nil => exact ⟨[], rfl, rfl, fun i c hi => by simp at hi⟩
  | cons c rest ih =>
    obtain ⟨v, field, hv, hf, hexp⟩ := h c (List.mem_cons_self _ _)
    obtain ⟨dest, hd, hlen, hall⟩ := ih (fun c1 hc1 => h c1 (List.mem_cons_of_mem _ hc1))
    have haddr : Scanner.newDest.addr env values c
        = .ret (FieldAddr.mk c.structIndex c.fieldIndex field.Typ) := by
      simp only [Scanner.newDest.addr, hv, hf, hexp, if_true]
    refine ⟨FieldAddr.mk c.structIndex c.fieldIndex field.Typ :: dest,
      by simp only [Scanner.newDest.loop, haddr, hd], by simp [hlen], ?_⟩
    intro i c1 hi
    cases i with
    | zero =>
      simp only [List.getElem?_cons_zero, Option.some.injEq] at hi
      subst hi
      exact ⟨v, field, hv, hf, by simp⟩
    | succ i =>
      obtain ⟨v1, field1, a1, a2, a3⟩ := hall i c1 (by simpa using hi)
      exact ⟨v1, field1, a1, a2, by simpa using a3⟩

/-- On a scanner whose `columns` are a complete binding of the query columns, as a successful
`Scanner.init` leaves them, and on targets whose tagged fields are exported, `newDest` returns
as many destinations as the query has columns, and the i-th destination is the address of the
field that carries the tag of column `i`. -/
theorem newDest_of_binding (env : TypeEnv) (scanner1 : Scanner) (values : List StructValue)
    (columns : List String) (cs : List columnMetadata)
    (hexp : ∀ (s : Nat) v (f : Nat) field tag, values[s]? = some v →
      (env v.typ)[f]? = some field → sqlTag field = some tag → field.IsExported = true)
    (hcs : scanner1.columns = some cs) (hlen : cs.length = columns.length)
    (hall : ∀ (i : Nat) (name : String), columns[i]? = some name →
      ∃ c v, cs[i]? = some c ∧ values[c.structIndex]? = some v
        ∧ tagAt env v.typ c.fieldIndex = some name) :
    ∃ dest, Scanner.newDest env scanner1 values = .ret dest
      ∧ dest.length = columns.length
      ∧ ∀ (i : Nat) (name : String), columns[i]? = some name →
          ∃ a v field, dest[i]? = some a ∧ values[a.structIndex]? = some v
            ∧ (env v.typ)[a.fieldIndex]? = some field ∧ sqlTag field = some name
            ∧ a.elemType = field.Typ := by
  have hbound : ∀ c ∈ cs, ∃ v field, values[c.structIndex]? = some v
      ∧ (env v.typ)[c.fieldIndex]? = some field ∧ field.IsExported = true := by
    intro c hcmem
    obtain ⟨i, hi⟩ := List.getElem?_of_mem hcmem
    have hilt : i < columns.length := by
      rw [← hlen]
      exact (List.getElem?_eq_some_iff.mp hi).1
    obtain ⟨c1, v, hc1, hv, htag⟩ := hall i _ (List.getElem?_eq_getElem hilt)
    rw [hi] at hc1
    simp only [Option.some.injEq] at hc1
    subst hc1
    unfold tagAt at htag
    cases hf : (env v.typ)[c.fieldIndex]? with
    | none => rw [hf] at htag; simp at htag
    | some field =>
      rw [hf] at htag
      exact ⟨v, field, hv, hf, hexp _ v _ field _ hv hf htag⟩
  obtain ⟨dest, hd, hdlen, hdall⟩ := newDest_loop_of_exported env values cs hbound
  refine ⟨dest, by simp only [Scanner.newDest, hcs, entries, hd], by rw [hdlen, hlen], ?_⟩
  intro i name hi
  obtain ⟨c, v, hc1, hv, htag⟩ := hall i name hi
  obtain ⟨v1, field, a1, a2, a3⟩ := hdall i c hc1
  rw [hv] at a1
  simp only [Option.some.injEq] at a1
  subst a1
  refine ⟨_, v, field, a3, hv, a2, ?_, rfl⟩
  unfold tagAt at htag
  rw [a2] at htag
  exact htag

/-- Claim C2 at the failing input `struct { flag bool "sql:\"f\"" }` with query columns
`["f"]`: `Scanner.init` succeeds and binds column `f` to the unexported field, and then
`newDest` panics instead of returning the one destination, so that `doScan` panics too. -/
theorem newDest_panics_on_unexported_field :
    Scanner.init unexportedEnv RangeOrder.insertion (NewScanner (positionalRows ["f"] [.bool true]))
        [StructValue.mk 0 [.bool false]] []
      = (Scanner.mk (some [columnMetadata.mk 0 0])
          (Rows.mk (["f"], none) (positionalRows ["f"] [.bool true]).scanResult
            [RowsCall.Columns]),
         [(0, some [("f", 0)])], none)
      ∧ Scanner.newDest unexportedEnv
          (Scanner.mk (some [columnMetadata.mk 0 0])
            (Rows.mk (["f"], none) (positionalRows ["f"] [.bool true]).scanResult
              [RowsCall.Columns]))
          [StructValue.mk 0 [.bool false]]
        = .panic
          "reflect.Value.Interface: cannot return value obtained from unexported field or method"
      ∧ Scanner.doScan unexportedEnv RangeOrder.insertion
          (NewScanner (positionalRows ["f"] [.bool true])) [StructValue.mk 0 [.bool false]] []
        = .panic
          "reflect.Value.Interface: cannot return value obtained from unexported field or method" :=
  ⟨rfl, rfl, rfl⟩

/-- The scenario of the specification: record `{Flag bool "f"; Text string "t"}`, query columns
`["f", "t"]`, row `(true, "hi")`. `newDest` returns the addresses of `Flag` and `Text`, and
the scan leaves `{Flag: true, Text: "hi"}`. -/
theorem doScan_scenario :
    (∃ scanner1 cache1,
        Scanner.init scenarioEnv RangeOrder.insertion
            (NewScanner (positionalRows ["f", "t"] [.bool true, .str "hi"]))
            [StructValue.mk 0 [.bool false, .str ""]] [] = (scanner1, cache1, none)
          ∧ Scanner.newDest scenarioEnv scanner1 [StructValue.mk 0 [.bool false, .str ""]]
            = .ret [FieldAddr.mk 0 0 (.basic .Bool), FieldAddr.mk 0 1 (.basic .String)])
      ∧ ∃ scanner1 cache1,
        Scanner.doScan scenarioEnv RangeOrder.insertion
            (NewScanner (positionalRows ["f", "t"] [.bool true, .str "hi"]))
            [StructValue.mk 0 [.bool false, .str ""]] []
          = .ret (none, scanner1, cache1, [StructValue.mk 0 [.bool true, .str "hi"]]) :=
  ⟨⟨_, _, rfl, rfl⟩, ⟨_, _, rfl⟩⟩

/-! ### The walk of `SQLValues` as a value collector run over the flattened traversal -/

/-- Feeding one traversal after another: the first is fed, and the second only if the first
completes without error. -/
theorem feed_andThen (ls : List Leaf) (st : Status) (k : Trace) (scanner : structSQLScanner) :
    feed (Trace.andThen (ls, st) k).1 (Trace.andThen (ls, st) k).2 scanner =
      match feed ls st scanner with
      | .ret (scanner1, none) => feed k.1 k.2 scanner1
      | .ret (scanner1, some err) => .ret (scanner1, some err)
      | .panic msg => .panic msg
      | .timeout => .timeout := by
  induction ls generalizing scanner with
  | nil =>
    cases st <;> simp [Trace.andThen, feed]
  | cons l rest ih =>
    have hstep : Trace.andThen (l :: rest, st) k
        = (l :: (Trace.andThen (rest, st) k).1, (Trace.andThen (rest, st) k).2) := by
      cases st <;> simp [Trace.andThen]
    rw [hstep]
    simp only [feed]
    rcases scanner.addValue l.field l.typ l.value with ⟨s1, _ | e⟩ | m | _
    · simpa using ih s1
    · rfl
    · rfl
    · rfl

/-- The loop of `scanType` is the value collector run over the leaves of the fields, when the
recursive call is. -/
theorem scanType_loop_eq_feed
    (recur : structSQLScanner → GoType → Res (structSQLScanner × Option Error))
    (leaves : GoType → Trace)
    (hrec : ∀ scanner t, recur scanner t = feed (leaves t).1 (leaves t).2 scanner)
    (fields : List StructField) (scanner : structSQLScanner) :
    structSQLScanner.scanType.loop recur fields scanner
      = feed (typeLeaves.loop leaves fields).1 (typeLeaves.loop leaves fields).2 scanner := by
  induction fields generalizing scanner with
  | nil => rfl
  | cons f rest ih =>
    by_cases hexp : f.IsExported = false
    · simp only [structSQLScanner.scanType.loop, typeLeaves.loop, hexp, if_true, ih]
    · have hexp1 : f.IsExported = true := by simpa using hexp
      simp only [structSQLScanner.scanType.loop, typeLeaves.loop, hexp1, Bool.true_eq_false,
        if_false]
      have hfield : structSQLScanner.scanType.field recur f scanner
          = feed (typeLeaves.field leaves f).1 (typeLeaves.field leaves f).2 scanner := by
        unfold structSQLScanner.scanType.field typeLeaves.field
        by_cases hk : (derefType f.Typ).Kind = .Struct
        · simp only [hk, if_true, hrec]
        · simp only [hk, if_false, feed]
          rcases scanner.addValue f (derefType f.Typ) nilValuer with ⟨s1, _ | e⟩ | m | _ <;> rfl
      rw [hfield]
      obtain ⟨ls, st⟩ := typeLeaves.field leaves f
      rw [feed_andThen]
      rcases feed ls st scanner with ⟨s1, _ | e⟩ | m | _
      · exact ih s1
      · rfl
      · rfl
      · rfl

/-- The method `scanType` is the value collector run over the flattened traversal of the
type. -/
theorem scanType_eq_feed (env : TypeEnv) (fuel : Nat) (scanner : structSQLScanner)
    (t : GoType) :
    structSQLScanner.scanType env fuel scanner t
      = feed (typeLeaves env fuel t).1 (typeLeaves env fuel t).2 scanner := by
  induction fuel generalizing scanner t with
  | zero => rfl
  | succ fuel ih =>
    cases t with
    | struct id =>
      simp only [structSQLScanner.scanType, typeLeaves]
      exact scanType_loop_eq_feed _ _ ih _ _
    | basic k => rfl
    | ptr e => rfl
    | slice e => rfl

/-- The loop of `ScanValue` is the value collector run over the leaves of the fields, when the
recursive calls are. -/
theorem ScanValue_loop_eq_feed (env : TypeEnv)
    (recurV : structSQLScanner → Value → Res (structSQLScanner × Option Error))
    (recurT : structSQLScanner → GoType → Res (structSQLScanner × Option Error))
    (leavesV : Value → Trace) (leavesT : GoType → Trace)
    (hV : ∀ scanner v, recurV scanner v = feed (leavesV v).1 (leavesV v).2 scanner)
    (hT : ∀ scanner t, recurT scanner t = feed (leavesT t).1 (leavesT t).2 scanner)
    (v : Value) (fields : List StructField) (i : Nat) (scanner : structSQLScanner) :
    structSQLScanner.ScanValue.loop env recurV recurT v fields i scanner
      = feed (valueLeaves.loop env leavesV leavesT v fields i).1
          (valueLeaves.loop env leavesV leavesT v fields i).2 scanner := by
  induction fields generalizing i scanner with
  | nil => rfl
  | cons f rest ih =>
    by_cases hexp : f.IsExported = false
    · simp only [structSQLScanner.ScanValue.loop, valueLeaves.loop, hexp, if_true, ih]
    · have hexp1 : f.IsExported = true := by simpa using hexp
      simp only [structSQLScanner.ScanValue.loop, valueLeaves.loop, hexp1, Bool.true_eq_false,
        if_false]
      have hfield : structSQLScanner.ScanValue.field env recurV recurT v f i scanner
          = feed (valueLeaves.field env leavesV leavesT v f i).1
              (valueLeaves.field env leavesV leavesT v f i).2 scanner := by
        unfold structSQLScanner.ScanValue.field valueLeaves.field
        cases v.Field env i with
        | panic m => rfl
        | timeout => rfl
        | ret fv0 =>
          simp only []
          cases fv0.Type with
          | panic m => rfl
          | timeout => rfl
          | ret ft0 =>
            simp only []
            cases derefValue fv0 ft0 with
            | panic m => rfl
            | timeout => rfl
            | ret p =>
              obtain ⟨fv, ft⟩ := p
              simp only []
              by_cases hk : ft.Kind = .Struct
              · cases hvalid : fv.IsValid with
                | true =>
                  simp only [hk, if_true, structSQLScanner.structFieldColumns, hvalid, hV]
                | false =>
                  simp only [hk, if_true, structSQLScanner.structFieldColumns, hvalid, hT,
                    Bool.false_eq_true, if_false]
              · simp only [hk, if_false, feed]
                rcases scanner.addValue f ft fv.Interface with ⟨s1, _ | e⟩ | m | _ <;> rfl
      rw [hfield]
      obtain ⟨ls, st⟩ := valueLeaves.field env leavesV leavesT v f i
      rw [feed_andThen]
      rcases feed ls st scanner with ⟨s1, _ | e⟩ | m | _
      · exact ih (i + 1) s1
      · rfl
      · rfl
      · rfl

/-- The method `ScanValue` is the value collector run over the flattened traversal of the
record. -/
theorem ScanValue_eq_feed (env : TypeEnv) (fuel : Nat) (scanner : structSQLScanner)
    (v : Value) :
    structSQLScanner.ScanValue env fuel scanner v
      = feed (valueLeaves env fuel v).1 (valueLeaves env fuel v).2 scanner := by
  induction fuel generalizing scanner v with
  | zero => rfl
  | succ fuel ih =>
    cases v with
    | invalid => rfl
    | mk t d =>
      cases t with
      | struct id =>
        simp only [structSQLScanner.ScanValue, valueLeaves]
        exact ScanValue_loop_eq_feed env _ _ _ _ ih (scanType_eq_feed env fuel) _ _ _ _
      | basic k => rfl
      | ptr e => rfl
      | slice e => rfl

/-- The method `addValue` on a leaf that is not included does nothing. -/
theorem addValue_of_not_included (scanner : structSQLScanner) (l : Leaf)
    (h : ¬ l.Included scanner.exclusions) :
    scanner.addValue l.field l.typ l.value = .ret (scanner, none) := by
  unfold structSQLScanner.addValue
  unfold Leaf.Included at h
  by_cases h1 : supportedColumnType l.typ = true
  · have h2 : ¬ (SQLName l.field ≠ ""
        ∧ (GoMap.find scanner.exclusions (SQLName l.field)).getD false = false) :=
      fun hc => h ⟨h1, hc.1, hc.2⟩
    rw [if_pos h1, if_neg h2]
  · rw [if_neg h1]

/-- The method `addValue` on an included leaf: the duplicate error if its identifier is a key
already, else the outcome of reading the value, stored under the identifier. -/
theorem addValue_of_included (scanner : structSQLScanner) (l : Leaf)
    (h : l.Included scanner.exclusions) :
    scanner.addValue l.field l.typ l.value =
      match GoMap.find scanner.sqlValues l.name with
      | some _ =>
        .ret (scanner, some (newError "s2x: duplicate SQL column %q in struct %v"
          [.str l.name, .value scanner.root]))
      | none =>
        match l.value with
        | .ret a =>
          .ret (structSQLScanner.mk scanner.root scanner.exclusions
            (GoMap.put scanner.sqlValues l.name a), none)
        | .panic msg => .panic msg
        | .timeout => .timeout := by
  unfold structSQLScanner.addValue Leaf.name
  obtain ⟨h1, h2, h3⟩ := h
  have h23 : SQLName l.field ≠ ""
      ∧ (GoMap.find scanner.exclusions (SQLName l.field)).getD false = false := ⟨h2, h3⟩
  rw [if_pos h1, if_pos h23]

/-- A successful run of the value collector over a traversal: the traversal completes, every
included leaf is read, the identifiers of the included leaves are distinct and were no keys
before, and the map is extended by one entry for each included leaf, in order. -/
theorem feed_ok (ls : List Leaf) (st : Status) (scanner scanner1 : structSQLScanner)
    (h : feed ls st scanner = .ret (scanner1, none)) :
    st = .done
      ∧ scanner1 = structSQLScanner.mk scanner.root scanner.exclusions
          (scanner.sqlValues ++ leafPairs scanner.exclusions ls)
      ∧ (∀ l ∈ ls, l.Included scanner.exclusions → ∃ a, l.value = .ret a)
      ∧ (includedNames scanner.exclusions ls).Nodup
      ∧ (∀ n ∈ includedNames scanner.exclusions ls, GoMap.find scanner.sqlValues n = none) := by
  induction ls generalizing scanner with
  | nil =>
    cases st with
    | done =>
      simp only [feed, Res.ret.injEq, Prod.mk.injEq, and_true] at h
      subst h
      simp [leafPairs, includedNames]
    | panic m => simp [feed] at h
    | timeout => simp [feed] at h
  | cons l rest ih =>
    simp only [feed] at h
    by_cases hinc : l.Included scanner.exclusions
    · rw [addValue_of_included scanner l hinc] at h
      cases hfind : GoMap.find scanner.sqlValues l.name with
      | some x => rw [hfind] at h; simp at h
      | none =>
        rw [hfind] at h
        cases hval : l.value with
        | panic m => rw [hval] at h; simp at h
        | timeout => rw [hval] at h; simp at h
        | ret a =>
          rw [hval] at h
          simp only at h
          obtain ⟨h1, h2, h3, h4, h5⟩ := ih _ h
          simp only at h2 h3 h4 h5
          have hput := GoMap.put_of_find_none scanner.sqlValues l.name a hfind
          refine ⟨h1, ?_, ?_, ?_, ?_⟩
          · rw [h2, hput]
            simp [leafPairs, hinc, hval]
          · intro l1 hl1 hinc1
            rcases List.mem_cons.mp hl1 with rfl | hl1
            · exact ⟨a, hval⟩
            · exact h3 l1 hl1 hinc1
          · simp only [includedNames, hinc, if_true, List.nodup_cons]
            refine ⟨?_, h4⟩
            intro hmem
            have := h5 _ hmem
            rw [GoMap.find_put] at this
            simp at this
          · intro n hn
            simp only [includedNames, hinc, if_true, List.mem_cons] at hn
            rcases hn with rfl | hn
            · exact hfind
            · have := h5 n hn
              rw [GoMap.find_put] at this
              by_cases hne : l.name = n
              · simp [hne] at this
              · simpa [hne] using this
    · rw [addValue_of_not_included scanner l hinc] at h
      simp only at h
      obtain ⟨h1, h2, h3, h4, h5⟩ := ih _ h
      refine ⟨h1, ?_, ?_, ?_, ?_⟩
      · rw [h2]; simp [leafPairs, hinc]
      · intro l1 hl1 hinc1
        rcases List.mem_cons.mp hl1 with rfl | hl1
        · exact absurd hinc1 hinc
        · exact h3 l1 hl1 hinc1
      · simpa [includedNames, hinc] using h4
      · simpa [includedNames, hinc] using h5

/-- The value collector succeeds over a completed traversal whose included leaves can be read
and have distinct identifiers that are no keys yet. -/
theorem feed_succeeds (ls : List Leaf) (scanner : structSQLScanner)
    (hread : ∀ l ∈ ls, l.Included scanner.exclusions → ∃ a, l.value = .ret a)
    (hnd : (includedNames scanner.exclusions ls).Nodup)
    (habs : ∀ n ∈ includedNames scanner.exclusions ls, GoMap.find scanner.sqlValues n = none) :
    feed ls .done scanner = .ret (structSQLScanner.mk scanner.root scanner.exclusions
      (scanner.sqlValues ++ leafPairs scanner.exclusions ls), none) := by
  induction ls generalizing scanner with
  | nil => simp [feed, leafPairs]
  | cons l rest ih =>
    simp only [feed]
    by_cases hinc : l.Included scanner.exclusions
    · rw [addValue_of_included scanner l hinc]
      simp only [includedNames, hinc, if_true, List.nodup_cons] at hnd
      have hfind : GoMap.find scanner.sqlValues l.name = none :=
        habs _ (by simp [includedNames, hinc])
      obtain ⟨a, hval⟩ := hread l (List.mem_cons_self _ _) hinc
      rw [hfind, hval]
      simp only
      rw [ih]
      · simp [leafPairs, hinc, hval, GoMap.put_of_find_none _ _ _ hfind]
      · exact fun l1 hl1 h1 => hread l1 (List.mem_cons_of_mem _ hl1) h1
      · exact hnd.2
      · intro n hn
        simp only
        rw [GoMap.find_put]
        have hne : ¬ l.name = n := fun heq => hnd.1 (heq ▸ hn)
        simp only [hne, if_false]
        exact habs n (by simp [includedNames, hinc, hn])
    · rw [addValue_of_not_included scanner l hinc]
      simp only
      rw [ih]
      · simp [leafPairs, hinc]
      · exact fun l1 hl1 h1 => hread l1 (List.mem_cons_of_mem _ hl1) h1
      · simpa [includedNames, hinc] using hnd
      · intro n hn
        exact habs n (by simp [includedNames, hinc, hn])

/-- The value collector returns the duplicate error when the traversal reaches an included leaf
whose identifier is a key already or is the identifier of an included leaf before it, every
included leaf before it being read. -/
theorem feed_duplicate (ls : List Leaf) (st : Status) (scanner : structSQLScanner) (j : Nat)
    (lj : Leaf) (hj : ls[j]? = some lj) (hincj : lj.Included scanner.exclusions)
    (hdup : GoMap.find scanner.sqlValues lj.name ≠ none
      ∨ ∃ (i : Nat) (li : Leaf), i < j ∧ ls[i]? = some li ∧ li.Included scanner.exclusions
          ∧ li.name = lj.name)
    (hread : ∀ (k : Nat) (lk : Leaf), k < j → ls[k]? = some lk →
      lk.Included scanner.exclusions → ∃ a, lk.value = .ret a) :
    ∃ scanner1 name, name ∈ includedNames scanner.exclusions ls
      ∧ scanner1.exclusions = scanner.exclusions
      ∧ feed ls st scanner = .ret (scanner1,
          some (newError "s2x: duplicate SQL column %q in struct %v"
            [.str name, .value scanner.root])) := by
  induction ls generalizing scanner j with
  | nil => simp at hj
  | cons l rest ih =>
    simp only [feed]
    by_cases hinc : l.Included scanner.exclusions
    · rw [addValue_of_included scanner l hinc]
      cases hfind : GoMap.find scanner.sqlValues l.name with
      | some x =>
        exact ⟨scanner, l.name, by simp [includedNames, hinc], rfl, rfl⟩
      | none =>
        simp only
        cases j with
        | zero =>
          simp only [List.getElem?_cons_zero, Option.some.injEq] at hj
          subst hj
          rcases hdup with hd | ⟨i, li, hi, _⟩
          · exact absurd hfind hd
          · omega
        | succ j =>
          obtain ⟨a, hval⟩ := hread 0 l (by omega) (by simp) hinc
          rw [hval]
          simp only
          have hj1 : rest[j]? = some lj := by simpa using hj
          obtain ⟨s1, name, hn, hex, hfeed⟩ := ih
            (structSQLScanner.mk scanner.root scanner.exclusions
              (GoMap.put scanner.sqlValues l.name a)) j hj1 hincj
            (by
              simp only
              rcases hdup with hd | ⟨i, li, hi, hli, hinci, hname⟩
              · left
                rw [GoMap.find_put]
                by_cases hne : l.name = lj.name
                · simp [hne]
                · simpa [hne] using hd
              · cases i with
                | zero =>
                  simp only [List.getElem?_cons_zero, Option.some.injEq] at hli
                  subst hli
                  left
                  rw [GoMap.find_put]
                  simp [hname]
                | succ i =>
                  right
                  exact ⟨i, li, by omega, by simpa using hli, hinci, hname⟩)
            (fun k lk hk hlk hinck => hread (k + 1) lk (by omega) (by simpa using hlk) hinck)
          exact ⟨s1, name, by simp [includedNames, hinc, hn], hex, hfeed⟩
    · rw [addValue_of_not_included scanner l hinc]
      simp only
      cases j with
      | zero =>
        simp only [List.getElem?_cons_zero, Option.some.injEq] at hj
        subst hj
        exact absurd hincj hinc
      | succ j =>
        have hj1 : rest[j]? = some lj := by simpa using hj
        obtain ⟨s1, name, hn, hex, hfeed⟩ := ih scanner j hj1 hincj
          (by
            rcases hdup with hd | ⟨i, li, hi, hli, hinci, hname⟩
            · exact Or.inl hd
            · cases i with
              | zero =>
                simp only [List.getElem?_cons_zero, Option.some.injEq] at hli
                subst hli
                exact absurd hinci hinc
              | succ i =>
                right
                exact ⟨i, li, by omega, by simpa using hli, hinci, hname⟩)
          (fun k lk hk hlk hinck => hread (k + 1) lk (by omega) (by simpa using hlk) hinck)
        exact ⟨s1, name, by simp [includedNames, hinc, hn], hex, hfeed⟩

/-- Whatever the value collector returns, it keeps the root and the exclusions, keeps the
entries it found, and adds as keys only identifiers that are not excluded. -/
theorem feed_keys (ls : List Leaf) (st : Status) (scanner scanner1 : structSQLScanner)
    (err : Option Error) (h : feed ls st scanner = .ret (scanner1, err)) :
    scanner1.root = scanner.root ∧ scanner1.exclusions = scanner.exclusions
      ∧ (∀ k x, GoMap.find scanner.sqlValues k = some x →
          GoMap.find scanner1.sqlValues k = some x)
      ∧ (∀ k, GoMap.find scanner1.sqlValues k ≠ none →
          GoMap.find scanner.sqlValues k ≠ none
            ∨ (GoMap.find scanner.exclusions k).getD false = false) := by
  induction ls generalizing scanner with
  | nil =>
    cases st with
    | done =>
      simp only [feed, Res.ret.injEq, Prod.mk.injEq] at h
      obtain ⟨rfl, _⟩ := h
      exact ⟨rfl, rfl, fun _ _ hk => hk, fun _ hk => Or.inl hk⟩
    | panic m => simp [feed] at h
    | timeout => simp [feed] at h
  | cons l rest ih =>
    simp only [feed] at h
    by_cases hinc : l.Included scanner.exclusions
    · rw [addValue_of_included scanner l hinc] at h
      cases hfind : GoMap.find scanner.sqlValues l.name with
      | some x =>
        rw [hfind] at h
        simp only [Res.ret.injEq, Prod.mk.injEq] at h
        obtain ⟨rfl, _⟩ := h
        exact ⟨rfl, rfl, fun _ _ hk => hk, fun _ hk => Or.inl hk⟩
      | none =>
        rw [hfind] at h
        cases hval : l.value with
        | panic m => rw [hval] at h; simp at h
        | timeout => rw [hval] at h; simp at h
        | ret a =>
          rw [hval] at h
          simp only at h
          obtain ⟨h1, h2, h3, h4⟩ := ih _ h
          simp only at h1 h2 h3 h4
          refine ⟨h1, h2, ?_, ?_⟩
          · intro k x hk
            apply h3
            rw [GoMap.find_put]
            by_cases hne : l.name = k
            · subst hne; rw [hfind] at hk; simp at hk
            · simpa [hne] using hk
          · intro k hk
            rcases h4 k hk with h5 | h5
            · rw [GoMap.find_put] at h5
              by_cases hne : l.name = k
              · subst hne
                exact Or.inr hinc.2.2
              · simp only [hne, if_false] at h5
                exact Or.inl h5
            · exact Or.inr h5
    · rw [addValue_of_not_included scanner l hinc] at h
      exact ih _ h

/-- The map of `toMap` holds true exactly for the items of the slice. -/
theorem toMap_loop_find (a : List String) (result : GoMap String Bool) (k : String) :
    GoMap.find (toMap.loop a result) k = if k ∈ a then some true else GoMap.find result k := by
  induction a generalizing result with
  | nil => simp [toMap.loop]
  | cons item rest ih =>
    simp only [toMap.loop, ih, GoMap.find_put, List.mem_cons]
    by_cases h1 : k ∈ rest
    · simp [h1]
    · by_cases h2 : item = k
      · simp [h1, h2]
      · have h3 : ¬ k = item := fun h => h2 h.symm
        simp [h1, h2, h3]

/-- An identifier is excluded by `toMap(exclusions)` exactly when it is in the list. -/
theorem toMap_excluded_iff (exclusions : List String) (k : String) :
    (GoMap.find (toMap exclusions) k).getD false = true ↔ k ∈ exclusions := by
  unfold toMap
  rw [toMap_loop_find]
  by_cases h : k ∈ exclusions <;> simp [h, GoMap.find]

/-- The function `SQLValues` on an input that resolves to the struct `v`: the value collector
run over the flattened traversal of `v`. -/
theorem SQLValues_eq_feed (env : TypeEnv) (fuel : Nat) (a : AnyVal) (exclusions : List String)
    (v : Value) (hroot : structValue a = .ret (v, none)) :
    SQLValues env fuel a exclusions =
      match feed (valueLeaves env fuel v).1 (valueLeaves env fuel v).2
          (structSQLScanner.mk v (toMap exclusions) []) with
      | .ret (scanner1, err) => .ret (some scanner1.sqlValues, err)
      | .panic msg => .panic msg
      | .timeout => .timeout := by
  unfold SQLValues
  rw [hroot]
  simp only [ScanValue_eq_feed]

/-- With distinct keys, each entry is found under its key. -/
theorem GoMap.find_of_mem {κ ν : Type} [DecidableEq κ] (m : GoMap κ ν)
    (hm : (m.map Prod.fst).Nodup) (k : κ) (v : ν) (h : (k, v) ∈ m) :
    GoMap.find m k = some v :=
  (GoMap.find_eq_some_iff_mem m hm k v).mpr h

/-- The keys of the entries of the included leaves are among their identifiers. -/
theorem leafPairs_keys_sublist (exclusions : GoMap String Bool) (ls : List Leaf) :
    ((leafPairs exclusions ls).map Prod.fst).Sublist (includedNames exclusions ls) := by
  induction ls with
  | nil => simp [leafPairs, includedNames]
  | cons l rest ih =>
    by_cases hinc : l.Included exclusions
    · cases hval : l.value with
      | ret a => simpa [leafPairs, includedNames, hinc, hval] using ih
      | panic m =>
        simp only [leafPairs, includedNames, hinc, hval, if_true]
        exact ih.trans (List.sublist_cons_self _ _)
      | timeout =>
        simp only [leafPairs, includedNames, hinc, hval, if_true]
        exact ih.trans (List.sublist_cons_self _ _)
    · simpa [leafPairs, includedNames, hinc] using ih

/-- An included leaf that is read contributes its entry. -/
theorem mem_leafPairs (exclusions : GoMap String Bool) (ls : List Leaf) (l : Leaf)
    (a : AnyVal) (hl : l ∈ ls) (hinc : l.Included exclusions) (hval : l.value = .ret a) :
    (l.name, a) ∈ leafPairs exclusions ls := by
  induction ls with
  | nil => simp at hl
  | cons l1 rest ih =>
    rcases List.mem_cons.mp hl with rfl | hl
    · simp [leafPairs, hinc, hval]
    · have := ih hl
      by_cases hinc1 : l1.Included exclusions
      · cases hval1 : l1.value with
        | ret a1 => simp [leafPairs, hinc1, hval1, this]
        | panic m => simpa [leafPairs, hinc1, hval1] using this
        | timeout => simpa [leafPairs, hinc1, hval1] using this
      · simpa [leafPairs, hinc1] using this

/-- A successful `SQLValues` in terms of the flattened traversal: the traversal completes,
the included leaves have distinct identifiers and are read, and the map holds exactly their
entries, each found under its identifier. -/
theorem SQLValues_ok (env : TypeEnv) (fuel : Nat) (a : AnyVal) (exclusions : List String)
    (v : Value) (m : GoMap String AnyVal) (hroot : structValue a = .ret (v, none))
    (h : SQLValues env fuel a exclusions = .ret (some m, none)) :
    (valueLeaves env fuel v).2 = .done
      ∧ m = leafPairs (toMap exclusions) (valueLeaves env fuel v).1
      ∧ (includedNames (toMap exclusions) (valueLeaves env fuel v).1).Nodup
      ∧ (∀ l ∈ (valueLeaves env fuel v).1, l.Included (toMap exclusions) →
          ∃ x, l.value = .ret x ∧ GoMap.find m l.name = some x) := by
  rw [SQLValues_eq_feed env fuel a exclusions v hroot] at h
  rcases hf : feed (valueLeaves env fuel v).1 (valueLeaves env fuel v).2
      (structSQLScanner.mk v (toMap exclusions) []) with ⟨s1, err⟩ | msg | _
  · rw [hf] at h
    simp only [Res.ret.injEq, Prod.mk.injEq, Option.some.injEq] at h
    obtain ⟨hm, herr⟩ := h
    subst herr
    obtain ⟨h1, h2, h3, h4, _⟩ := feed_ok _ _ _ _ hf
    simp only at h2 h3 h4
    have hmeq : m = leafPairs (toMap exclusions) (valueLeaves env fuel v).1 := by
      rw [← hm, h2]; simp
    refine ⟨h1, hmeq, h4, ?_⟩
    intro l hl hinc
    obtain ⟨x, hx⟩ := h3 l hl hinc
    refine ⟨x, hx, ?_⟩
    rw [hmeq]
    exact GoMap.find_of_mem _ ((leafPairs_keys_sublist _ _).nodup h4) _ _
      (mem_leafPairs _ _ l x hl hinc hx)
  · rw [hf] at h; simp at h
  · rw [hf] at h; simp at h

/-! ### The outcome of the walk does not depend on the budget -/

/-- The loop of `scanType` has the same outcome, unless it runs out of budget, when the
recursive call is replaced by one that has the same outcomes unless it runs out of budget. -/
theorem scanType_loop_mono
    (recur1 recur2 : structSQLScanner → GoType → Res (structSQLScanner × Option Error))
    (hrec : ∀ scanner t, recur1 scanner t ≠ .timeout → recur2 scanner t = recur1 scanner t)
    (fields : List StructField) (scanner : structSQLScanner)
    (h : structSQLScanner.scanType.loop recur1 fields scanner ≠ .timeout) :
    structSQLScanner.scanType.loop recur2 fields scanner
      = structSQLScanner.scanType.loop recur1 fields scanner := by
  induction fields generalizing scanner with
  | nil => rfl
  | cons f rest ih =>
    by_cases hexp : f.IsExported = false
    · simp only [structSQLScanner.scanType.loop, hexp, if_true] at h ⊢
      exact ih scanner h
    · have hexp1 : f.IsExported = true := by simpa using hexp
      simp only [structSQLScanner.scanType.loop, hexp1, Bool.true_eq_false, if_false] at h ⊢
      have hfield : structSQLScanner.scanType.field recur1 f scanner ≠ .timeout →
          structSQLScanner.scanType.field recur2 f scanner
            = structSQLScanner.scanType.field recur1 f scanner := by
        unfold structSQLScanner.scanType.field
        by_cases hk : (derefType f.Typ).Kind = .Struct
        · simp only [hk, if_true]
          exact hrec scanner _
        · simp only [hk, if_false]
          exact fun _ => trivial
      rcases hf : structSQLScanner.scanType.field recur1 f scanner with ⟨s1, _ | e⟩ | m | _
      · rw [hf] at h hfield
        rw [hfield (by simp)]
        exact ih s1 h
      · rw [hf] at hfield
        rw [hfield (by simp)]
      · rw [hf] at hfield
        rw [hfield (by simp)]
      · rw [hf] at h
        simp at h

/-- The method `scanType` has the same outcome with a larger budget, unless it runs out of
budget. -/
theorem scanType_mono (env : TypeEnv) (fuel : Nat) (scanner : structSQLScanner) (t : GoType)
    (h : structSQLScanner.scanType env fuel scanner t ≠ .timeout) :
    structSQLScanner.scanType env (fuel + 1) scanner t
      = structSQLScanner.scanType env fuel scanner t := by
  induction fuel generalizing scanner t with
  | zero => exact absurd rfl h
  | succ fuel ih =>
    cases t with
    | struct id =>
      simp only [structSQLScanner.scanType] at h ⊢
      exact scanType_loop_mono _ _ ih _ _ h
    | basic k => rfl
    | ptr e => rfl
    | slice e => rfl

/-- The loop of `ScanValue` has the same outcome, unless it runs out of budget, when the
recursive calls are replaced by ones that have the same outcomes unless they run out of
budget. -/
theorem ScanValue_loop_mono (env : TypeEnv)
    (recurV1 recurV2 : structSQLScanner → Value → Res (structSQLScanner × Option Error))
    (recurT1 recurT2 : structSQLScanner → GoType → Res (structSQLScanner × Option Error))
    (hV : ∀ scanner v, recurV1 scanner v ≠ .timeout → recurV2 scanner v = recurV1 scanner v)
    (hT : ∀ scanner t, recurT1 scanner t ≠ .timeout → recurT2 scanner t = recurT1 scanner t)
    (v : Value) (fields : List StructField) (i : Nat) (scanner : structSQLScanner)
    (h : structSQLScanner.ScanValue.loop env recurV1 recurT1 v fields i scanner ≠ .timeout) :
    structSQLScanner.ScanValue.loop env recurV2 recurT2 v fields i scanner
      = structSQLScanner.ScanValue.loop env recurV1 recurT1 v fields i scanner := by
  induction fields generalizing i scanner with
  | nil => rfl
  | cons f rest ih =>
    by_cases hexp : f.IsExported = false
    · simp only [structSQLScanner.ScanValue.loop, hexp, if_true] at h ⊢
      exact ih (i + 1) scanner h
    · have hexp1 : f.IsExported = true := by simpa using hexp
      simp only [structSQLScanner.ScanValue.loop, hexp1, Bool.true_eq_false, if_false] at h ⊢
      have hfield : structSQLScanner.ScanValue.field env recurV1 recurT1 v f i scanner
            ≠ .timeout →
          structSQLScanner.ScanValue.field env recurV2 recurT2 v f i scanner
            = structSQLScanner.ScanValue.field env recurV1 recurT1 v f i scanner := by
        unfold structSQLScanner.ScanValue.field
        cases v.Field env i with
        | panic m => exact fun _ => rfl
        | timeout => exact fun _ => rfl
        | ret fv0 =>
          simp only []
          cases fv0.Type with
          | panic m => exact fun _ => rfl
          | timeout => exact fun _ => rfl
          | ret ft0 =>
            simp only []
            cases derefValue fv0 ft0 with
            | panic m => exact fun _ => rfl
            | timeout => exact fun _ => rfl
            | ret p =>
              obtain ⟨fv, ft⟩ := p
              simp only []
              by_cases hk : ft.Kind = .Struct
              · cases hvalid : fv.IsValid with
                | true =>
                  simp only [hk, if_true, structSQLScanner.structFieldColumns, hvalid]
                  exact hV scanner fv
                | false =>
                  simp only [hk, if_true, structSQLScanner.structFieldColumns, hvalid,
                    Bool.false_eq_true, if_false]
                  exact hT scanner ft
              · simp only [hk, if_false]
                exact fun _ => trivial
      rcases hf : structSQLScanner.ScanValue.field env recurV1 recurT1 v f i scanner with
        ⟨s1, _ | e⟩ | m | _
      · rw [hf] at h hfield
        rw [hfield (by simp)]
        exact ih (i + 1) s1 h
      · rw [hf] at hfield
        rw [hfield (by simp)]
      · rw [hf] at hfield
        rw [hfield (by simp)]
      · rw [hf] at h
        simp at h

/-- The method `ScanValue` has the same outcome with a larger budget, unless it runs out of
budget. -/
theorem ScanValue_mono (env : TypeEnv) (fuel : Nat) (scanner : structSQLScanner) (v : Value)
    (h : structSQLScanner.ScanValue env fuel scanner v ≠ .timeout) :
    structSQLScanner.ScanValue env (fuel + 1) scanner v
      = structSQLScanner.ScanValue env fuel scanner v := by
  induction fuel generalizing scanner v with
  | zero => exact absurd rfl h
  | succ fuel ih =>
    cases v with
    | invalid => rfl
    | mk t d =>
      cases t with
      | struct id =>
        simp only [structSQLScanner.ScanValue] at h ⊢
        exact ScanValue_loop_mono env _ _ _ _ ih (scanType_mono env fuel) _ _ _ _ h
      | basic k => rfl
      | ptr e => rfl
      | slice e => rfl

/-- The function `SQLValues` has the same outcome with every larger budget, unless it runs
out of budget: what it returns, and whether it panics, does not depend on the budget. -/
theorem SQLValues_mono (env : TypeEnv) (fuel fuel1 : Nat) (a : AnyVal)
    (exclusions : List String) (hle : fuel ≤ fuel1)
    (h : SQLValues env fuel a exclusions ≠ .timeout) :
    SQLValues env fuel1 a exclusions = SQLValues env fuel a exclusions := by
  induction fuel1 with
  | zero =>
    have : fuel = 0 := by omega
    subst this
    rfl
  | succ n ih =>
    by_cases hn : fuel = n + 1
    · subst hn; rfl
    · have hle1 : fuel ≤ n := by omega
      have hstep : SQLValues env (n + 1) a exclusions = SQLValues env n a exclusions := by
        have hn1 : SQLValues env n a exclusions ≠ .timeout := by rw [ih hle1]; exact h
        unfold SQLValues at hn1 ⊢
        rcases hroot : structValue a with ⟨v, _ | e⟩ | m | _
        · rw [hroot] at hn1
          simp only at hn1 ⊢
          have hsv : structSQLScanner.ScanValue env n
              (structSQLScanner.mk v (toMap exclusions) []) v ≠ .timeout := by
            intro hc
            rw [hc] at hn1
            exact hn1 rfl
          rw [ScanValue_mono env n _ v hsv]
        · rfl
        · rfl
        · rfl
      rw [hstep, ih hle1]

/-! ### Duplicate column identifiers and exclusions -/

/-- Claim C5. `SQLValues` never silently overwrites a column. For every input that resolves to
a record `v` and every exclusion list: if the flattened traversal of `v` (through nested
structs and pointers to structs, live or absent) reaches two included leaf fields (exported,
allow-listed type, annotated, not excluded) carrying the same column identifier, then
`SQLValues` returns the duplicate-column failure, together with the map built so far,
whatever the budget beyond the one of the traversal; and whenever `SQLValues` returns a map
without a failure, the included leaves of the traversal carry distinct identifiers and the map
holds one entry for each, with the value read from it. -/
theorem SQLValues_never_overwrites (env : TypeEnv) (fuel : Nat) (a : AnyVal)
    (exclusions : List String) (v : Value) (hroot : structValue a = .ret (v, none)) :
    (∀ (i j : Nat) (li lj : Leaf), i < j →
        (valueLeaves env fuel v).1[i]? = some li → (valueLeaves env fuel v).1[j]? = some lj →
        li.Included (toMap exclusions) → lj.Included (toMap exclusions) → li.name = lj.name →
        Reaches (toMap exclusions) (valueLeaves env fuel v).1 j →
        ∃ m name, ∀ fuel1 : Nat, fuel ≤ fuel1 →
          SQLValues env fuel1 a exclusions = .ret (some m,
            some (newError "s2x: duplicate SQL column %q in struct %v" [.str name, .value v])))
      ∧ (∀ m, SQLValues env fuel a exclusions = .ret (some m, none) →
          (includedNames (toMap exclusions) (valueLeaves env fuel v).1).Nodup
            ∧ m = leafPairs (toMap exclusions) (valueLeaves env fuel v).1
            ∧ ∀ l ∈ (valueLeaves env fuel v).1, l.Included (toMap exclusions) →
                ∃ x, l.value = .ret x ∧ GoMap.find m l.name = some x) := by
  constructor
  · intro i j li lj hij hi hj hinci hincj hname hread
    obtain ⟨s1, name, _, _, hfeed⟩ := feed_duplicate (valueLeaves env fuel v).1
      (valueLeaves env fuel v).2 (structSQLScanner.mk v (toMap exclusions) []) j lj hj hincj
      (Or.inr ⟨i, li, hij, hi, hinci, hname⟩) hread
    have hfuel : SQLValues env fuel a exclusions = .ret (some s1.sqlValues,
        some (newError "s2x: duplicate SQL column %q in struct %v"
          [.str name, .value v])) := by
      rw [SQLValues_eq_feed env fuel a exclusions v hroot, hfeed]
    refine ⟨s1.sqlValues, name, fun fuel1 hle => ?_⟩
    rw [SQLValues_mono env fuel fuel1 a exclusions hle (by rw [hfuel]; simp), hfuel]
  · intro m h
    obtain ⟨_, h2, h3, h4⟩ := SQLValues_ok env fuel a exclusions v m hroot h
    exact ⟨h3, h2, h4⟩

/-- Witness of claim C5: the record `Dup{A: "", Inner: nil}`, whose field `A` and whose leaf `B`
under the absent pointer both carry the identifier `x`. -/
theorem SQLValues_never_overwrites_witness :
    structValue (some (.struct 0, .struct [.str "", .nil]))
        = .ret (Value.mk (.struct 0) (.struct [.str "", .nil]), none)
      ∧ SQLValues dupEnv 3 (some (.struct 0, .struct [.str "", .nil])) []
        = .ret (some [("x", some (.basic .String, .str ""))],
            some (newError "s2x: duplicate SQL column %q in struct %v"
              [.str "x", .value (Value.mk (.struct 0) (.struct [.str "", .nil]))]))
      ∧ ∃ m name, ∀ fuel1 : Nat, 3 ≤ fuel1 →
        SQLValues dupEnv fuel1 (some (.struct 0, .struct [.str "", .nil])) []
          = .ret (some m, some (newError "s2x: duplicate SQL column %q in struct %v"
              [.str name, .value (Value.mk (.struct 0) (.struct [.str "", .nil]))])) :=
  ⟨rfl, rfl,
    (SQLValues_never_overwrites dupEnv 3 (some (.struct 0, .struct [.str "", .nil])) []
      (Value.mk (.struct 0) (.struct [.str "", .nil])) rfl).1 0 1
      (Leaf.mk (StructField.mk "A" "" (.basic .String) [("sql", "x")]) (.basic .String)
        (.ret (some (.basic .String, .str ""))))
      (Leaf.mk (StructField.mk "B" "" (.basic .String) [("sql", "x")]) (.basic .String)
        (.ret none))
      (by decide) rfl rfl (by decide) (by decide) rfl
      (fun k lk hk hlk _ => by
        have hk0 : k = 0 := by omega
        subst hk0
        have hlk1 : some (Leaf.mk (StructField.mk "A" "" (.basic .String) [("sql", "x")])
            (.basic .String) (.ret (some (.basic .String, .str "")))) = some lk := hlk
        simp only [Option.some.injEq] at hlk1
        subst hlk1
        exact ⟨_, rfl⟩)⟩

/-- Lookup in a map filtered by a property of the keys, for a key that has the property. -/
theorem GoMap.find_filter {κ ν : Type} [DecidableEq κ] (m : GoMap κ ν) (p : κ → Bool) (k : κ)
    (hk : p k = true) : GoMap.find (m.filter (fun e => p e.1)) k = GoMap.find m k := by
  induction m with
  | nil => rfl
  | cons e rest ih =>
    obtain ⟨k1, v1⟩ := e
    by_cases hp : p k1 = true
    · simp only [List.filter_cons, hp, if_true, GoMap.find, ih]
    · have hne : ¬ k1 = k := fun heq => hp (heq ▸ hk)
      simp only [List.filter_cons, hp, if_false, GoMap.find, hne, ih, Bool.false_eq_true]

/-- The leaves included under exclusions are the leaves included without exclusions whose
identifier is not excluded. -/
theorem included_toMap_iff (exclusions : List String) (l : Leaf) :
    l.Included (toMap exclusions) ↔ l.Included (toMap []) ∧ l.name ∉ exclusions := by
  have hex := toMap_excluded_iff exclusions (SQLName l.field)
  unfold Leaf.Included Leaf.name
  constructor
  · rintro ⟨h1, h2, h3⟩
    refine ⟨⟨h1, h2, rfl⟩, ?_⟩
    intro hmem
    rw [hex.mpr hmem] at h3
    simp at h3
  · rintro ⟨⟨h1, h2, _⟩, h3⟩
    refine ⟨h1, h2, ?_⟩
    cases hval : (GoMap.find (toMap exclusions) (SQLName l.field)).getD false with
    | false => rfl
    | true => exact absurd (hex.mp hval) h3

/-- The entries under exclusions are the entries without exclusions, less the excluded
identifiers. -/
theorem leafPairs_toMap (exclusions : List String) (ls : List Leaf) :
    leafPairs (toMap exclusions) ls
      = (leafPairs (toMap []) ls).filter (fun e => decide (e.1 ∉ exclusions)) := by
  induction ls with
  | nil => rfl
  | cons l rest ih =>
    by_cases h0 : l.Included (toMap [])
    · by_cases hx : l.name ∈ exclusions
      · have hE : ¬ l.Included (toMap exclusions) :=
          fun h => ((included_toMap_iff exclusions l).mp h).2 hx
        cases hval : l.value with
        | ret a => simp [leafPairs, h0, hE, hval, hx, ih]
        | panic m => simp [leafPairs, h0, hE, hval, ih]
        | timeout => simp [leafPairs, h0, hE, hval, ih]
      · have hE : l.Included (toMap exclusions) :=
          (included_toMap_iff exclusions l).mpr ⟨h0, hx⟩
        cases hval : l.value with
        | ret a => simp [leafPairs, h0, hE, hval, hx, ih]
        | panic m => simp [leafPairs, h0, hE, hval, ih]
        | timeout => simp [leafPairs, h0, hE, hval, ih]
    · have hE : ¬ l.Included (toMap exclusions) :=
        fun h => h0 ((included_toMap_iff exclusions l).mp h).1
      simp [leafPairs, h0, hE, ih]

/-- The identifiers included under exclusions are among those included without. -/
theorem includedNames_toMap_sublist (exclusions : List String) (ls : List Leaf) :
    (includedNames (toMap exclusions) ls).Sublist (includedNames (toMap []) ls) := by
  induction ls with
  | nil => simp [includedNames]
  | cons l rest ih =>
    by_cases h0 : l.Included (toMap [])
    · by_cases hE : l.Included (toMap exclusions)
      · simpa [includedNames, h0, hE] using ih
      · simp only [includedNames, h0, hE, if_true, if_false]
        exact ih.trans (List.sublist_cons_self _ _)
    · have hE : ¬ l.Included (toMap exclusions) :=
        fun h => h0 ((included_toMap_iff exclusions l).mp h).1
      simpa [includedNames, h0, hE] using ih

/-- When `structValue` returns an error, `SQLValues` returns a nil map with it. -/
theorem SQLValues_of_root_error (env : TypeEnv) (fuel : Nat) (a : AnyVal)
    (exclusions : List String) (v : Value) (err : Error)
    (hroot : structValue a = .ret (v, some err)) :
    SQLValues env fuel a exclusions = .ret (none, some err) := by
  unfold SQLValues
  rw [hroot]

/-- Claim C4. For every record `a` and every list of exclusions, no identifier in the
exclusion list is a key of the map returned by `SQLValues(a, exclusions...)`, with or without
an error; and when `SQLValues(a)` without exclusions succeeds, so does the call with
exclusions, whatever the budget beyond that of the first call, and every other key/value pair
is the same: the map returned is the map of `SQLValues(a)` less the excluded identifiers. -/
theorem SQLValues_exclusions (env : TypeEnv) (fuel : Nat) (a : AnyVal)
    (exclusions : List String) :
    (∀ m err, SQLValues env fuel a exclusions = .ret (m, err) →
        ∀ x ∈ exclusions, GoMap.find (entries m) x = none)
      ∧ (∀ m0, SQLValues env fuel a [] = .ret (some m0, none) →
          ∃ m, (∀ fuel1 : Nat, fuel ≤ fuel1 →
              SQLValues env fuel1 a exclusions = .ret (some m, none))
            ∧ m = m0.filter (fun e => decide (e.1 ∉ exclusions))
            ∧ ∀ k, k ∉ exclusions → GoMap.find m k = GoMap.find m0 k) := by
  rcases hroot : structValue a with ⟨v, _ | e⟩ | msg | _
  · constructor
    · intro m err h x hx
      rw [SQLValues_eq_feed env fuel a exclusions v hroot] at h
      rcases hf : feed (valueLeaves env fuel v).1 (valueLeaves env fuel v).2
          (structSQLScanner.mk v (toMap exclusions) []) with ⟨s1, err1⟩ | msg | _
      · rw [hf] at h
        simp only [Res.ret.injEq, Prod.mk.injEq] at h
        obtain ⟨_, _, _, h4⟩ := feed_keys _ _ _ _ _ hf
        rw [← h.1]
        simp only [entries]
        cases hfind : GoMap.find s1.sqlValues x with
        | none => rfl
        | some y =>
          rcases h4 x (by simp [hfind]) with h5 | h5
          · simp [GoMap.find] at h5
          · simp only at h5
            rw [(toMap_excluded_iff exclusions x).mpr hx] at h5
            simp at h5
      · rw [hf] at h; simp at h
      · rw [hf] at h; simp at h
    · intro m0 h0
      obtain ⟨hdone, hm0, hnd, hread⟩ := SQLValues_ok env fuel a [] v m0 hroot h0
      have hfeed := feed_succeeds (valueLeaves env fuel v).1
        (structSQLScanner.mk v (toMap exclusions) [])
        (fun l hl hinc => by
          obtain ⟨x, hx, _⟩ := hread l hl ((included_toMap_iff exclusions l).mp hinc).1
          exact ⟨x, hx⟩)
        ((includedNames_toMap_sublist exclusions _).nodup hnd)
        (fun n _ => rfl)
      refine ⟨leafPairs (toMap exclusions) (valueLeaves env fuel v).1, ?_, ?_, ?_⟩
      · have hfuel : SQLValues env fuel a exclusions
            = .ret (some (leafPairs (toMap exclusions) (valueLeaves env fuel v).1), none) := by
          rw [SQLValues_eq_feed env fuel a exclusions v hroot, hdone, hfeed]
          simp
        intro fuel1 hle
        rw [SQLValues_mono env fuel fuel1 a exclusions hle (by rw [hfuel]; simp), hfuel]
      · rw [hm0, leafPairs_toMap]
      · intro k hk
        rw [hm0, leafPairs_toMap]
        exact GoMap.find_filter _ (fun n => decide (n ∉ exclusions)) k (by simpa using hk)
  · constructor
    · intro m err h x hx
      rw [SQLValues_of_root_error env fuel a exclusions v e hroot] at h
      simp only [Res.ret.injEq, Prod.mk.injEq] at h
      rw [← h.1]
      rfl
    · intro m0 h0
      rw [SQLValues_of_root_error env fuel a [] v e hroot] at h0
      simp at h0
  · constructor
    · intro m err h
      simp [SQLValues, hroot] at h
    · intro m0 h0
      simp [SQLValues, hroot] at h0
  · constructor
    · intro m err h
      simp [SQLValues, hroot] at h
    · intro m0 h0
      simp [SQLValues, hroot] at h0

/-- Witness of claim C4: the tests `TestStructColumns/nested struct` and
`TestStructColumns/exclusions`. -/
theorem SQLValues_exclusions_witness :
    SQLValues structTestEnv 3 (some (.struct 1, testNestedStructZero)) []
        = .ret (some [("mainBool", some (.basic .Bool, .bool false)),
            ("mainString", some (.basic .String, .str "")),
            ("bool", some (.basic .Bool, .bool false)),
            ("data", some (.slice (.basic .Uint8), .nil)),
            ("string", some (.basic .String, .str ""))], none)
      ∧ SQLValues structTestEnv 3 (some (.struct 1, testNestedStructZero))
          ["data", "mainString"]
        = .ret (some [("mainBool", some (.basic .Bool, .bool false)),
            ("bool", some (.basic .Bool, .bool false)),
            ("string", some (.basic .String, .str ""))], none)
      ∧ (∀ x ∈ ["data", "mainString"],
          GoMap.find (entries (some [("mainBool", some (GoType.basic .Bool, Data.bool false)),
            ("bool", some (.basic .Bool, .bool false)),
            ("string", some (.basic .String, .str ""))])) x = none)
      ∧ ∃ m, (∀ fuel1 : Nat, 3 ≤ fuel1 →
            SQLValues structTestEnv fuel1 (some (.struct 1, testNestedStructZero))
              ["data", "mainString"] = .ret (some m, none))
          ∧ m = [("mainBool", some (GoType.basic .Bool, Data.bool false)),
              ("mainString", some (.basic .String, .str "")),
              ("bool", some (.basic .Bool, .bool false)),
              ("data", some (.slice (.basic .Uint8), .nil)),
              ("string", some (.basic .String, .str ""))].filter
                (fun e => decide (e.1 ∉ ["data", "mainString"]))
          ∧ ∀ k, k ∉ ["data", "mainString"] → GoMap.find m k
              = GoMap.find [("mainBool", some (GoType.basic .Bool, Data.bool false)),
                ("mainString", some (.basic .String, .str "")),
                ("bool", some (.basic .Bool, .bool false)),
                ("data", some (.slice (.basic .Uint8), .nil)),
                ("string", some (.basic .String, .str ""))] k :=
  ⟨rfl, rfl,
    (SQLValues_exclusions structTestEnv 3 (some (.struct 1, testNestedStructZero))
      ["data", "mainString"]).1 _ _ rfl,
    (SQLValues_exclusions structTestEnv 3 (some (.struct 1, testNestedStructZero))
      ["data", "mainString"]).2 _ rfl⟩

/-! ### Pointers to structs, absent or present with a zero value -/

/-- A sequence of two traversals completes when both do, and then has the leaves of both. -/
theorem andThen_done (t k : Trace) (h : (Trace.andThen t k).2 = .done) :
    t.2 = .done ∧ k.2 = .done ∧ (Trace.andThen t k).1 = t.1 ++ k.1 := by
  obtain ⟨ls, st⟩ := t
  cases st with
  | done => exact ⟨rfl, h, rfl⟩
  | panic m => simp [Trace.andThen] at h
  | timeout => simp [Trace.andThen] at h

/-- When the traversal of a list of fields without a value completes, the traversal of each
exported field completes and its leaves are among those of the list. -/
theorem typeLeaves_loop_done (recur : GoType → Trace) (fields : List StructField)
    (h : (typeLeaves.loop recur fields).2 = .done) (k : Nat) (f : StructField)
    (hk : fields[k]? = some f) (hexp : f.IsExported = true) :
    (typeLeaves.field recur f).2 = .done
      ∧ ∀ l ∈ (typeLeaves.field recur f).1, l ∈ (typeLeaves.loop recur fields).1 := by
  induction fields generalizing k with
  | nil => simp at hk
  | cons f0 rest ih =>
    by_cases hexp0 : f0.IsExported = false
    · simp only [typeLeaves.loop, hexp0, if_true] at h ⊢
      cases k with
      | zero =>
        simp only [List.getElem?_cons_zero, Option.some.injEq] at hk
        subst hk
        rw [hexp] at hexp0
        simp at hexp0
      | succ k => exact ih h k (by simpa using hk)
    · have hexp1 : f0.IsExported = true := by simpa using hexp0
      simp only [typeLeaves.loop, hexp1, Bool.true_eq_false, if_false] at h ⊢
      obtain ⟨h1, h2, h3⟩ := andThen_done _ _ h
      rw [h3]
      cases k with
      | zero =>
        simp only [List.getElem?_cons_zero, Option.some.injEq] at hk
        subst hk
        exact ⟨h1, fun l hl => List.mem_append_left _ hl⟩
      | succ k =>
        obtain ⟨a1, a2⟩ := ih h2 k (by simpa using hk)
        exact ⟨a1, fun l hl => List.mem_append_right _ (a2 l hl)⟩

/-- When the traversal of the fields of a live struct completes, the traversal of each
exported field completes and its leaves are among those of the struct. -/
theorem valueLeaves_loop_done (env : TypeEnv) (recurV : Value → Trace)
    (recurT : GoType → Trace) (v : Value) (fields : List StructField) (i0 : Nat)
    (h : (valueLeaves.loop env recurV recurT v fields i0).2 = .done) (k : Nat)
    (f : StructField) (hk : fields[k]? = some f) (hexp : f.IsExported = true) :
    (valueLeaves.field env recurV recurT v f (i0 + k)).2 = .done
      ∧ ∀ l ∈ (valueLeaves.field env recurV recurT v f (i0 + k)).1,
          l ∈ (valueLeaves.loop env recurV recurT v fields i0).1 := by
  induction fields generalizing k i0 with
  | nil => simp at hk
  | cons f0 rest ih =>
    by_cases hexp0 : f0.IsExported = false
    · simp only [valueLeaves.loop, hexp0, if_true] at h ⊢
      cases k with
      | zero =>
        simp only [List.getElem?_cons_zero, Option.some.injEq] at hk
        subst hk
        rw [hexp] at hexp0
        simp at hexp0
      | succ k =>
        have := ih (i0 + 1) h k (by simpa using hk)
        rw [show i0 + 1 + k = i0 + (k + 1) by omega] at this
        exact this
    · have hexp1 : f0.IsExported = true := by simpa using hexp0
      simp only [valueLeaves.loop, hexp1, Bool.true_eq_false, if_false] at h ⊢
      obtain ⟨h1, h2, h3⟩ := andThen_done _ _ h
      rw [h3]
      cases k with
      | zero =>
        simp only [List.getElem?_cons_zero, Option.some.injEq] at hk
        subst hk
        exact ⟨h1, fun l hl => List.mem_append_left _ hl⟩
      | succ k =>
        have := ih (i0 + 1) h2 k (by simpa using hk)
        rw [show i0 + 1 + k = i0 + (k + 1) by omega] at this
        exact ⟨this.1, fun l hl => List.mem_append_right _ (this.2 l hl)⟩

/-- When the traversal of a struct type without a value completes, it reaches every leaf of
the type, at any nesting depth, with the nil placeholder. -/
theorem typeLeaves_complete (env : TypeEnv) (path : List Nat) :
    ∀ (fuel S : Nat) (f : StructField) (t : GoType),
      (typeLeaves env fuel (.struct S)).2 = .done →
      leafAt env (.struct S) path = some (f, t) →
      Leaf.mk f t nilValuer ∈ (typeLeaves env fuel (.struct S)).1 := by
  induction path with
  | nil => intro fuel S f t _ h; simp [leafAt] at h
  | cons i rest ih =>
    intro fuel S f t hdone hleaf
    cases fuel with
    | zero => simp [typeLeaves] at hdone
    | succ fuel =>
      simp only [typeLeaves] at hdone ⊢
      simp only [leafAt] at hleaf
      cases hfi : (env S)[i]? with
      | none => simp [hfi] at hleaf
      | some fi =>
        simp only [hfi] at hleaf
        by_cases hexp : fi.IsExported = false
        · simp [hexp] at hleaf
        · have hexp1 : fi.IsExported = true := by simpa using hexp
          simp only [hexp1, Bool.true_eq_false, if_false] at hleaf
          obtain ⟨d1, d2⟩ := typeLeaves_loop_done _ _ hdone i fi hfi hexp1
          by_cases hk : (derefType fi.Typ).Kind = .Struct
          · simp only [hk, if_true] at hleaf
            simp only [typeLeaves.field, hk, if_true] at d1 d2
            cases hdt : derefType fi.Typ with
            | struct S1 =>
              rw [hdt] at hleaf d1 d2
              exact d2 _ (ih fuel S1 f t d1 hleaf)
            | basic k1 =>
              rw [hdt] at hleaf
              cases rest <;> simp [leafAt] at hleaf
            | ptr e =>
              rw [hdt] at hleaf
              cases rest <;> simp [leafAt] at hleaf
            | slice e =>
              rw [hdt] at hleaf
              cases rest <;> simp [leafAt] at hleaf
          · simp only [hk, if_false] at hleaf
            simp only [typeLeaves.field, hk, if_false] at d2
            by_cases hrest : rest = []
            · simp only [hrest, if_true, Option.some.injEq, Prod.mk.injEq] at hleaf
              obtain ⟨rfl, rfl⟩ := hleaf
              exact d2 _ (List.mem_singleton.mpr rfl)
            · simp [hrest] at hleaf

/-- The zero value of a type that is not a struct does not depend on the bound. -/
theorem zeroData_basic (env : TypeEnv) (n : Nat) (k : Kind) :
    zeroData env n (.basic k) = zeroData env 0 (.basic k) := by
  cases n <;> rfl

/-- Reading the zero value of a basic type yields the zero value as an `any`. -/
theorem interface_zero_basic (env : TypeEnv) (n : Nat) (k : Kind) :
    (Value.mk (.basic k) (zeroData env n (.basic k))).Interface = .ret (zeroAny env (.basic k)) := by
  rw [zeroData_basic]
  cases k <;> rfl

/-- The traversal of an exported field that is a nil pointer to a struct is the traversal of
the struct type without a value. -/
theorem valueLeaves_field_nil_ptr (env : TypeEnv) (recurV : Value → Trace)
    (recurT : GoType → Trace) (R : Nat) (ds : List Data) (field : StructField) (i S : Nat)
    (hfield : (env R)[i]? = some field) (htyp : field.Typ = .ptr (.struct S))
    (hds : ds[i]? = some .nil) :
    valueLeaves.field env recurV recurT (.mk (.struct R) (.struct ds)) field i
      = recurT (.struct S) := by
  simp [valueLeaves.field, Value.Field, hfield, hds, Value.Type, htyp, derefValue, Value.Elem,
    GoType.Kind, Value.IsValid]

/-- The traversal of an exported field that is a non-nil pointer to a struct is the traversal
of the struct it points to. -/
theorem valueLeaves_field_live_ptr (env : TypeEnv) (recurV : Value → Trace)
    (recurT : GoType → Trace) (R : Nat) (ds : List Data) (field : StructField) (i S : Nat)
    (z : Data) (hfield : (env R)[i]? = some field) (htyp : field.Typ = .ptr (.struct S))
    (hds : ds[i]? = some (.ptr z)) :
    valueLeaves.field env recurV recurT (.mk (.struct R) (.struct ds)) field i
      = recurV (.mk (.struct S) z) := by
  simp [valueLeaves.field, Value.Field, hfield, hds, Value.Type, htyp, derefValue, Value.Elem,
    GoType.Kind, Value.IsValid]

/-- When the traversal of a zero-valued struct completes, it reaches every leaf of the struct
type: with the zero value of its type when the path to the leaf goes through no pointer, and
else with the nil placeholder (the leaf is behind a nil pointer to a struct) or with the panic
of reading through a nil pointer (the leaf is itself a nil pointer). -/
theorem zero_leaves (env : TypeEnv) (path : List Nat) :
    ∀ (fuel n S : Nat) (f : StructField) (t : GoType),
      (valueLeaves env fuel (.mk (.struct S) (zeroData env n (.struct S)))).2 = .done →
      leafAt env (.struct S) path = some (f, t) →
      (leafAtDirect env (.struct S) path = some (f, t) →
          Leaf.mk f t (.ret (zeroAny env t))
            ∈ (valueLeaves env fuel (.mk (.struct S) (zeroData env n (.struct S)))).1)
        ∧ (leafAtDirect env (.struct S) path = none →
          Leaf.mk f t (.ret none)
              ∈ (valueLeaves env fuel (.mk (.struct S) (zeroData env n (.struct S)))).1
            ∨ Leaf.mk f t (.panic "reflect: call of reflect.Value.Interface on zero Value")
              ∈ (valueLeaves env fuel (.mk (.struct S) (zeroData env n (.struct S)))).1) := by
  induction path with
  | nil => intro fuel n S f t _ h; simp [leafAt] at h
  | cons i rest ih =>
    intro fuel n S f t hdone hleaf
    cases fuel with
    | zero => simp [valueLeaves] at hdone
    | succ fuel =>
      simp only [leafAt] at hleaf
      cases hfi : (env S)[i]? with
      | none => simp [hfi] at hleaf
      | some fi =>
        simp only [hfi] at hleaf
        by_cases hexp : fi.IsExported = false
        · simp [hexp] at hleaf
        · have hexp1 : fi.IsExported = true := by simpa using hexp
          simp only [hexp1, Bool.true_eq_false, if_false] at hleaf
          cases n with
          | zero =>
            exfalso
            rw [show zeroData env 0 (.struct S) = .other from rfl] at hdone
            simp only [valueLeaves] at hdone
            have := (valueLeaves_loop_done env _ _ _ _ 0 hdone i fi hfi hexp1).1
            simp [valueLeaves.field, Value.Field] at this
          | succ n =>
            rw [show zeroData env (n + 1) (.struct S)
              = .struct ((env S).map (fun f => zeroData env n f.Typ)) from rfl] at hdone ⊢
            simp only [valueLeaves] at hdone ⊢
            obtain ⟨d1, d2⟩ := valueLeaves_loop_done env _ _ _ _ 0 hdone i fi hfi hexp1
            have hF : (Value.mk (.struct S)
                (.struct ((env S).map (fun f => zeroData env n f.Typ)))).Field env (0 + i)
                = .ret (.mk fi.Typ (zeroData env n fi.Typ)) := by
              simp [Value.Field, hfi]
            simp only [valueLeaves.field, hF, Value.Type] at d1 d2
            simp only [leafAtDirect, hfi, hexp1, Bool.true_eq_false, if_false]
            cases hty : fi.Typ with
            | basic k =>
              rw [hty] at hleaf d1 d2
              simp only [derefType, derefValue, GoType.Kind] at hleaf d1 d2
              by_cases hk : k = .Struct
              · subst hk
                simp only [if_true] at hleaf
                cases rest <;> simp [leafAt] at hleaf
              · simp only [hk, if_false] at hleaf d2
                by_cases hrest : rest = []
                · simp only [hrest, if_true, Option.some.injEq, Prod.mk.injEq] at hleaf
                  obtain ⟨rfl, rfl⟩ := hleaf
                  rw [interface_zero_basic] at d2
                  simp only [hrest, if_true]
                  constructor
                  · intro _
                    exact d2 _ (List.mem_singleton.mpr rfl)
                  · intro h; simp at h
                · simp [hrest] at hleaf
            | slice e =>
              rw [hty] at hleaf d1 d2
              simp only [derefType, derefValue, GoType.Kind] at hleaf d1 d2
              have hne : ¬ Kind.Slice = Kind.Struct := by decide
              simp only [hne, if_false] at hleaf d2
              by_cases hrest : rest = []
              · simp only [hrest, if_true, Option.some.injEq, Prod.mk.injEq] at hleaf
                obtain ⟨rfl, rfl⟩ := hleaf
                simp only [hrest, if_true]
                constructor
                · intro _
                  apply d2
                  cases n <;> simp [zeroData, Value.Interface, zeroAny, GoType.Kind]
                · intro h; simp at h
              · simp [hrest] at hleaf
            | struct S1 =>
              rw [hty] at hleaf d1 d2
              simp only [derefType, derefValue, GoType.Kind, if_true, Value.IsValid] at hleaf d1 d2
              obtain ⟨i1, i2⟩ := ih fuel n S1 f t d1 hleaf
              exact ⟨fun h => d2 _ (i1 h), fun h => (i2 h).imp (d2 _) (d2 _)⟩
            | ptr e =>
              rw [hty] at hleaf d1 d2
              have hzero : zeroData env n (.ptr e) = .nil := by cases n <;> rfl
              simp only [hzero, derefValue, Value.Elem] at d1 d2
              refine ⟨fun h => by simp at h, fun _ => ?_⟩
              cases e with
              | ptr e1 =>
                simp [derefValue, Value.Elem] at d1
              | struct S1 =>
                simp only [derefType, derefValue, GoType.Kind, if_true, Value.IsValid,
                  Bool.false_eq_true, if_false] at hleaf d1 d2
                exact Or.inl (d2 _ (typeLeaves_complete env rest fuel S1 f t d1 hleaf))
              | basic k =>
                simp only [derefType, derefValue, GoType.Kind] at hleaf d1 d2
                by_cases hk : k = .Struct
                · subst hk
                  simp only [if_true] at hleaf
                  cases rest <;> simp [leafAt] at hleaf
                · simp only [hk, if_false] at hleaf d2
                  by_cases hrest : rest = []
                  · simp only [hrest, if_true, Option.some.injEq, Prod.mk.injEq] at hleaf
                    obtain ⟨rfl, rfl⟩ := hleaf
                    exact Or.inr (d2 _ (List.mem_singleton.mpr rfl))
                  · simp [hrest] at hleaf
              | slice e1 =>
                simp only [derefType, derefValue, GoType.Kind] at hleaf d1 d2
                have hne : ¬ Kind.Slice = Kind.Struct := by decide
                simp only [hne, if_false] at hleaf d2
                by_cases hrest : rest = []
                · simp only [hrest, if_true, Option.some.injEq, Prod.mk.injEq] at hleaf
                  obtain ⟨rfl, rfl⟩ := hleaf
                  exact Or.inr (d2 _ (List.mem_singleton.mpr rfl))
                · simp [hrest] at hleaf

/-- Claim C3, amended. For every record with an exported field of type pointer-to-struct on
which `SQLValues` succeeds: when that pointer is nil, `SQLValues` maps every included leaf
column of the pointed-to struct type, at any nesting depth below it, to nil; when that pointer
is non-nil and points at a zero-valued struct, `SQLValues` maps the included leaf columns that
the struct holds without a further pointer on the way to the real zero values of their types
(false, 0, the empty string, and the nil of a byte slice or of an interface), and the included
leaf columns behind a pointer inside the struct to nil. -/
theorem SQLValues_pointer_to_struct (env : TypeEnv) (fuel : Nat) (a : AnyVal)
    (exclusions : List String) (R : Nat) (ds : List Data) (i : Nat) (field : StructField)
    (S : Nat) (m : GoMap String AnyVal)
    (hroot : structValue a = .ret (.mk (.struct R) (.struct ds), none))
    (hfield : (env R)[i]? = some field) (hexp : field.IsExported = true)
    (htyp : field.Typ = .ptr (.struct S))
    (hok : SQLValues env fuel a exclusions = .ret (some m, none)) :
    (ds[i]? = some .nil →
        ∀ (path : List Nat) (f : StructField) (t : GoType),
          leafAt env (.struct S) path = some (f, t) →
          (Leaf.mk f t nilValuer).Included (toMap exclusions) →
          GoMap.find m (SQLName f) = some none)
      ∧ (∀ n : Nat, ds[i]? = some (.ptr (zeroData env n (.struct S))) →
        ∀ (path : List Nat) (f : StructField) (t : GoType),
          leafAt env (.struct S) path = some (f, t) →
          (Leaf.mk f t nilValuer).Included (toMap exclusions) →
          (leafAtDirect env (.struct S) path = some (f, t) →
              GoMap.find m (SQLName f) = some (zeroAny env t))
            ∧ (leafAtDirect env (.struct S) path = none →
              GoMap.find m (SQLName f) = some none)) := by
  obtain ⟨hdone, _, _, hfind⟩ := SQLValues_ok env fuel a exclusions _ m hroot hok
  cases fuel with
  | zero => simp [valueLeaves] at hdone
  | succ fuel =>
    simp only [valueLeaves] at hdone hfind
    obtain ⟨d1, d2⟩ := valueLeaves_loop_done env _ _ _ _ 0 hdone i field hfield hexp
    rw [Nat.zero_add] at d1 d2
    constructor
    · intro hnil path f t hleaf hinc
      rw [valueLeaves_field_nil_ptr env _ _ R ds field i S hfield htyp hnil] at d1 d2
      have hmem := d2 _ (typeLeaves_complete env path fuel S f t d1 hleaf)
      obtain ⟨x, hx, hfx⟩ := hfind _ hmem hinc
      simp only [nilValuer, Res.ret.injEq] at hx
      rw [← hx] at hfx
      exact hfx
    · intro n hlive path f t hleaf hinc
      rw [valueLeaves_field_live_ptr env _ _ R ds field i S _ hfield htyp hlive] at d1 d2
      obtain ⟨z1, z2⟩ := zero_leaves env path fuel n S f t d1 hleaf
      constructor
      · intro hdirect
        obtain ⟨x, hx, hfx⟩ := hfind _ (d2 _ (z1 hdirect)) hinc
        simp only [Res.ret.injEq] at hx
        rw [← hx] at hfx
        exact hfx
      · intro hdirect
        rcases z2 hdirect with hmem | hmem
        · obtain ⟨x, hx, hfx⟩ := hfind _ (d2 _ hmem) hinc
          simp only [Res.ret.injEq] at hx
          rw [← hx] at hfx
          exact hfx
        · obtain ⟨x, hx, _⟩ := hfind _ (d2 _ hmem) hinc
          simp at hx

/-- Counterexample to claim C3 as stated. In `Top{P: &Mid{}}` the pointer `P` is non-nil and
points at a zero-valued `Mid`, whose type has the leaf column `b` two levels down, behind the
pointer `Q`; `SQLValues` maps `b` to nil, not to the zero value of its type, the empty string.
In `Dup{A: "", Inner: nil}` the pointer `Inner` is nil and the leaf column `x` of its type is
also the column of `A`: `SQLValues` fails and its map holds the value of `A` for `x`, not
nil. In `Hidden{inner: nil}` the pointer field is unexported and the leaf column `b` of its
type is no key at all. -/
theorem SQLValues_pointer_to_struct_counterexample :
    (zeroData deepEnv 1 (.struct 1) = .struct [.int 0, .nil]
      ∧ leafAt deepEnv (.struct 1) [1, 0]
        = some (StructField.mk "B" "" (.basic .String) [("sql", "b")], .basic .String)
      ∧ SQLValues deepEnv 4 (some (.struct 0, .struct [.ptr (.struct [.int 0, .nil])])) []
        = .ret (some [("n", some (.basic .Int, .int 0)), ("b", none)], none)
      ∧ GoMap.find [("n", some (GoType.basic .Int, Data.int 0)), ("b", none)] "b"
        ≠ some (some (.basic .String, .str "")))
      ∧ (SQLValues dupEnv 3 (some (.struct 0, .struct [.str "", .nil])) []
          = .ret (some [("x", some (.basic .String, .str ""))],
              some (newError "s2x: duplicate SQL column %q in struct %v"
                [.str "x", .value (Value.mk (.struct 0) (.struct [.str "", .nil]))]))
        ∧ GoMap.find [("x", some (GoType.basic .String, Data.str ""))] "x" ≠ some none)
      ∧ (SQLValues hiddenEnv 3 (some (.struct 0, .struct [.nil])) [] = .ret (some [], none)
        ∧ GoMap.find ([] : GoMap String AnyVal) "b" ≠ some none) := by
  refine ⟨⟨rfl, rfl, rfl, ?_⟩, ⟨rfl, ?_⟩, ⟨rfl, ?_⟩⟩
  · rw [show GoMap.find [("n", some (GoType.basic .Int, Data.int 0)), ("b", none)] "b"
      = some none from rfl]
    simp
  · rw [show GoMap.find [("x", some (GoType.basic .String, Data.str ""))] "x"
      = some (some (.basic .String, .str "")) from rfl]
    simp
  · simp [GoMap.find]

/-- Witness of claim C3, amended: the scenario of the specification, `Outer{A bool "a";
Inner *Inner}` with `Inner{B string "b"}`; with `Inner == nil` the column `b` is mapped to
nil, and with `Inner` pointing at `Inner{}` it is mapped to the empty string. -/
theorem SQLValues_pointer_to_struct_witness :
    SQLValues structTestEnv 3 (some (.struct 3, .struct [.bool false, .nil])) []
        = .ret (some [("a", some (.basic .Bool, .bool false)), ("b", none)], none)
      ∧ GoMap.find [("a", some (GoType.basic .Bool, Data.bool false)), ("b", none)]
          (SQLName (StructField.mk "B" "" (.basic .String) [("sql", "b")])) = some none
      ∧ SQLValues structTestEnv 3
          (some (.struct 3, .struct [.bool false, .ptr (zeroData structTestEnv 1 (.struct 4))]))
          []
        = .ret (some [("a", some (.basic .Bool, .bool false)),
            ("b", some (.basic .String, .str ""))], none)
      ∧ GoMap.find [("a", some (GoType.basic .Bool, Data.bool false)),
            ("b", some (.basic .String, .str ""))]
          (SQLName (StructField.mk "B" "" (.basic .String) [("sql", "b")]))
        = some (zeroAny structTestEnv (.basic .String)) :=
  ⟨rfl,
    (SQLValues_pointer_to_struct structTestEnv 3
      (some (.struct 3, .struct [.bool false, .nil])) [] 3 [.bool false, .nil] 1
      (StructField.mk "Inner" "" (.ptr (.struct 4)) []) 4 _ rfl rfl rfl rfl rfl).1 rfl [0]
      (StructField.mk "B" "" (.basic .String) [("sql", "b")]) (.basic .String) rfl
      (by decide),
    rfl,
    ((SQLValues_pointer_to_struct structTestEnv 3
      (some (.struct 3, .struct [.bool false, .ptr (zeroData structTestEnv 1 (.struct 4))])) []
      3 [.bool false, .ptr (zeroData structTestEnv 1 (.struct 4))] 1
      (StructField.mk "Inner" "" (.ptr (.struct 4)) []) 4 _ rfl rfl rfl rfl rfl).2 1 rfl [0]
      (StructField.mk "B" "" (.basic .String) [("sql", "b")]) (.basic .String) rfl
      (by decide)).1 rfl⟩

/-! ### The tests of struct_test.go -/

/-- The tests `TestStructColumns/struct` and `TestStructColumns/pointer on struct`. -/
theorem SQLValues_test_struct :
    SQLValues structTestEnv 2 (some (.struct 0, testStructZero)) []
        = .ret (some [("bool", some (.basic .Bool, .bool false)),
            ("data", some (.slice (.basic .Uint8), .nil)),
            ("string", some (.basic .String, .str ""))], none)
      ∧ SQLValues structTestEnv 2 (some (.ptr (.struct 0), .ptr testStructZero)) []
        = SQLValues structTestEnv 2 (some (.struct 0, testStructZero)) [] :=
  ⟨rfl, rfl⟩

/-- The tests `TestStructColumns/nested struct pointer` and `TestStructColumns/pointer on nested
struct pointer`: the columns of the absent `testStruct` are mapped to nil. -/
theorem SQLValues_test_nested_struct_pointer :
    SQLValues structTestEnv 3 (some (.struct 2, testNestedStructPointerZero)) []
        = .ret (some [("mainBool", some (.basic .Bool, .bool false)),
            ("mainString", some (.basic .String, .str "")),
            ("bool", none), ("data", none), ("string", none)], none)
      ∧ SQLValues structTestEnv 3
          (some (.ptr (.struct 2), .ptr testNestedStructPointerZero)) []
        = SQLValues structTestEnv 3 (some (.struct 2, testNestedStructPointerZero)) [] :=
  ⟨rfl, rfl⟩

/-! ### Exported fields and the field index -/

/-- Claim C11 at the failing input `struct { flag bool "sql:\"f\"" }`: field 0 is not
exported, yet `buildFieldsIndex` returns the index `{"f": 0}`, which has an entry for it, and
`Scanner.init` binds the query column `f` to that field. The walk of struct.go skips the same
field: `SQLValues` returns the empty mapping. -/
theorem buildFieldsIndex_indexes_unexported_field :
    (unexportedEnv 0).map StructField.IsExported = [false]
      ∧ buildFieldsIndex unexportedEnv 0 = (some [("f", 0)], none)
      ∧ (Scanner.init unexportedEnv RangeOrder.insertion
          (NewScanner (positionalRows ["f"] [.bool true]))
          [StructValue.mk 0 [.bool false]] []).1.columns = some [columnMetadata.mk 0 0]
      ∧ SQLValues unexportedEnv 2 (some (.struct 0, .struct [.bool false])) []
          = .ret (some [], none) :=
  ⟨by decide, rfl, rfl, rfl⟩

/-! ### The tag cache is transparent -/

/-- Claim C12: with a cache in which every stored entry is the successful result of
`buildFieldsIndex` for its key, `fieldsIndex` returns what `buildFieldsIndex` returns, index or
error; it leaves a cache satisfying the same condition, in which the index of `t` is stored when
the result is an index, which is the cache unchanged when the result is an error, and in which
the entries of the other types are those of the cache before the call; and a second call
returns the result of the first and leaves the cache of the first. -/
theorem fieldsIndex_transparent (env : TypeEnv) (cache : TagsCache) (t : Nat)
    (hc : CacheConsistent env cache) :
    (fieldsIndex env cache t).1 = buildFieldsIndex env t
      ∧ CacheConsistent env (fieldsIndex env cache t).2
      ∧ (∀ idx, buildFieldsIndex env t = (idx, none) →
          GoMap.find (fieldsIndex env cache t).2 t = some idx)
      ∧ (∀ x err, buildFieldsIndex env t = (x, some err) →
          (fieldsIndex env cache t).2 = cache)
      ∧ (∀ t2, t2 ≠ t → GoMap.find (fieldsIndex env cache t).2 t2 = GoMap.find cache t2)
      ∧ fieldsIndex env (fieldsIndex env cache t).2 t = fieldsIndex env cache t := by
  refine ⟨(fieldsIndex_of_consistent env cache t hc).1,
    (fieldsIndex_of_consistent env cache t hc).2, ?_, ?_, ?_, ?_⟩
  · intro idx hb
    unfold fieldsIndex
    cases hfind : GoMap.find cache t with
    | some cached =>
      have := hc t cached hfind
      rw [hb] at this
      simp only [Prod.mk.injEq, and_true] at this
      simp only [hfind, this]
    | none =>
      simp only [hb, GoMap.find_put, if_true]
  · intro x err hb
    unfold fieldsIndex
    cases hfind : GoMap.find cache t with
    | some cached =>
      rfl
    | none =>
      simp only [hb]
  · intro t2 ht2
    unfold fieldsIndex
    cases hfind : GoMap.find cache t with
    | some cached => rfl
    | none =>
      rcases hb : buildFieldsIndex env t with ⟨result, _ | err⟩
      · have hne : ¬ t = t2 := fun h => ht2 h.symm
        simp only [GoMap.find_put, hne, if_false]
      · rfl
  · cases hfind : GoMap.find cache t with
    | some cached =>
      have h1 : fieldsIndex env cache t = ((cached, none), cache) := by
        unfold fieldsIndex
        simp only [hfind]
      rw [h1]
      exact h1
    | none =>
      rcases hb : buildFieldsIndex env t with ⟨result, _ | err⟩
      · have h1 : fieldsIndex env cache t = ((result, none), GoMap.put cache t result) := by
          unfold fieldsIndex
          simp only [hfind, hb]
        rw [h1]
        unfold fieldsIndex
        simp only [GoMap.find_put, if_true]
      · have h1 : fieldsIndex env cache t = ((none, some err), cache) := by
          unfold fieldsIndex
          simp only [hfind, hb]
        rw [h1]
        exact h1

/-- Claim C12 on `testScanStruct` with the empty cache: the first call stores the index, the
second returns it from the cache. -/
theorem fieldsIndex_transparent_witness :
    CacheConsistent testEnv []
      ∧ (fieldsIndex testEnv [] 0).1 = buildFieldsIndex testEnv 0
      ∧ fieldsIndex testEnv (fieldsIndex testEnv [] 0).2 0 = fieldsIndex testEnv [] 0 :=
  ⟨cacheConsistent_nil testEnv,
    (fieldsIndex_transparent testEnv [] 0 (cacheConsistent_nil testEnv)).1,
    (fieldsIndex_transparent testEnv [] 0 (cacheConsistent_nil testEnv)).2.2.2.2.2⟩

/-! ### The arguments of `Scan`: `toValues` -/

/-- One step of the loop of `toValues` on a non-nil pointer to a struct. -/
theorem toValues_loop_cons_pointer (v : StructValue) (rest : List AnyVal) :
    toValues.loop (pointerToStruct v :: rest)
      = match toValues.loop rest with
        | .ret (.ok result) => .ret (.ok (v :: result))
        | .ret (.error err) => .ret (.error err)
        | .panic msg => .panic msg
        | .timeout => .timeout := by
  obtain ⟨id, ds⟩ := v
  rfl

/-- On non-nil pointers to structs the loop of `toValues` ends with the structs pointed to, in
the order of the arguments. -/
theorem toValues_loop_pointers (vs : List StructValue) :
    toValues.loop (vs.map pointerToStruct) = .ret (.ok vs) := by
  induction vs with
  | nil => rfl
  | cons v rest ih =>
    rw [List.map_cons, toValues_loop_cons_pointer, ih]

/-- When every argument is a non-nil pointer to a struct, `toValues` returns the structs pointed
to, in the order of the arguments, and no error. -/
theorem toValues_of_pointers (vs : List StructValue) :
    toValues (vs.map pointerToStruct) = .ret (some vs, none) := by
  unfold toValues
  rw [toValues_loop_pointers]

/-- The loop of `toValues` on a typed argument that is no non-nil pointer to a struct returns
an error that carries the argument. -/
theorem toValues_loop_refuses (s : AnyVal) (rest : List AnyVal) (h : Refused s) :
    ∃ err, toValues.loop (s :: rest) = .ret (.error err) ∧ IsRefusal err s := by
  rcases s with _ | ⟨t, d⟩
  · exact absurd h (by simp [Refused])
  · rcases h with h | ⟨hk, hd⟩ | ⟨e, x, ht, hd, hk⟩
    · refine ⟨newError "s2x: expected a non nil pointer, got %v" [.any (some (t, d))], ?_,
        Or.inl rfl, rfl⟩
      simp only [toValues.loop, toValues.notPointer, ValueOf, Value.Type, ne_eq, h,
        not_false_eq_true, if_true]
    · subst hd
      refine ⟨newError "s2x: expected a non nil pointer, got %v" [.any (some (t, .nil))], ?_,
        Or.inl rfl, rfl⟩
      simp only [toValues.loop, toValues.notPointer, ValueOf, Value.Type, ne_eq, hk,
        not_true_eq_false, if_false, Value.IsNil, or_true, true_or, if_true]
    · subst ht hd
      refine ⟨newError "s2x: expected a pointer on a struct, got %v"
        [.any (some (.ptr e, .ptr x))], ?_, Or.inr rfl, rfl⟩
      have h1 : toValues.notPointer (Value.mk (GoType.ptr e) (Data.ptr x)) = .ret false :=
        rfl
      simp only [toValues.loop, ValueOf, h1, Value.Elem, Value.Type, ne_eq, hk,
        not_false_eq_true, if_true]

/-- When the first argument that is no non-nil pointer to a struct is typed, `toValues` returns an
error that carries that argument, and no values. -/
theorem toValues_refuses (pre : List StructValue) (s : AnyVal) (rest : List AnyVal)
    (h : Refused s) :
    ∃ err, toValues (pre.map pointerToStruct ++ s :: rest) = .ret (none, some err)
      ∧ IsRefusal err s := by
  obtain ⟨err, hl, hr⟩ := toValues_loop_refuses s rest h
  refine ⟨err, ?_, hr⟩
  have : toValues.loop (pre.map pointerToStruct ++ s :: rest) = .ret (.error err) := by
    induction pre with
    | nil => exact hl
    | cons v pre ih =>
      rw [List.map_cons, List.cons_append, toValues_loop_cons_pointer, ih]
  unfold toValues
  rw [this]

/-- When the first argument that is no non-nil pointer to a struct is typed, `Scan` returns the
error of `toValues` and leaves the scanner, its row source with the calls received, and the
cache as they are: the row source is not consulted. -/
theorem Scan_refuses (env : TypeEnv) (ρ : RangeOrder) (scanner : Scanner) (cache : TagsCache)
    (pre : List StructValue) (s : AnyVal) (rest : List AnyVal) (h : Refused s) :
    ∃ err, Scanner.Scan env ρ scanner (pre.map pointerToStruct ++ s :: rest) cache
        = .ret (some err, scanner, cache, [])
      ∧ IsRefusal err s := by
  obtain ⟨err, ht, hr⟩ := toValues_refuses pre s rest h
  refine ⟨err, ?_, hr⟩
  unfold Scanner.Scan
  rw [ht]

/-- With non-nil pointers to structs `Scan` is `doScan` on the structs pointed to. -/
theorem Scan_of_pointers (env : TypeEnv) (ρ : RangeOrder) (scanner : Scanner)
    (cache : TagsCache) (vs : List StructValue) :
    Scanner.Scan env ρ scanner (vs.map pointerToStruct) cache
      = scanner.doScan env ρ vs cache := by
  unfold Scanner.Scan
  rw [toValues_of_pointers]
  rfl

/-- The loop of `toValues` panics at an untyped nil that follows non-nil pointers to structs. -/
theorem toValues_loop_untyped_nil (pre : List StructValue) (rest : List AnyVal) :
    toValues.loop (pre.map pointerToStruct ++ none :: rest)
      = .panic "reflect: call of reflect.Value.Type on zero Value" := by
  induction pre with
  | nil => rfl
  | cons v pre ih =>
    rw [List.map_cons, List.cons_append, toValues_loop_cons_pointer, ih]

/-- Claim C13 at the failing input `scanner.Scan(nil)`, and at every argument list whose first
argument that is no non-nil pointer to a struct is the untyped nil: `toValues` calls `Type` on
the zero Value, so that `toValues` and `Scan` panic instead of returning an error. -/
theorem Scan_panics_on_untyped_nil (env : TypeEnv) (ρ : RangeOrder) (scanner : Scanner)
    (cache : TagsCache) (pre : List StructValue) (rest : List AnyVal) :
    toValues [none] = .panic "reflect: call of reflect.Value.Type on zero Value"
      ∧ Scanner.Scan env ρ scanner [none] cache
          = .panic "reflect: call of reflect.Value.Type on zero Value"
      ∧ Scanner.Scan env ρ scanner (pre.map pointerToStruct ++ none :: rest) cache
          = .panic "reflect: call of reflect.Value.Type on zero Value" := by
  refine ⟨rfl, rfl, ?_⟩
  unfold Scanner.Scan toValues
  rw [toValues_loop_untyped_nil]

/-! ### Failures of the row source -/

/-- When `rows.Columns()` fails, `Scanner.init` returns its error after that one call and leaves
`scanner.columns` and the cache as they are. -/
theorem init_of_columns_failure (env : TypeEnv) (ρ : RangeOrder) (scanner : Scanner)
    (values : List StructValue) (cache : TagsCache) (cols : List String) (err : Error)
    (h : scanner.rows.columnsResult = (cols, some err)) :
    Scanner.init env ρ scanner values cache
      = (Scanner.mk scanner.columns scanner.rows.Columns.2, cache, some err) := by
  unfold Scanner.init
  have : scanner.rows.Columns = ((cols, some err), scanner.rows.Columns.2) := by
    unfold Rows.Columns
    rw [h]
  rw [this]

/-- With `scanner.columns` set, `doScan` is the call of `rows.Scan` on the destinations of
`newDest`. -/
theorem doScan_of_columns (env : TypeEnv) (ρ : RangeOrder) (scanner : Scanner)
    (values : List StructValue) (cache : TagsCache) (cs : List columnMetadata)
    (dest : List FieldAddr) (hcs : scanner.columns = some cs)
    (hdest : Scanner.newDest env scanner values = .ret dest) :
    Scanner.doScan env ρ scanner values cache
      = .ret ((scanner.rows.scanResult dest).2,
          Scanner.mk scanner.columns (scanner.rows.Scan dest).2, cache,
          applyWrites (scanner.rows.scanResult dest).1 values) := by
  unfold Scanner.doScan
  simp only [hcs, hdest]
  rfl

/-- Claim C14: when `rows.Columns()` fails, `Scanner.init` returns exactly its error, and so do
`doScan` and `Scan` on a scanner without metadata; and once `scanner.columns` is set, by an
earlier call or by `init` in the same call, `doScan` calls `rows.Scan` on the destinations of
`newDest` and returns exactly its result, the error on failure and nil on success. -/
theorem rows_failures_propagate (env : TypeEnv) (ρ : RangeOrder) (scanner : Scanner)
    (values : List StructValue) (cache : TagsCache) :
    (∀ cols err, scanner.rows.columnsResult = (cols, some err) →
        (Scanner.init env ρ scanner values cache).2.2 = some err
          ∧ (scanner.columns = none →
              Scanner.doScan env ρ scanner values cache
                  = .ret (some err, Scanner.mk none scanner.rows.Columns.2, cache, values)
                ∧ Scanner.Scan env ρ scanner (values.map pointerToStruct) cache
                  = .ret (some err, Scanner.mk none scanner.rows.Columns.2, cache, values)))
      ∧ (∀ cs dest, scanner.columns = some cs →
          Scanner.newDest env scanner values = .ret dest →
          Scanner.doScan env ρ scanner values cache
            = .ret ((scanner.rows.scanResult dest).2,
                Scanner.mk scanner.columns (scanner.rows.Scan dest).2, cache,
                applyWrites (scanner.rows.scanResult dest).1 values))
      ∧ (∀ scanner1 cache1 dest, scanner.columns = none →
          Scanner.init env ρ scanner values cache = (scanner1, cache1, none) →
          Scanner.newDest env scanner1 values = .ret dest →
          Scanner.doScan env ρ scanner values cache
            = .ret ((scanner1.rows.scanResult dest).2,
                Scanner.mk scanner1.columns (scanner1.rows.Scan dest).2, cache1,
                applyWrites (scanner1.rows.scanResult dest).1 values)) := by
  refine ⟨?_, ?_, ?_⟩
  · intro cols err h
    have hi := init_of_columns_failure env ρ scanner values cache cols err h
    refine ⟨by rw [hi], ?_⟩
    intro hnone
    have hd : Scanner.doScan env ρ scanner values cache
        = .ret (some err, Scanner.mk none scanner.rows.Columns.2, cache, values) := by
      unfold Scanner.doScan
      rw [hnone]
      simp only []
      rw [hi, hnone]
    refine ⟨hd, ?_⟩
    unfold Scanner.Scan
    rw [toValues_of_pointers]
    exact hd
  · intro cs dest hcs hdest
    exact doScan_of_columns env ρ scanner values cache cs dest hcs hdest
  · intro scanner1 cache1 dest hnone hi hdest
    unfold Scanner.doScan
    rw [hnone]
    simp only []
    rw [hi]
    simp only []
    rw [hdest]
    rfl

/-- Claim C14 on the record `{Flag bool "f"; Text string "t"}`: a row source whose `Columns`
fails with `test error`, and a scanner with metadata whose row source fails in `Scan` with
`scan failed`. -/
theorem rows_failures_propagate_witness :
    Scanner.Scan scenarioEnv RangeOrder.insertion
        (NewScanner (Rows.mk ([], some (Error.mk "test error" [])) (fun _ => ([], none)) []))
        [pointerToStruct (StructValue.mk 0 [.bool false, .str ""])] []
      = .ret (some (Error.mk "test error" []),
          Scanner.mk none
            (Rows.Columns
              (Rows.mk ([], some (Error.mk "test error" [])) (fun _ => ([], none)) [])).2,
          [], [StructValue.mk 0 [.bool false, .str ""]])
      ∧ ((Scanner.doScan scenarioEnv RangeOrder.insertion
          (Scanner.mk (some [columnMetadata.mk 0 0, columnMetadata.mk 0 1])
            (Rows.mk (["f", "t"], none)
              (fun _ => ([], some (Error.mk "scan failed" []))) [RowsCall.Columns]))
          [StructValue.mk 0 [.bool false, .str ""]] [])
        = .ret (some (Error.mk "scan failed" []),
            Scanner.mk (some [columnMetadata.mk 0 0, columnMetadata.mk 0 1])
              (Rows.mk (["f", "t"], none)
                (fun _ => ([], some (Error.mk "scan failed" [])))
                [RowsCall.Columns,
                  RowsCall.Scan [FieldAddr.mk 0 0 (.basic .Bool),
                    FieldAddr.mk 0 1 (.basic .String)]]),
            [], [StructValue.mk 0 [.bool false, .str ""]])) :=
  ⟨((rows_failures_propagate scenarioEnv RangeOrder.insertion
      (NewScanner (Rows.mk ([], some (Error.mk "test error" [])) (fun _ => ([], none)) []))
      [StructValue.mk 0 [.bool false, .str ""]] []).1 [] (Error.mk "test error" []) rfl).2
      rfl |>.2,
    (rows_failures_propagate scenarioEnv RangeOrder.insertion
      (Scanner.mk (some [columnMetadata.mk 0 0, columnMetadata.mk 0 1])
        (Rows.mk (["f", "t"], none)
          (fun _ => ([], some (Error.mk "scan failed" []))) [RowsCall.Columns]))
      [StructValue.mk 0 [.bool false, .str ""]] []).2.1
      [columnMetadata.mk 0 0, columnMetadata.mk 0 1]
      [FieldAddr.mk 0 0 (.basic .Bool), FieldAddr.mk 0 1 (.basic .String)] rfl rfl⟩

/-! ### Pointers at the root of `SQLValues` -/

/-- The loop of `structValue` follows non-nil pointers down to the value they lead to. -/
theorem structValue_follow_pointerTo (n : Nat) (x : GoType × Data) :
    structValue.follow (ValueOf (some (pointerTo n x))) = structValue.follow (ValueOf (some x)) := by
  induction n with
  | zero => rfl
  | succ n ih =>
    rw [← ih]
    simp only [pointerTo, ValueOf, structValue.follow, structValue.loop]

/-- Behind any number of non-nil pointers `structValue` finds the struct. -/
theorem structValue_pointerTo_struct (n id : Nat) (d : Data) :
    structValue (some (pointerTo n (.struct id, d))) = .ret (.mk (.struct id) d, none) := by
  have hl : structValue.loop (.struct id) d = .ret (.mk (.struct id) d) := by
    cases d <;> rfl
  unfold structValue
  rw [structValue_follow_pointerTo]
  simp only [ValueOf, structValue.follow, hl]
  rfl

/-- Claim C17: for every struct value `x`, exclusion list and budget, `SQLValues(&x, e...)` is
`SQLValues(x, e...)`, the same mapping and the same error or the same panic, and so is
`SQLValues` on `x` behind any number of non-nil pointers. -/
theorem SQLValues_root_indirection (env : TypeEnv) (fuel id : Nat) (d : Data)
    (e : List String) :
    SQLValues env fuel (some (.ptr (.struct id), .ptr d)) e
        = SQLValues env fuel (some (.struct id, d)) e
      ∧ ∀ n, SQLValues env fuel (some (pointerTo n (.struct id, d))) e
          = SQLValues env fuel (some (.struct id, d)) e := by
  have h : ∀ n, SQLValues env fuel (some (pointerTo n (.struct id, d))) e
      = SQLValues env fuel (some (.struct id, d)) e := by
    intro n
    have h0 := structValue_pointerTo_struct 0 id d
    simp only [pointerTo] at h0
    unfold SQLValues
    rw [structValue_pointerTo_struct n id d, h0]
  exact ⟨h 1, h⟩

/-! ### The failures of `SQLValues` -/

/-- The only error of the value collector is the duplicate error. -/
theorem feed_error_format (ls : List Leaf) (st : Status) (scanner scanner1 : structSQLScanner)
    (err : Error) (h : feed ls st scanner = .ret (scanner1, some err)) :
    err.format = "s2x: duplicate SQL column %q in struct %v" := by
  induction ls generalizing scanner with
  | nil =>
    cases st <;> simp [feed] at h
  | cons l rest ih =>
    simp only [feed] at h
    by_cases hinc : l.Included scanner.exclusions
    · rw [addValue_of_included scanner l hinc] at h
      cases hfind : GoMap.find scanner.sqlValues l.name with
      | some x =>
        rw [hfind] at h
        simp only [Res.ret.injEq, Prod.mk.injEq, Option.some.injEq] at h
        rw [← h.2]
        rfl
      | none =>
        rw [hfind] at h
        cases hval : l.value with
        | ret a =>
          rw [hval] at h
          exact ih _ h
        | panic msg => rw [hval] at h; simp at h
        | timeout => rw [hval] at h; simp at h
    · rw [addValue_of_not_included scanner l hinc] at h
      exact ih _ h

/-- The errors `SQLValues` returns: the error of `structValue`, with no mapping, when the
input does not lead to a struct, and otherwise the duplicate error of the walk, with the
mapping built so far. -/
theorem SQLValues_error_kinds (env : TypeEnv) (fuel : Nat) (a : AnyVal)
    (exclusions : List String) (m : Option (GoMap String AnyVal)) (err : Error)
    (h : SQLValues env fuel a exclusions = .ret (m, some err)) :
    (m = none ∧ err = newError "s2x: failed to find a struct in %v" [.any a]
        ∧ ∃ v, structValue a = .ret (v, some err) ∧ v.Kind ≠ .Struct)
      ∨ (m ≠ none ∧ err.format = "s2x: duplicate SQL column %q in struct %v"
        ∧ ∃ v, structValue a = .ret (v, none)) := by
  rcases hroot : structValue a with ⟨v, _ | e⟩ | msg | _
  · right
    rw [SQLValues_eq_feed env fuel a exclusions v hroot] at h
    rcases hf : feed (valueLeaves env fuel v).1 (valueLeaves env fuel v).2
        (structSQLScanner.mk v (toMap exclusions) []) with ⟨s1, e1⟩ | msg | _
    · rw [hf] at h
      simp only [Res.ret.injEq, Prod.mk.injEq] at h
      obtain ⟨hm, he⟩ := h
      subst he
      refine ⟨by rw [← hm]; simp, feed_error_format _ _ _ _ _ hf, v, rfl⟩
    · rw [hf] at h; simp at h
    · rw [hf] at h; simp at h
  · left
    rw [SQLValues_of_root_error env fuel a exclusions v e hroot] at h
    simp only [Res.ret.injEq, Prod.mk.injEq, Option.some.injEq] at h
    obtain ⟨hm, he⟩ := h
    subst he
    have hroot2 := hroot
    unfold structValue at hroot2
    rcases hfol : structValue.follow (ValueOf a) with w | msg | _
    · rw [hfol] at hroot2
      simp only [] at hroot2
      by_cases hk : w.Kind ≠ .Struct
      · rw [if_pos hk] at hroot2
        simp only [Res.ret.injEq, Prod.mk.injEq, Option.some.injEq] at hroot2
        refine ⟨hm.symm, hroot2.2.symm, v, rfl, ?_⟩
        rw [← hroot2.1]
        exact hk
      · rw [if_neg hk] at hroot2
        simp at hroot2
    · rw [hfol] at hroot2; simp at hroot2
    · rw [hfol] at hroot2; simp at hroot2
  · unfold SQLValues at h
    rw [hroot] at h
    simp at h
  · unfold SQLValues at h
    rw [hroot] at h
    simp at h

/-- Claim C16 at the failing inputs `Row{}` for `struct { N *string "sql:\"n\"" }`,
`testScanStruct{}` of scan_test.go, and `Deep{}` for `struct { P **Inner }`: the input is a
struct and the walk meets no duplicate identifier, yet `SQLValues` panics, whatever the budget,
in `Interface` on the zero Value that `Elem` yields for the nil pointer to a string, and in
`Elem` on that zero Value for the nil pointer to a pointer. With the pointers set the same
records give a mapping. -/
theorem SQLValues_panics_on_nil_pointer (fuel : Nat) :
    SQLValues nullableEnv (fuel + 1) (some (.struct 0, .struct [.nil])) []
        = .panic "reflect: call of reflect.Value.Interface on zero Value"
      ∧ SQLValues testEnv (fuel + 1) (some (.struct 0, testScanStructZero)) []
        = .panic "reflect: call of reflect.Value.Interface on zero Value"
      ∧ SQLValues nullableEnv (fuel + 1) (some (.struct 1, .struct [.nil])) []
        = .panic "reflect: call of reflect.Value.Elem on a Value that is no pointer or interface"
      ∧ SQLValues nullableEnv (fuel + 1) (some (.struct 0, .struct [.ptr (.str "a")])) []
        = .ret (some [("n", some (.basic .String, .str "a"))], none)
      ∧ SQLValues nullableEnv (fuel + 2)
          (some (.struct 1, .struct [.ptr (.ptr (.struct [.str "a"]))])) []
        = .ret (some [("b", some (.basic .String, .str "a"))], none) :=
  ⟨rfl, rfl, rfl, rfl, rfl⟩

/-! ### The allow-list of column types -/

/-- The identifiers of the included leaves are those carried by an included leaf. -/
theorem mem_includedNames_iff (exclusions : GoMap String Bool) (ls : List Leaf) (n : String) :
    n ∈ includedNames exclusions ls ↔ ∃ l ∈ ls, l.Included exclusions ∧ l.name = n := by
  induction ls with
  | nil => simp [includedNames]
  | cons l rest ih =>
    by_cases hinc : l.Included exclusions
    · simp only [includedNames, hinc, if_true, List.mem_cons, ih]
      constructor
      · rintro (h | ⟨l2, hl2, h2⟩)
        · exact ⟨l, Or.inl rfl, hinc, h.symm⟩
        · exact ⟨l2, Or.inr hl2, h2⟩
      · rintro ⟨l2, hl2 | hl2, h2⟩
        · subst hl2
          exact Or.inl h2.2.symm
        · exact Or.inr ⟨l2, hl2, h2⟩
    · simp only [includedNames, hinc, if_false, List.mem_cons, ih]
      constructor
      · rintro ⟨l2, hl2, h2⟩
        exact ⟨l2, Or.inr hl2, h2⟩
      · rintro ⟨l2, hl2 | hl2, h2⟩
        · subst hl2
          exact absurd h2.1 hinc
        · exact ⟨l2, hl2, h2⟩

/-- The allow-list of `supportedColumnType`: the kinds of `supportedSQLKinds` and the slices of
bytes. -/
theorem supportedColumnType_iff (t : GoType) :
    supportedColumnType t = true
      ↔ t.Kind ∈ [Kind.Bool, .Int, .Int8, .Int16, .Int32, .Int64, .Uint, .Uint8, .Uint16,
            .Uint32, .Uint64, .Float32, .Float64, .String, .Interface]
          ∨ ∃ e, t = .slice e ∧ e.Kind = .Uint8 := by
  cases t with
  | basic k => cases k <;> simp [supportedColumnType, supportedSQLKinds, GoType.Kind]
  | ptr e => simp [supportedColumnType, supportedSQLKinds, GoType.Kind]
  | slice e => simp [supportedColumnType, supportedSQLKinds, GoType.Kind]
  | struct id => simp [supportedColumnType, supportedSQLKinds, GoType.Kind]

/-- The method `addValue` on a type that is not on the allow-list returns no error, leaves the
scanner as it is and does not call the valuer. -/
theorem addValue_of_unsupported (scanner : structSQLScanner) (field : StructField)
    (t : GoType) (valuer : Res AnyVal) (h : supportedColumnType t = false) :
    scanner.addValue field t valuer = .ret (scanner, none) := by
  unfold structSQLScanner.addValue
  simp [h]

/-- A leaf is included under an exclusion list when its type is on the allow-list and its
identifier is not empty and not in the list. -/
theorem included_iff (exclusions : List String) (l : Leaf) :
    l.Included (toMap exclusions)
      ↔ supportedColumnType l.typ = true ∧ l.name ≠ "" ∧ l.name ∉ exclusions := by
  have hex := toMap_excluded_iff exclusions (SQLName l.field)
  unfold Leaf.Included Leaf.name
  constructor
  · rintro ⟨h1, h2, h3⟩
    refine ⟨h1, h2, ?_⟩
    intro hmem
    rw [hex.mpr hmem] at h3
    simp at h3
  · rintro ⟨h1, h2, h3⟩
    refine ⟨h1, h2, ?_⟩
    cases hval : (GoMap.find (toMap exclusions) (SQLName l.field)).getD false with
    | false => rfl
    | true => exact absurd (hex.mp hval) h3

/-- The keys of a successful `SQLValues` are the identifiers of the included leaves. -/
theorem SQLValues_keys (env : TypeEnv) (fuel : Nat) (a : AnyVal) (exclusions : List String)
    (v : Value) (m : GoMap String AnyVal) (hroot : structValue a = .ret (v, none))
    (h : SQLValues env fuel a exclusions = .ret (some m, none)) (k : String) :
    GoMap.find m k ≠ none
      ↔ ∃ l ∈ (valueLeaves env fuel v).1, l.name = k ∧ l.Included (toMap exclusions) := by
  obtain ⟨_, hm, _, hall⟩ := SQLValues_ok env fuel a exclusions v m hroot h
  constructor
  · intro hk
    have h1 : k ∈ m.map Prod.fst := by
      by_contra hc
      exact hk ((GoMap.find_eq_none_iff m k).mpr hc)
    rw [hm] at h1
    have h2 := (leafPairs_keys_sublist (toMap exclusions) (valueLeaves env fuel v).1).subset h1
    obtain ⟨l, hl, hinc, hn⟩ := (mem_includedNames_iff _ _ _).mp h2
    exact ⟨l, hl, hn, hinc⟩
  · rintro ⟨l, hl, hn, hinc⟩
    obtain ⟨x, _, hx⟩ := hall l hl hinc
    rw [← hn, hx]
    simp

/-- Claim C19, for a call of `SQLValues` that succeeds. A leaf is an exported terminal field
that the walk reaches, with its type behind the pointers. A leaf with a non-empty identifier
that is not excluded and whose type is on the allow-list has its entry in the result, its
identifier with the value read from it; the identifier of such a leaf whose type is not on the
allow-list is a key only if another leaf of an allowed type carries the same identifier; the
keys of the result are exactly the identifiers of the former leaves. The allow-list is the
kinds bool, int to int64, uint to uint64, float32, float64, string, interface, and the slices
of bytes. A field of another type makes `addValue` return no error and leaves the mapping as
it is. -/
theorem SQLValues_allow_list (env : TypeEnv) (fuel : Nat) (a : AnyVal)
    (exclusions : List String) (v : Value) (m : GoMap String AnyVal)
    (hroot : structValue a = .ret (v, none))
    (h : SQLValues env fuel a exclusions = .ret (some m, none)) :
    (∀ l ∈ (valueLeaves env fuel v).1, l.name ≠ "" → l.name ∉ exclusions →
        supportedColumnType l.typ = true →
          ∃ x, l.value = .ret x ∧ GoMap.find m l.name = some x)
      ∧ (∀ l ∈ (valueLeaves env fuel v).1, supportedColumnType l.typ = false →
          (GoMap.find m l.name ≠ none
            ↔ l.name ≠ "" ∧ l.name ∉ exclusions
              ∧ ∃ l2 ∈ (valueLeaves env fuel v).1,
                  l2.name = l.name ∧ supportedColumnType l2.typ = true))
      ∧ (∀ k, GoMap.find m k ≠ none
          ↔ ∃ l ∈ (valueLeaves env fuel v).1,
              l.name = k ∧ k ≠ "" ∧ k ∉ exclusions ∧ supportedColumnType l.typ = true)
      ∧ (∀ t, supportedColumnType t = true
          ↔ t.Kind ∈ [Kind.Bool, .Int, .Int8, .Int16, .Int32, .Int64, .Uint, .Uint8, .Uint16,
                .Uint32, .Uint64, .Float32, .Float64, .String, .Interface]
              ∨ ∃ e, t = .slice e ∧ e.Kind = .Uint8)
      ∧ (∀ (scanner : structSQLScanner) (field : StructField) (t : GoType)
          (valuer : Res AnyVal), supportedColumnType t = false →
            scanner.addValue field t valuer = .ret (scanner, none)) := by
  have hkeys : ∀ k, GoMap.find m k ≠ none
      ↔ ∃ l ∈ (valueLeaves env fuel v).1,
          l.name = k ∧ k ≠ "" ∧ k ∉ exclusions ∧ supportedColumnType l.typ = true := by
    intro k
    rw [SQLValues_keys env fuel a exclusions v m hroot h k]
    constructor
    · rintro ⟨l, hl, hn, hinc⟩
      obtain ⟨h1, h2, h3⟩ := (included_iff exclusions l).mp hinc
      exact ⟨l, hl, hn, hn ▸ h2, hn ▸ h3, h1⟩
    · rintro ⟨l, hl, hn, h2, h3, h1⟩
      exact ⟨l, hl, hn, (included_iff exclusions l).mpr ⟨h1, hn ▸ h2, hn ▸ h3⟩⟩
  refine ⟨?_, ?_, hkeys, supportedColumnType_iff, addValue_of_unsupported⟩
  · intro l hl hne hex hsup
    exact (SQLValues_ok env fuel a exclusions v m hroot h).2.2.2 l hl
      ((included_iff exclusions l).mpr ⟨hsup, hne, hex⟩)
  · intro l _ _
    rw [hkeys l.name]
    constructor
    · rintro ⟨l2, hl2, hn, h2, h3, h1⟩
      exact ⟨h2, h3, l2, hl2, hn, h1⟩
    · rintro ⟨h2, h3, l2, hl2, hn, h1⟩
      exact ⟨l2, hl2, hn, h2, h3, h1⟩

/-- Claim C19 as stated fails on `Mixed{B: "b"}` for
`struct { A chan int "sql:\"x\""; B string "sql:\"x\"" }`: field `A` is exported, annotated,
not excluded and terminal, its type is a channel, and its identifier `x` is a key of the
result, through field `B`. It fails on `Blank{S: "b"}` for `struct { S string "sql:\"\"" }`
too: field `S` is exported, annotated and a string, and the result is empty. -/
theorem SQLValues_allow_list_counterexample :
    SQLValues kindsEnv 2 (some (.struct 0, .struct [.nil, .str "b"])) []
        = .ret (some [("x", some (.basic .String, .str "b"))], none)
      ∧ (kindsEnv 0)[0]?.map
          (fun f => (f.IsExported, sqlTag f, supportedColumnType (derefType f.Typ)))
        = some (true, some "x", false)
      ∧ GoMap.find [("x", (some (GoType.basic .String, Data.str "b") : AnyVal))] "x" ≠ none
      ∧ SQLValues kindsEnv 2 (some (.struct 1, .struct [.str "b"])) [] = .ret (some [], none)
      ∧ (kindsEnv 1)[0]?.map
          (fun f => (f.IsExported, sqlTag f, supportedColumnType (derefType f.Typ)))
        = some (true, some "", true) :=
  ⟨rfl, by decide, by simp [GoMap.find], rfl, by decide⟩

/-- Claim C19 on a value of `Wide`, a record with one annotated field of each of twelve types:
the keys of the result are the identifiers of the fields of type `bool`, `*int64`, `float64`,
`[]byte` and `any`. -/
theorem SQLValues_allow_list_witness :
    SQLValues kindsEnv 2 (some (.struct 2, wideValue)) []
        = .ret (some [("flag", some (.basic .Bool, .bool true)),
            ("count", some (.basic .Int64, .int 7)),
            ("rate", some (.basic .Float64, .float 0)),
            ("raw", some (.slice (.basic .Uint8), .slice [.int 1])),
            ("any", some (.basic .String, .str "v"))], none)
      ∧ ∀ k, GoMap.find [("flag", (some (GoType.basic .Bool, Data.bool true) : AnyVal)),
            ("count", some (.basic .Int64, .int 7)),
            ("rate", some (.basic .Float64, .float 0)),
            ("raw", some (.slice (.basic .Uint8), .slice [.int 1])),
            ("any", some (.basic .String, .str "v"))] k ≠ none
          ↔ ∃ l ∈ (valueLeaves kindsEnv 2 (Value.mk (.struct 2) wideValue)).1,
              l.name = k ∧ k ≠ "" ∧ k ∉ ([] : List String)
                ∧ supportedColumnType l.typ = true :=
  ⟨rfl, (SQLValues_allow_list kindsEnv 2 (some (.struct 2, wideValue)) []
    (Value.mk (.struct 2) wideValue) _ rfl rfl).2.2.1⟩

/-! ### The zero value of a flat record -/

/-- The traversal of an exported field, neither pointer nor struct, of a zero-valued record is
the field itself with the zero value of its type. -/
theorem valueLeaves_field_zero (env : TypeEnv) (recurV : Value → Trace)
    (recurT : GoType → Trace) (T : Nat) (ds : List Data) (f : StructField) (i n : Nat)
    (hf : (env T)[i]? = some f) (hds : ds[i]? = some (zeroData env n f.Typ))
    (hp : f.Typ.Kind ≠ .Ptr) (hs : f.Typ.Kind ≠ .Struct) :
    valueLeaves.field env recurV recurT (.mk (.struct T) (.struct ds)) f i
      = ([zeroLeaf env f], .done) := by
  have hfield : Value.Field env (.mk (.struct T) (.struct ds)) i
      = .ret (.mk f.Typ (zeroData env n f.Typ)) := by
    simp only [Value.Field, hf, hds]
  unfold valueLeaves.field zeroLeaf
  rw [hfield]
  simp only [Value.Type]
  cases hty : f.Typ with
  | basic k =>
    rw [hty] at hs
    have hs1 : ¬ k = Kind.Struct := hs
    simp only [derefValue, GoType.Kind, hs1, if_false, interface_zero_basic]
  | ptr e => rw [hty] at hp; exact absurd rfl hp
  | slice e =>
    have hz : zeroData env n (.slice e) = .nil := by cases n <;> rfl
    simp only [derefValue, GoType.Kind, hz]
    rfl
  | struct id => rw [hty] at hs; exact absurd rfl hs

/-- The traversal of a zero-valued record, from field `i0` on, when the exported fields are
neither pointers nor structs: the exported fields themselves, each with the zero value of its
type. -/
theorem valueLeaves_loop_zero (env : TypeEnv) (recurV : Value → Trace)
    (recurT : GoType → Trace) (T n : Nat) (fields : List StructField) (i0 : Nat)
    (hfields : ∀ (k : Nat) (f : StructField), fields[k]? = some f → (env T)[i0 + k]? = some f)
    (hflat : ∀ f ∈ fields, f.IsExported = true → f.Typ.Kind ≠ .Ptr ∧ f.Typ.Kind ≠ .Struct) :
    valueLeaves.loop env recurV recurT
        (.mk (.struct T) (.struct ((env T).map (fun f => zeroData env n f.Typ)))) fields i0
      = (((fields.filter (fun f => f.IsExported)).map (zeroLeaf env)), .done) := by
  induction fields generalizing i0 with
  | nil => rfl
  | cons f rest ih =>
    have hrest := ih (i0 + 1)
      (fun k g hk => by
        have := hfields (k + 1) g (by simpa using hk)
        rw [show i0 + 1 + k = i0 + (k + 1) by omega]
        exact this)
      (fun g hg => hflat g (List.mem_cons_of_mem _ hg))
    by_cases hexp : f.IsExported = false
    · simp only [valueLeaves.loop, hexp, if_true, hrest, List.filter_cons]
      simp
    · have hexp1 : f.IsExported = true := by simpa using hexp
      obtain ⟨hp, hs⟩ := hflat f (List.mem_cons_self _ _) hexp1
      have hf : (env T)[i0]? = some f := by
        have := hfields 0 f (by simp)
        simpa using this
      have hds : ((env T).map (fun f => zeroData env n f.Typ))[i0]?
          = some (zeroData env n f.Typ) := by
        rw [List.getElem?_map, hf]
        rfl
      simp only [valueLeaves.loop, hexp1, Bool.true_eq_false, if_false, hrest,
        valueLeaves_field_zero env recurV recurT T _ f i0 n hf hds hp hs, Trace.andThen,
        List.filter_cons, if_true, List.map_cons, List.singleton_append]

/-- Without exclusions a leaf is included when its type is on the allow-list and its
identifier is not empty. -/
theorem included_nil_iff (l : Leaf) :
    l.Included (toMap []) ↔ supportedColumnType l.typ = true ∧ SQLName l.field ≠ "" := by
  unfold Leaf.Included
  constructor
  · rintro ⟨h1, h2, _⟩
    exact ⟨h1, h2⟩
  · rintro ⟨h1, h2⟩
    exact ⟨h1, h2, rfl⟩

/-- The entries and the identifiers that the leaves of a zero-valued record contribute, when
the fields that carry a tag are exported, with a tag that is not empty and a type on the
allow-list. -/
theorem leafPairs_zero (env : TypeEnv) (fields : List StructField)
    (htag : ∀ f ∈ fields, sqlTag f ≠ none →
      f.IsExported = true ∧ SQLName f ≠ "" ∧ supportedColumnType f.Typ = true) :
    leafPairs (toMap []) ((fields.filter (fun f => f.IsExported)).map (zeroLeaf env))
        = fields.filterMap (fun f => (sqlTag f).map (fun tag => (tag, zeroAny env f.Typ)))
      ∧ includedNames (toMap []) ((fields.filter (fun f => f.IsExported)).map (zeroLeaf env))
        = fields.filterMap sqlTag := by
  induction fields with
  | nil => exact ⟨rfl, rfl⟩
  | cons f rest ih =>
    obtain ⟨ih1, ih2⟩ := ih (fun g hg => htag g (List.mem_cons_of_mem _ hg))
    cases htg : sqlTag f with
    | none =>
      have hname : SQLName f = "" := by
        unfold SQLName
        unfold sqlTag at htg
        rw [htg]
      have hninc : ¬ (zeroLeaf env f).Included (toMap []) := by
        rw [included_nil_iff]
        rintro ⟨_, h2⟩
        exact h2 hname
      by_cases hexp : f.IsExported = true
      · simp only [List.filter_cons, hexp, if_true, List.map_cons, leafPairs, includedNames,
          hninc, if_false, ih1, ih2, List.filterMap_cons, htg, Option.map_none']
        exact ⟨trivial, trivial⟩
      · have hexp0 : f.IsExported = false := by simpa using hexp
        simp only [List.filter_cons, hexp0, Bool.false_eq_true, if_false, ih1, ih2,
          List.filterMap_cons, htg, Option.map_none']
        exact ⟨trivial, trivial⟩
    | some tag =>
      obtain ⟨hexp, hne, hsup⟩ := htag f (List.mem_cons_self _ _) (by rw [htg]; simp)
      have hname : SQLName f = tag := by
        unfold SQLName
        unfold sqlTag at htg
        rw [htg]
      have hinc : (zeroLeaf env f).Included (toMap []) := by
        rw [included_nil_iff]
        exact ⟨hsup, hne⟩
      have hlname : (zeroLeaf env f).name = tag := hname
      have hval : (zeroLeaf env f).value = .ret (zeroAny env f.Typ) := rfl
      simp only [List.filter_cons, hexp, if_true, List.map_cons, leafPairs, includedNames,
        hinc, hval, hlname, ih1, ih2, List.filterMap_cons, htg, Option.map_some']
      exact ⟨trivial, trivial⟩
/-- The keys of `zeroColumns` are the sql tags of the fields, in declaration order. -/
theorem zeroColumns_keys (env : TypeEnv) (T : Nat) :
    (zeroColumns env T).map Prod.fst = (env T).filterMap sqlTag := by
  unfold zeroColumns
  induction env T with
  | nil => rfl
  | cons f rest ih =>
    cases htg : sqlTag f with
    | none => simp only [List.filterMap_cons, htg, Option.map_none', ih]
    | some tag => simp only [List.filterMap_cons, htg, Option.map_some', List.map_cons, ih]

/-- Claim C15, for flat record types. For every record type `T` whose exported fields are
neither pointers nor structs, whose fields that carry an sql tag are exported, with a tag that
is not empty and a type on the allow-list, and in which no two fields share a tag, `SQLValues`
on the zero value of `T` returns, with any budget of at least one level and without error, the
mapping from each sql tag of `T` to the zero value of its field; its keys are the keys of the
index `buildFieldsIndex(T)`, which are the tags the fields of `T` carry. -/
theorem SQLValues_zero_flat (env : TypeEnv) (T : Nat) (hflat : FlatRecord env T)
    (fuel : Nat) :
    SQLValues env (fuel + 1) (some (.struct T, zeroData env 1 (.struct T))) []
        = .ret (some (zeroColumns env T), none)
      ∧ buildFieldsIndex env T = (some (taggedFields (env T) 0), none)
      ∧ (zeroColumns env T).map Prod.fst = (taggedFields (env T) 0).map Prod.fst
      ∧ (∀ k, GoMap.find (zeroColumns env T) k ≠ none ↔ ∃ i, tagAt env T i = some k)
      ∧ (∀ (i : Nat) (f : StructField) (tag : String), (env T)[i]? = some f →
          sqlTag f = some tag →
          GoMap.find (zeroColumns env T) tag = some (zeroAny env f.Typ)) := by
  obtain ⟨hkinds, htags, huniq⟩ := hflat
  have hnd : ((env T).filterMap sqlTag).Nodup := (uniqueTags_iff_nodup env T).mp huniq
  have hkeys := zeroColumns_keys env T
  refine ⟨?_, buildFieldsIndex_of_nodup env T hnd, ?_, ?_, ?_⟩
  · have hroot : structValue (some (.struct T, zeroData env 1 (.struct T)))
        = .ret (.mk (.struct T) (zeroData env 1 (.struct T)), none) := by
      have := structValue_pointerTo_struct 0 T (zeroData env 1 (.struct T))
      simpa only [pointerTo] using this
    rw [SQLValues_eq_feed env (fuel + 1) _ [] _ hroot]
    have hleaves : valueLeaves env (fuel + 1) (.mk (.struct T) (zeroData env 1 (.struct T)))
        = (((env T).filter (fun f => f.IsExported)).map (zeroLeaf env), .done) :=
      valueLeaves_loop_zero env (valueLeaves env fuel) (typeLeaves env fuel) T 0 (env T) 0
        (fun k f hk => by simpa using hk) hkinds
    rw [hleaves]
    obtain ⟨hpairs, hnames⟩ := leafPairs_zero env (env T) htags
    have hfeed := feed_succeeds (((env T).filter (fun f => f.IsExported)).map (zeroLeaf env))
      (structSQLScanner.mk (.mk (.struct T) (zeroData env 1 (.struct T))) (toMap []) [])
      (fun l hl _ => by
        obtain ⟨f, _, hf⟩ := List.mem_map.mp hl
        exact ⟨zeroAny env f.Typ, by rw [← hf]; rfl⟩)
      (by rw [hnames]; exact hnd)
      (fun n _ => rfl)
    simp only [] at hfeed
    rw [hfeed, hpairs]
    rfl
  · rw [hkeys, taggedFields_keys]
  · intro k
    have h1 : GoMap.find (zeroColumns env T) k ≠ none ↔ k ∈ (env T).filterMap sqlTag := by
      rw [← hkeys]
      constructor
      · intro h
        by_contra hc
        exact h ((GoMap.find_eq_none_iff _ k).mpr hc)
      · intro h hc
        exact (GoMap.find_eq_none_iff _ k).mp hc h
    rw [h1, mem_filterMap_iff_index]
    rfl
  · intro i f tag hf htg
    apply GoMap.find_of_mem _ (by rw [hkeys]; exact hnd)
    unfold zeroColumns
    exact List.mem_filterMap.mpr ⟨f, List.getElem?_mem hf, by rw [htg]; rfl⟩
/-- Claim C15 as stated fails on the zero values of four record types. On `testScanStruct{}`
of scan_test.go, whose field `Nullable *string` is nil, `SQLValues` panics. On
`testNestedStruct{}` of struct_test.go the keys are the five identifiers of the flattened
record, where the field index of the type binds two. On `Blank{}` for
`struct { S string "sql:\"\"" }` the mapping is empty, where the field index binds the empty
tag. On `testScanStructDuplicateField{}` `SQLValues` returns the duplicate error. -/
theorem SQLValues_zero_flat_counterexample :
    (zeroData testEnv 1 (.struct 0) = testScanStructZero
        ∧ SQLValues testEnv 2 (some (.struct 0, testScanStructZero)) []
          = .panic "reflect: call of reflect.Value.Interface on zero Value")
      ∧ (zeroData structTestEnv 2 (.struct 1) = testNestedStructZero
        ∧ SQLValues structTestEnv 3 (some (.struct 1, testNestedStructZero)) []
          = .ret (some [("mainBool", some (.basic .Bool, .bool false)),
              ("mainString", some (.basic .String, .str "")),
              ("bool", some (.basic .Bool, .bool false)),
              ("data", some (.slice (.basic .Uint8), .nil)),
              ("string", some (.basic .String, .str ""))], none)
        ∧ buildFieldsIndex structTestEnv 1
          = (some [("mainBool", 0), ("mainString", 2)], none))
      ∧ (SQLValues kindsEnv 2 (some (.struct 1, zeroData kindsEnv 1 (.struct 1))) []
          = .ret (some [], none)
        ∧ buildFieldsIndex kindsEnv 1 = (some [("", 0)], none))
      ∧ SQLValues testEnv 2 (some (.struct 3, zeroData testEnv 1 (.struct 3))) []
          = .ret (some [("bool", some (.basic .Bool, .bool false))],
              some (newError "s2x: duplicate SQL column %q in struct %v"
                [.str "bool",
                  .value (Value.mk (.struct 3) (zeroData testEnv 1 (.struct 3)))])) :=
  ⟨⟨rfl, rfl⟩, ⟨rfl, rfl, rfl⟩, ⟨rfl, rfl⟩, rfl⟩

/-- Claim C15 on `testStruct{}` of struct_test.go, a flat record type: the mapping is
`{"bool": false, "data": []byte(nil), "string": ""}`. -/
theorem SQLValues_zero_flat_witness :
    FlatRecord structTestEnv 0
      ∧ SQLValues structTestEnv 1 (some (.struct 0, zeroData structTestEnv 1 (.struct 0))) []
        = .ret (some [("bool", some (.basic .Bool, .bool false)),
            ("data", some (.slice (.basic .Uint8), .nil)),
            ("string", some (.basic .String, .str ""))], none) :=
  ⟨⟨by decide, by decide, (uniqueTags_iff_nodup structTestEnv 0).mpr (by decide)⟩,
    (SQLValues_zero_flat structTestEnv 0
      ⟨by decide, by decide, (uniqueTags_iff_nodup structTestEnv 0).mpr (by decide)⟩ 0).1⟩

/-! ### The calls of `rows.Columns()` over the calls of `Scan` -/

/-- The method `doInit` leaves the row source as it is. -/
theorem doInit_rows (scanner : Scanner) (columns : List String)
    (columnsByName : Option (GoMap String columnMetadata)) :
    (Scanner.doInit scanner columns columnsByName).1.rows = scanner.rows := by
  unfold Scanner.doInit
  rfl

/-- The method `init` calls `rows.Columns()` once and makes no other call of the row source. -/
theorem init_rows (env : TypeEnv) (ρ : RangeOrder) (scanner : Scanner)
    (values : List StructValue) (cache : TagsCache) :
    (Scanner.init env ρ scanner values cache).1.rows = scanner.rows.Columns.2 := by
  unfold Scanner.init
  rcases hc : scanner.rows.columnsResult with ⟨cols, _ | err⟩
  · have h1 : scanner.rows.Columns = ((cols, none), scanner.rows.Columns.2) := by
      unfold Rows.Columns
      rw [hc]
    rw [h1]
    simp only []
    rcases hm : computeMetadata env ρ cols values cache with ⟨⟨byName, _ | e⟩, cache1⟩
    · simp only []
      exact doInit_rows _ _ _
    · rfl
  · have h1 : scanner.rows.Columns = ((cols, some err), scanner.rows.Columns.2) := by
      unfold Rows.Columns
      rw [hc]
    rw [h1]

/-- The count of the calls of `Columns` after one more call of `Columns`. -/
theorem columnsCalls_Columns (rows : Rows) :
    columnsCalls rows.Columns.2.calls = columnsCalls rows.calls + 1 := by
  simp [columnsCalls, Rows.Columns]

/-- The count of the calls of `Columns` after a call of `Scan`. -/
theorem columnsCalls_Scan (rows : Rows) (dest : List FieldAddr) :
    columnsCalls (rows.Scan dest).2.calls = columnsCalls rows.calls := by
  simp [columnsCalls, Rows.Scan]

/-- The calls of `rows.Columns()` by `doScan` when it returns: none, with `scanner.columns`
left as it is, when `scanner.columns` is set, and one when it is nil. -/
theorem doScan_columnsCalls (env : TypeEnv) (ρ : RangeOrder) (scanner scanner1 : Scanner)
    (values out : List StructValue) (cache cache1 : TagsCache) (err : Option Error)
    (h : Scanner.doScan env ρ scanner values cache = .ret (err, scanner1, cache1, out)) :
    (scanner.columns ≠ none →
        scanner1.columns = scanner.columns
          ∧ columnsCalls scanner1.rows.calls = columnsCalls scanner.rows.calls)
      ∧ (scanner.columns = none →
        columnsCalls scanner1.rows.calls = columnsCalls scanner.rows.calls + 1) := by
  unfold Scanner.doScan at h
  cases hcs : scanner.columns with
  | some cs =>
    refine ⟨fun _ => ?_, fun hc => by simp at hc⟩
    rw [hcs] at h
    simp only [] at h
    rcases hd : Scanner.newDest env scanner values with dest | msg | _
    · rw [hd] at h
      simp only [Res.ret.injEq, Prod.mk.injEq] at h
      obtain ⟨_, hs, _, _⟩ := h
      rw [← hs]
      exact ⟨hcs, columnsCalls_Scan scanner.rows dest⟩
    · rw [hd] at h; simp at h
    · rw [hd] at h; simp at h
  | none =>
    refine ⟨fun hc => absurd rfl hc, fun _ => ?_⟩
    rw [hcs] at h
    simp only [] at h
    have hrows := init_rows env ρ scanner values cache
    rcases hi : Scanner.init env ρ scanner values cache with ⟨s1, c1, _ | e⟩
    · rw [hi] at h hrows
      simp only [] at h hrows
      rcases hd : Scanner.newDest env s1 values with dest | msg | _
      · rw [hd] at h
        simp only [Res.ret.injEq, Prod.mk.injEq] at h
        obtain ⟨_, hs, _, _⟩ := h
        rw [← hs]
        simp only []
        rw [columnsCalls_Scan, hrows, columnsCalls_Columns]
      · rw [hd] at h; simp at h
      · rw [hd] at h; simp at h
    · rw [hi] at h hrows
      simp only [Res.ret.injEq, Prod.mk.injEq] at h hrows
      obtain ⟨_, hs, _, _⟩ := h
      rw [← hs, hrows, columnsCalls_Columns]

/-- The calls of `rows.Columns()` by `Scan` when it returns: at most one, and none, with
`scanner.columns` left as it is, when `scanner.columns` is set. -/
theorem Scan_columnsCalls (env : TypeEnv) (ρ : RangeOrder) (scanner scanner1 : Scanner)
    (structs : List AnyVal) (out : List StructValue) (cache cache1 : TagsCache)
    (err : Option Error)
    (h : Scanner.Scan env ρ scanner structs cache = .ret (err, scanner1, cache1, out)) :
    columnsCalls scanner.rows.calls ≤ columnsCalls scanner1.rows.calls
      ∧ columnsCalls scanner1.rows.calls ≤ columnsCalls scanner.rows.calls + 1
      ∧ (scanner.columns ≠ none →
        scanner1.columns = scanner.columns
          ∧ columnsCalls scanner1.rows.calls = columnsCalls scanner.rows.calls) := by
  unfold Scanner.Scan at h
  rcases ht : toValues structs with ⟨values, _ | e⟩ | msg | _
  · rw [ht] at h
    simp only [] at h
    obtain ⟨h1, h2⟩ := doScan_columnsCalls env ρ scanner scanner1 _ out cache cache1 err h
    by_cases hc : scanner.columns = none
    · have := h2 hc
      exact ⟨by omega, by omega, fun hne => absurd hc hne⟩
    · have := h1 hc
      exact ⟨by omega, by omega, fun _ => this⟩
  · rw [ht] at h
    simp only [Res.ret.injEq, Prod.mk.injEq] at h
    obtain ⟨_, hs, _, _⟩ := h
    rw [← hs]
    exact ⟨le_refl _, Nat.le_succ _, fun _ => ⟨rfl, rfl⟩⟩
  · rw [ht] at h; simp at h
  · rw [ht] at h; simp at h

/-- Over a run of calls of `Scan` that starts with `scanner.columns` set, `rows.Columns()` is
not called and `scanner.columns` stays as it is. -/
theorem scans_columnsCalls_of_columns (env : TypeEnv) (ρ : RangeOrder)
    (calls : List (List AnyVal)) (scanner scanner1 : Scanner) (cache cache1 : TagsCache)
    (hc : scanner.columns ≠ none)
    (h : Scanner.scans env ρ calls scanner cache = .ret (scanner1, cache1)) :
    scanner1.columns = scanner.columns
      ∧ columnsCalls scanner1.rows.calls = columnsCalls scanner.rows.calls := by
  induction calls generalizing scanner cache with
  | nil =>
    simp only [Scanner.scans, Res.ret.injEq, Prod.mk.injEq] at h
    rw [← h.1]
    exact ⟨rfl, rfl⟩
  | cons structs rest ih =>
    simp only [Scanner.scans] at h
    rcases hs : Scanner.Scan env ρ scanner structs cache with ⟨e, s1, c1, out⟩ | msg | _
    · rw [hs] at h
      simp only [] at h
      obtain ⟨_, _, h3⟩ := Scan_columnsCalls env ρ scanner s1 structs out cache c1 e hs
      obtain ⟨hcol, hcnt⟩ := h3 hc
      obtain ⟨h4, h5⟩ := ih s1 c1 (by rw [hcol]; exact hc) h
      exact ⟨by rw [h4, hcol], by rw [h5, hcnt]⟩
    · rw [hs] at h; simp at h
    · rw [hs] at h; simp at h

/-- Over a run of calls of `Scan`, `rows.Columns()` is called at most once for each call. -/
theorem scans_columnsCalls_le (env : TypeEnv) (ρ : RangeOrder)
    (calls : List (List AnyVal)) (scanner scanner1 : Scanner) (cache cache1 : TagsCache)
    (h : Scanner.scans env ρ calls scanner cache = .ret (scanner1, cache1)) :
    columnsCalls scanner1.rows.calls ≤ columnsCalls scanner.rows.calls + calls.length := by
  induction calls generalizing scanner cache with
  | nil =>
    simp only [Scanner.scans, Res.ret.injEq, Prod.mk.injEq] at h
    rw [← h.1]
    exact Nat.le_add_right _ _
  | cons structs rest ih =>
    simp only [Scanner.scans] at h
    rcases hs : Scanner.Scan env ρ scanner structs cache with ⟨e, s1, c1, out⟩ | msg | _
    · rw [hs] at h
      simp only [] at h
      obtain ⟨_, h2, _⟩ := Scan_columnsCalls env ρ scanner s1 structs out cache c1 e hs
      have := ih s1 c1 h
      simp only [List.length_cons]
      omega
    · rw [hs] at h; simp at h
    · rw [hs] at h; simp at h

/-- Claim C18, as the code has it. A call of `Scan` that returns calls `rows.Columns()` at
most once, and not at all, leaving `scanner.columns` as it is, when it finds
`scanner.columns` set. Once a call leaves `scanner.columns` set, no later call on the same
scanner calls `rows.Columns()`; if that call found `scanner.columns` nil, the count after
the later calls is one more than the count before that call, whatever that count was. Over
the call and the later calls the count grows by at most the number of calls. A call that finds
`scanner.columns` nil and whose arguments `toValues` accepts calls `rows.Columns()` exactly
once, whether it then succeeds or fails; a call whose arguments `toValues` refuses leaves the
scanner, and so the count, as it is. -/
theorem Columns_called_while_unset (env : TypeEnv) (ρ : RangeOrder) (scanner : Scanner)
    (structs : List AnyVal) (rest : List (List AnyVal)) (cache : TagsCache)
    (err : Option Error) (s1 : Scanner) (c1 : TagsCache) (out : List StructValue)
    (s2 : Scanner) (c2 : TagsCache)
    (h1 : Scanner.Scan env ρ scanner structs cache = .ret (err, s1, c1, out))
    (h2 : Scanner.scans env ρ rest s1 c1 = .ret (s2, c2)) :
    columnsCalls s1.rows.calls ≤ columnsCalls scanner.rows.calls + 1
      ∧ (scanner.columns ≠ none →
          s1.columns = scanner.columns
            ∧ columnsCalls s1.rows.calls = columnsCalls scanner.rows.calls)
      ∧ (s1.columns ≠ none → columnsCalls s2.rows.calls = columnsCalls s1.rows.calls)
      ∧ (scanner.columns = none → s1.columns ≠ none →
          columnsCalls s2.rows.calls = columnsCalls scanner.rows.calls + 1)
      ∧ columnsCalls s2.rows.calls ≤ columnsCalls scanner.rows.calls + (rest.length + 1)
      ∧ (scanner.columns = none → (∃ values, toValues structs = .ret (values, none)) →
          columnsCalls s1.rows.calls = columnsCalls scanner.rows.calls + 1)
      ∧ ((∃ x e, toValues structs = .ret (x, some e)) → s1 = scanner) := by
  obtain ⟨ha, hb, hc⟩ := Scan_columnsCalls env ρ scanner s1 structs out cache c1 err h1
  have hrun := scans_columnsCalls_le env ρ rest s1 s2 c1 c2 h2
  refine ⟨hb, hc, ?_, ?_, by omega, ?_, ?_⟩
  · intro hset
    exact (scans_columnsCalls_of_columns env ρ rest s1 s2 c1 c2 hset h2).2
  · intro hnil hset
    rw [(scans_columnsCalls_of_columns env ρ rest s1 s2 c1 c2 hset h2).2]
    unfold Scanner.Scan at h1
    rcases ht : toValues structs with ⟨values, _ | e⟩ | msg | _
    · rw [ht] at h1
      simp only [] at h1
      exact (doScan_columnsCalls env ρ scanner s1 _ out cache c1 err h1).2 hnil
    · rw [ht] at h1
      simp only [Res.ret.injEq, Prod.mk.injEq] at h1
      obtain ⟨_, hs, _, _⟩ := h1
      rw [← hs] at hset
      exact absurd hnil hset
    · rw [ht] at h1; simp at h1
    · rw [ht] at h1; simp at h1
  · rintro hnil ⟨values, ht⟩
    unfold Scanner.Scan at h1
    rw [ht] at h1
    simp only [] at h1
    exact (doScan_columnsCalls env ρ scanner s1 _ out cache c1 err h1).2 hnil
  · rintro ⟨x, e, ht⟩
    unfold Scanner.Scan at h1
    rw [ht] at h1
    simp only [Res.ret.injEq, Prod.mk.injEq] at h1
    exact h1.2.1.symm

/-- A run in which `rows.Columns()` is called twice before `scanner.columns` is set: with the
query column `bool`, the call `Scan(&a, &b)` on two targets of type
`testScanStructSingleField` fails on the tag that both declare, after calling
`rows.Columns()`, and leaves `scanner.columns` nil; the call `Scan(&a)` that follows calls
`rows.Columns()` again and succeeds. -/
theorem scans_ambiguous_then_ok :
    (∃ err s1 c1 out,
        Scanner.Scan testEnv RangeOrder.insertion
            (NewScanner (positionalRows ["bool"] [.bool true]))
            [pointerToStruct (StructValue.mk 2 [.bool false, .str ""]),
              pointerToStruct (StructValue.mk 2 [.bool false, .str ""])] []
          = .ret (some err, s1, c1, out)
        ∧ err.format = "s2x: duplicate SQL tag %q between structs %v"
        ∧ s1.columns = none ∧ columnsCalls s1.rows.calls = 1)
      ∧ ∃ s2 c2,
        Scanner.scans testEnv RangeOrder.insertion
            [[pointerToStruct (StructValue.mk 2 [.bool false, .str ""]),
                pointerToStruct (StructValue.mk 2 [.bool false, .str ""])],
              [pointerToStruct (StructValue.mk 2 [.bool false, .str ""])]]
            (NewScanner (positionalRows ["bool"] [.bool true])) []
          = .ret (s2, c2)
        ∧ s2.columns = some [columnMetadata.mk 0 0]
        ∧ s2.rows.calls
          = [RowsCall.Columns, RowsCall.Columns,
              RowsCall.Scan [FieldAddr.mk 0 0 (.basic .Bool)]]
        ∧ columnsCalls s2.rows.calls = 2 :=
  ⟨⟨_, _, _, _, rfl, rfl, rfl, rfl⟩, ⟨_, _, rfl, rfl, rfl, rfl⟩⟩

/-- Claim C18 as stated fails for a row source whose `Columns` fails: two calls of
`Scan(&Rec{})` on one scanner both return the error and leave `scanner.columns` nil, and the
row source has received two calls of `Columns`. And after a first call `Scan` with a nil
pointer, which is refused, `Columns` is called by the second call. -/
theorem Columns_called_while_unset_counterexample :
    Scanner.scans scenarioEnv RangeOrder.insertion [[scenarioTarget], [scenarioTarget]]
        (NewScanner failingRows) []
      = .ret (Scanner.mk none
          (Rows.mk failingRows.columnsResult failingRows.scanResult
            [RowsCall.Columns, RowsCall.Columns]), [])
      ∧ columnsCalls [RowsCall.Columns, RowsCall.Columns] = 2
      ∧ Scanner.Scan scenarioEnv RangeOrder.insertion (NewScanner failingRows)
          [scenarioTarget] []
        = .ret (some (Error.mk "test error" []),
            Scanner.mk none
              (Rows.mk failingRows.columnsResult failingRows.scanResult [RowsCall.Columns]),
            [], [StructValue.mk 0 [.bool false, .str ""]])
      ∧ (∃ err,
          Scanner.Scan scenarioEnv RangeOrder.insertion
              (NewScanner (positionalRows ["f", "t"] [.bool true, .str "hi"]))
              [some (.ptr (.struct 0), .nil)] []
            = .ret (some err, NewScanner (positionalRows ["f", "t"] [.bool true, .str "hi"]),
                [], [])) :=
  ⟨rfl, by decide, rfl, ⟨_, rfl⟩⟩

/-- Claim C18 on the scenario: three calls of `Scan(&Rec{})` on a new scanner with the columns
`["f", "t"]` leave one call of `Columns` in the log of the row source. -/
theorem Columns_called_while_unset_witness :
    ∃ s2 c2,
      Scanner.scans scenarioEnv RangeOrder.insertion
          [[scenarioTarget], [scenarioTarget], [scenarioTarget]]
          (NewScanner (positionalRows ["f", "t"] [.bool true, .str "hi"])) []
        = .ret (s2, c2)
      ∧ columnsCalls s2.rows.calls = 1 :=
  ⟨_, _, rfl,
    (Columns_called_while_unset scenarioEnv RangeOrder.insertion
      (NewScanner (positionalRows ["f", "t"] [.bool true, .str "hi"]))
      [scenarioTarget] [[scenarioTarget], [scenarioTarget]] [] _ _ _ _ _ _ rfl rfl).2.2.2.1
      rfl (by simp)⟩

/-! ### The metadata a failed `init` leaves -/

/-- The loop of `doInit` keeps the length of `scanner.columns`. -/
theorem doInit_loop_length (columnsByName : GoMap String columnMetadata)
    (columns : List String) (i : Nat) (uniq : GoMap String Bool) (cols : List columnMetadata) :
    (Scanner.doInit.loop columnsByName columns i uniq cols).1.length = cols.length := by
  induction columns generalizing i uniq cols with
  | nil => rfl
  | cons column rest ih =>
    simp only [Scanner.doInit.loop]
    cases hu : (GoMap.find uniq column).getD false with
    | true => simp only [if_true]
    | false =>
      simp only [Bool.false_eq_true, if_false]
      cases hf : GoMap.find columnsByName column with
      | none => rfl
      | some metadata =>
        simp only []
        rw [ih, List.length_set]

/-- When `rows.Columns()` or `computeMetadata` fails, `init` leaves `scanner.columns` as it
is. -/
theorem init_columns_of_early_failure (env : TypeEnv) (ρ : RangeOrder) (scanner : Scanner)
    (values : List StructValue) (cache : TagsCache) (cols : List String)
    (h : (∃ err, scanner.rows.columnsResult = (cols, some err))
      ∨ (scanner.rows.columnsResult = (cols, none)
        ∧ ∃ x err, (computeMetadata env ρ cols values cache).1 = (x, some err))) :
    (Scanner.init env ρ scanner values cache).1.columns = scanner.columns
      ∧ (Scanner.init env ρ scanner values cache).2.2 ≠ none := by
  rcases h with ⟨err, hc⟩ | ⟨hc, x, err, hm⟩
  · rw [init_of_columns_failure env ρ scanner values cache cols err hc]
    exact ⟨rfl, by simp⟩
  · have h1 : scanner.rows.Columns = ((cols, none), scanner.rows.Columns.2) := by
      unfold Rows.Columns
      rw [hc]
    unfold Scanner.init
    rw [h1]
    simp only []
    rcases hcm : computeMetadata env ρ cols values cache with ⟨⟨byName, _ | e⟩, cache1⟩
    · rw [hcm] at hm
      simp at hm
    · exact ⟨rfl, by simp⟩

/-- When `rows.Columns()` and `computeMetadata` succeed, `init` leaves in `scanner.columns` a
slice with one entry for each query column, whether `doInit` then fails or not. -/
theorem init_columns_of_doInit (env : TypeEnv) (ρ : RangeOrder) (scanner : Scanner)
    (values : List StructValue) (cache cache1 : TagsCache) (cols : List String)
    (byName : Option (GoMap String columnMetadata))
    (hc : scanner.rows.columnsResult = (cols, none))
    (hm : computeMetadata env ρ cols values cache = ((byName, none), cache1)) :
    ∃ cs, (Scanner.init env ρ scanner values cache).1.columns = some cs
      ∧ cs.length = cols.length := by
  have h1 : scanner.rows.Columns = ((cols, none), scanner.rows.Columns.2) := by
    unfold Rows.Columns
    rw [hc]
  unfold Scanner.init
  rw [h1]
  simp only []
  rw [hm]
  simp only [Scanner.doInit, entries, Option.map_some']
  exact ⟨_, rfl, by rw [doInit_loop_length, List.length_replicate]⟩

/-- Claim C20 at the failing input, the record `{Flag bool "f"; Text string "t"}` with the
query columns `["other"]` and the row `(true)`. The first `Scan(&Rec{})` returns the error for
the column without a field and leaves `scanner.columns` with one zero-valued entry, not nil.
The second `Scan(&Rec{})` on the same scanner does not call `rows.Columns()`: it calls
`rows.Scan` with the address of `Flag`, the field the zero-valued entry stands for, and
returns no error, and the row source has written `true` to `Flag`. With the query columns
`["f", "f"]` the first `Scan` leaves two entries. -/
theorem init_failure_leaves_columns :
    Scanner.Scan scenarioEnv RangeOrder.insertion
        (NewScanner (positionalRows ["other"] [.bool true])) [scenarioTarget] []
      = .ret (some (newError "s2x: missing SQL tag for column %q" [.str "other"]),
          Scanner.mk (some [columnMetadata.mk 0 0])
            (Rows.mk (["other"], none) (positionalRows ["other"] [.bool true]).scanResult
              [RowsCall.Columns]),
          [(0, some [("f", 0), ("t", 1)])], [StructValue.mk 0 [.bool false, .str ""]])
      ∧ Scanner.Scan scenarioEnv RangeOrder.insertion
          (Scanner.mk (some [columnMetadata.mk 0 0])
            (Rows.mk (["other"], none) (positionalRows ["other"] [.bool true]).scanResult
              [RowsCall.Columns]))
          [scenarioTarget] [(0, some [("f", 0), ("t", 1)])]
        = .ret (none,
            Scanner.mk (some [columnMetadata.mk 0 0])
              (Rows.mk (["other"], none) (positionalRows ["other"] [.bool true]).scanResult
                [RowsCall.Columns, RowsCall.Scan [FieldAddr.mk 0 0 (.basic .Bool)]]),
            [(0, some [("f", 0), ("t", 1)])], [StructValue.mk 0 [.bool true, .str ""]])
      ∧ (Scanner.init scenarioEnv RangeOrder.insertion
          (NewScanner (positionalRows ["f", "f"] [.bool true, .bool true]))
          [StructValue.mk 0 [.bool false, .str ""]] []).1.columns
        = some [columnMetadata.mk 0 0, columnMetadata.mk 0 0]
      ∧ (Scanner.init scenarioEnv RangeOrder.insertion
          (NewScanner (positionalRows ["f", "f"] [.bool true, .bool true]))
          [StructValue.mk 0 [.bool false, .str ""]] []).2.2
        = some (newError "s2x: duplicate SQL column %q in query" [.str "f"]) :=
  ⟨rfl, rfl, rfl, rfl⟩

/-! ### Struct types without self-reference: the walk returns -/

/-- The method `addValue` uses up no budget when the valuer uses up none. -/
theorem addValue_ne_timeout (scanner : structSQLScanner) (field : StructField) (t : GoType)
    (valuer : Res AnyVal) (h : valuer ≠ .timeout) :
    scanner.addValue field t valuer ≠ .timeout := by
  by_cases hinc : (Leaf.mk field t valuer).Included scanner.exclusions
  · have := addValue_of_included scanner (Leaf.mk field t valuer) hinc
    simp only [] at this
    rw [this]
    cases hfind : GoMap.find scanner.sqlValues (Leaf.mk field t valuer).name with
    | some x => simp
    | none =>
      cases hv : valuer with
      | ret a => simp
      | panic msg => simp
      | timeout => exact absurd hv h
  · have := addValue_of_not_included scanner (Leaf.mk field t valuer) hinc
    simp only [] at this
    rw [this]
    simp

/-- In a ranked environment `scanType` returns, or panics, within the budget of the type. -/
theorem scanType_ne_timeout (env : TypeEnv) (rank : Nat → Nat) (hr : Ranked env rank)
    (fuel : Nat) :
    ∀ (scanner : structSQLScanner) (t : GoType), typeBudget rank t ≤ fuel →
      structSQLScanner.scanType env fuel scanner t ≠ .timeout := by
  induction fuel with
  | zero =>
    intro scanner t h
    cases t <;> simp [typeBudget] at h
  | succ fuel ih =>
    intro scanner t h
    cases t with
    | basic k => simp [structSQLScanner.scanType]
    | ptr e => simp [structSQLScanner.scanType]
    | slice e => simp [structSQLScanner.scanType]
    | struct id =>
      simp only [typeBudget] at h
      simp only [structSQLScanner.scanType]
      have hloop : ∀ (fields : List StructField), (∀ f ∈ fields, f ∈ env id) →
          ∀ scanner : structSQLScanner,
            structSQLScanner.scanType.loop (structSQLScanner.scanType env fuel) fields scanner
              ≠ .timeout := by
        intro fields
        induction fields with
        | nil => intro _ scanner; simp [structSQLScanner.scanType.loop]
        | cons f rest ihf =>
          intro hmem scanner
          have hrest := ihf (fun g hg => hmem g (List.mem_cons_of_mem _ hg))
          by_cases hexp : f.IsExported = false
          · simp only [structSQLScanner.scanType.loop, hexp, if_true]
            exact hrest scanner
          · have hexp1 : f.IsExported = true := by simpa using hexp
            have hfield : structSQLScanner.scanType.field (structSQLScanner.scanType env fuel)
                f scanner ≠ .timeout := by
              unfold structSQLScanner.scanType.field
              by_cases hk : (derefType f.Typ).Kind = .Struct
              · rw [if_pos hk]
                apply ih
                cases hd : derefType f.Typ with
                | struct id2 =>
                  have := hr id f (hmem f (List.mem_cons_self _ _)) hexp1 id2 hd
                  simp only [typeBudget]
                  omega
                | basic k => simp only [typeBudget]; omega
                | ptr e => simp only [typeBudget]; omega
                | slice e => simp only [typeBudget]; omega
              · rw [if_neg hk]
                exact addValue_ne_timeout scanner f _ nilValuer (by simp [nilValuer])
            simp only [structSQLScanner.scanType.loop, hexp1, Bool.true_eq_false, if_false]
            rcases hres : structSQLScanner.scanType.field (structSQLScanner.scanType env fuel)
                f scanner with ⟨s1, _ | e⟩ | msg | _
            · exact hrest s1
            · simp
            · simp
            · exact absurd hres hfield
      exact hloop (env id) (fun f hf => hf) scanner

/-- The method `Value.Interface` uses up no budget. -/
theorem Interface_ne_timeout (v : Value) : v.Interface ≠ .timeout := by
  cases v with
  | invalid => simp [Value.Interface]
  | mk t d =>
    cases t with
    | basic k =>
      by_cases hk : k = .Interface
      · subst hk
        cases d <;> simp [Value.Interface]
      · cases k <;> first | exact absurd rfl hk | simp [Value.Interface]
    | ptr e => simp [Value.Interface]
    | slice e => simp [Value.Interface]
    | struct id => simp [Value.Interface]

/-- The loop that follows the pointers of a field panics or ends with the type behind the
pointers and with a value of that type or the zero Value. -/
theorem derefValue_spec (t : GoType) :
    ∀ v : Value, (v = .invalid ∨ ∃ d, v = .mk t d) →
      (∃ msg, derefValue v t = .panic msg)
        ∨ ∃ fv, derefValue v t = .ret (fv, derefType t)
            ∧ (fv = .invalid ∨ ∃ d, fv = .mk (derefType t) d) := by
  induction t with
  | basic k => intro v hv; exact Or.inr ⟨v, rfl, hv⟩
  | slice e _ => intro v hv; exact Or.inr ⟨v, rfl, hv⟩
  | struct id => intro v hv; exact Or.inr ⟨v, rfl, hv⟩
  | ptr e ih =>
    intro v hv
    rcases hv with rfl | ⟨d, rfl⟩
    · exact Or.inl ⟨_, rfl⟩
    · cases d with
      | ptr target =>
        have h1 : derefValue (.mk (.ptr e) (.ptr target)) (.ptr e)
            = derefValue (.mk e target) e := rfl
        rw [h1]
        exact ih (.mk e target) (Or.inr ⟨target, rfl⟩)
      | nil =>
        have h1 : derefValue (.mk (.ptr e) .nil) (.ptr e) = derefValue .invalid e := rfl
        rw [h1]
        exact ih .invalid (Or.inl rfl)
      | bool b => exact Or.inl ⟨_, rfl⟩
      | int n => exact Or.inl ⟨_, rfl⟩
      | float bits => exact Or.inl ⟨_, rfl⟩
      | str s => exact Or.inl ⟨_, rfl⟩
      | slice elems => exact Or.inl ⟨_, rfl⟩
      | struct fields => exact Or.inl ⟨_, rfl⟩
      | iface dyn x => exact Or.inl ⟨_, rfl⟩
      | other => exact Or.inl ⟨_, rfl⟩

/-- The budget of the struct type behind the pointers of an exported field is below the
budget of the struct type that has the field. -/
theorem typeBudget_field (env : TypeEnv) (rank : Nat → Nat) (hr : Ranked env rank)
    (id : Nat) (f : StructField) (hf : f ∈ env id) (hexp : f.IsExported = true) :
    typeBudget rank (derefType f.Typ) + 1 ≤ typeBudget rank (.struct id) := by
  cases hd : derefType f.Typ with
  | struct id2 =>
    have := hr id f hf hexp id2 hd
    simp only [typeBudget]
    omega
  | basic k => simp only [typeBudget]; omega
  | ptr e => simp only [typeBudget]; omega
  | slice e => simp only [typeBudget]; omega

/-- In a ranked environment `ScanValue` returns, or panics, within the budget of the value. -/
theorem ScanValue_ne_timeout (env : TypeEnv) (rank : Nat → Nat) (hr : Ranked env rank)
    (fuel : Nat) :
    ∀ (scanner : structSQLScanner) (v : Value), valueBudget rank v ≤ fuel →
      structSQLScanner.ScanValue env fuel scanner v ≠ .timeout := by
  induction fuel with
  | zero =>
    intro scanner v h
    cases v with
    | invalid => simp [valueBudget] at h
    | mk t d => cases t <;> simp [valueBudget, typeBudget] at h
  | succ fuel ih =>
    intro scanner v h
    cases v with
    | invalid => simp [structSQLScanner.ScanValue]
    | mk t d =>
      cases t with
      | basic k => simp [structSQLScanner.ScanValue]
      | ptr e => simp [structSQLScanner.ScanValue]
      | slice e => simp [structSQLScanner.ScanValue]
      | struct id =>
        simp only [valueBudget] at h
        simp only [structSQLScanner.ScanValue]
        have hfieldOk : ∀ (f : StructField) (i : Nat) (scanner : structSQLScanner),
            (env id)[i]? = some f → f.IsExported = true →
            structSQLScanner.ScanValue.field env (structSQLScanner.ScanValue env fuel)
              (structSQLScanner.scanType env fuel) (.mk (.struct id) d) f i scanner
              ≠ .timeout := by
          intro f i scanner hf hexp
          have hb := typeBudget_field env rank hr id f (List.getElem?_mem hf) hexp
          have hbudget : typeBudget rank (derefType f.Typ) ≤ fuel := by omega
          unfold structSQLScanner.ScanValue.field
          cases d with
          | struct ds =>
            cases hds : ds[i]? with
            | none => simp [Value.Field, hf, hds]
            | some di =>
              have hF : Value.Field env (.mk (.struct id) (.struct ds)) i
                  = .ret (.mk f.Typ di) := by
                simp only [Value.Field, hf, hds]
              rw [hF]
              simp only [Value.Type]
              rcases derefValue_spec f.Typ (.mk f.Typ di) (Or.inr ⟨di, rfl⟩) with
                ⟨msg, hp⟩ | ⟨fv, hfv, hshape⟩
              · rw [hp]
                simp
              · rw [hfv]
                simp only []
                by_cases hk : (derefType f.Typ).Kind = .Struct
                · rw [if_pos hk]
                  unfold structSQLScanner.structFieldColumns
                  rcases hshape with rfl | ⟨d2, rfl⟩
                  · simp only [Value.IsValid, Bool.false_eq_true, if_false]
                    exact scanType_ne_timeout env rank hr fuel scanner _ hbudget
                  · simp only [Value.IsValid, if_true]
                    exact ih scanner _ hbudget
                · rw [if_neg hk]
                  exact addValue_ne_timeout scanner f _ _ (Interface_ne_timeout fv)
          | bool b => simp [Value.Field]
          | int n => simp [Value.Field]
          | float bits => simp [Value.Field]
          | str s => simp [Value.Field]
          | nil => simp [Value.Field]
          | ptr target => simp [Value.Field]
          | slice elems => simp [Value.Field]
          | iface dyn x => simp [Value.Field]
          | other => simp [Value.Field]
        have hloop : ∀ (fields : List StructField) (i0 : Nat),
            (∀ (k : Nat) (f : StructField), fields[k]? = some f →
              (env id)[i0 + k]? = some f) →
            ∀ scanner : structSQLScanner,
              structSQLScanner.ScanValue.loop env (structSQLScanner.ScanValue env fuel)
                (structSQLScanner.scanType env fuel) (.mk (.struct id) d) fields i0 scanner
                ≠ .timeout := by
          intro fields
          induction fields with
          | nil => intro _ _ scanner; simp [structSQLScanner.ScanValue.loop]
          | cons f rest ihf =>
            intro i0 hsync scanner
            have hrest := ihf (i0 + 1) (fun k g hk => by
              have := hsync (k + 1) g (by simpa using hk)
              rw [show i0 + 1 + k = i0 + (k + 1) by omega]
              exact this)
            by_cases hexp : f.IsExported = false
            · simp only [structSQLScanner.ScanValue.loop, hexp, if_true]
              exact hrest scanner
            · have hexp1 : f.IsExported = true := by simpa using hexp
              have hf : (env id)[i0]? = some f := by
                have := hsync 0 f (by simp)
                simpa using this
              have hfield := hfieldOk f i0 scanner hf hexp1
              simp only [structSQLScanner.ScanValue.loop, hexp1, Bool.true_eq_false, if_false]
              rcases hres : structSQLScanner.ScanValue.field env
                  (structSQLScanner.ScanValue env fuel) (structSQLScanner.scanType env fuel)
                  (.mk (.struct id) d) f i0 scanner with ⟨s1, _ | e⟩ | msg | _
              · exact hrest s1
              · simp
              · simp
              · exact absurd hres hfield
        exact hloop (env id) 0 (fun k f hk => by simpa using hk) scanner

/-- The method `Value.Elem` uses up no budget. -/
theorem Elem_ne_timeout (v : Value) : v.Elem ≠ .timeout := by
  unfold Value.Elem
  split <;> simp

/-- The loop of `structValue` uses up no budget. -/
theorem structValue_loop_ne_timeout (t : GoType) (d : Data) :
    structValue.loop t d ≠ .timeout := by
  induction t, d using structValue.loop.induct with
  | case1 e d ih => unfold structValue.loop; exact ih
  | case2 dyn d ih => unfold structValue.loop; exact ih
  | case3 t d h1 h2 hk =>
    rw [structValue.loop.eq_3 t d h1 h2, if_pos hk]
    exact Elem_ne_timeout _
  | case4 t d h1 h2 hk =>
    rw [structValue.loop.eq_3 t d h1 h2, if_neg hk]
    simp

/-- The function `structValue` uses up no budget. -/
theorem structValue_ne_timeout (a : AnyVal) : structValue a ≠ .timeout := by
  unfold structValue
  rcases hf : structValue.follow (ValueOf a) with v | msg | _
  · simp only []
    split <;> simp
  · simp
  · exfalso
    cases hv : ValueOf a with
    | invalid => rw [hv] at hf; simp [structValue.follow] at hf
    | mk t d =>
      rw [hv] at hf
      exact structValue_loop_ne_timeout t d hf

/-- In a ranked environment `SQLValues` returns, or panics, on every input: there is a budget
for the depth of the recursion with which it does, and every larger budget gives the same
outcome. For an input that leads to the struct `v` the budget of `v` is enough. -/
theorem SQLValues_returns_of_ranked (env : TypeEnv) (rank : Nat → Nat) (hr : Ranked env rank)
    (a : AnyVal) (exclusions : List String) :
    (∀ v, structValue a = .ret (v, none) →
        SQLValues env (valueBudget rank v) a exclusions ≠ .timeout)
      ∧ ∃ fuel0, SQLValues env fuel0 a exclusions ≠ .timeout
          ∧ ∀ fuel, fuel0 ≤ fuel →
              SQLValues env fuel a exclusions = SQLValues env fuel0 a exclusions := by
  have hstruct : ∀ v, structValue a = .ret (v, none) →
      SQLValues env (valueBudget rank v) a exclusions ≠ .timeout := by
    intro v hroot
    unfold SQLValues
    rw [hroot]
    simp only []
    rcases hs : structSQLScanner.ScanValue env (valueBudget rank v)
        (structSQLScanner.mk v (toMap exclusions) []) v with ⟨s1, e⟩ | msg | _
    · simp
    · simp
    · exact absurd hs (ScanValue_ne_timeout env rank hr _ _ v (le_refl _))
  refine ⟨hstruct, ?_⟩
  rcases hroot : structValue a with ⟨v, _ | e⟩ | msg | _
  · exact ⟨valueBudget rank v, hstruct v hroot,
      fun fuel hle => SQLValues_mono env _ fuel a exclusions hle (hstruct v hroot)⟩
  · have h0 : ∀ fuel, SQLValues env fuel a exclusions = .ret (none, some e) :=
      fun fuel => SQLValues_of_root_error env fuel a exclusions v e hroot
    exact ⟨0, by rw [h0]; simp, fun fuel _ => by rw [h0, h0]⟩
  · have h0 : ∀ fuel, SQLValues env fuel a exclusions = .panic msg := by
      intro fuel
      unfold SQLValues
      rw [hroot]
    exact ⟨0, by rw [h0]; simp, fun fuel _ => by rw [h0, h0]⟩
  · exact absurd hroot (structValue_ne_timeout a)

/-- The records `Top`, `Mid` and `Low`, nested through two pointers, are ranked. -/
theorem deepEnv_ranked : Ranked deepEnv (fun id => 2 - id) := by
  intro id f hf _ id2 hd
  rcases id with _ | _ | _ | id
  · simp only [deepEnv, List.mem_singleton] at hf
    subst hf
    simp only [derefType, GoType.struct.injEq] at hd
    subst hd
    decide
  · simp only [deepEnv, List.mem_cons, List.mem_singleton, List.not_mem_nil, or_false] at hf
    rcases hf with rfl | rfl
    · simp [derefType] at hd
    · simp only [derefType, GoType.struct.injEq] at hd
      subst hd
      decide
  · simp only [deepEnv, List.mem_singleton] at hf
    subst hf
    simp [derefType] at hd
  · simp [deepEnv] at hf

/-- On `Top{}`, whose pointer to `Mid` is nil, `SQLValues` returns within the budget of `Top`,
and it returns the nil placeholders of the leaves of `Mid` and `Low`. -/
theorem SQLValues_returns_deep :
    SQLValues deepEnv 4 (some (.struct 0, .struct [.nil])) [] ≠ .timeout
      ∧ SQLValues deepEnv 4 (some (.struct 0, .struct [.nil])) []
        = .ret (some [("n", none), ("b", none)], none) :=
  ⟨(SQLValues_returns_of_ranked deepEnv (fun id => 2 - id) deepEnv_ranked
      (some (.struct 0, .struct [.nil])) []).1 (Value.mk (.struct 0) (.struct [.nil])) rfl,
    rfl⟩

/-! ### The depth of the recursion of `scanType` -/

/-- On a struct type whose first exported field is, behind its pointers, the struct type
itself, `scanType` uses up every budget: each call makes the same call again. -/
theorem scanType_self_reference (env : TypeEnv) (S : Nat) (pre rest : List StructField)
    (f : StructField) (henv : env S = pre ++ f :: rest)
    (hpre : ∀ g ∈ pre, g.IsExported = false) (hexp : f.IsExported = true)
    (hself : derefType f.Typ = .struct S) (fuel : Nat) (scanner : structSQLScanner) :
    structSQLScanner.scanType env fuel scanner (.struct S) = .timeout := by
  induction fuel generalizing scanner with
  | zero => rfl
  | succ fuel ih =>
    have hloop : ∀ (pre : List StructField), (∀ g ∈ pre, g.IsExported = false) →
        structSQLScanner.scanType.loop (structSQLScanner.scanType env fuel)
          (pre ++ f :: rest) scanner = .timeout := by
      intro pre hpre
      induction pre with
      | nil =>
        simp only [List.nil_append, structSQLScanner.scanType.loop, hexp, Bool.true_eq_false,
          if_false, structSQLScanner.scanType.field, hself, GoType.Kind, if_true, ih]
      | cons g pre ihp =>
        have hg := hpre g (List.mem_cons_self _ _)
        simp only [List.cons_append, structSQLScanner.scanType.loop, hg, if_true]
        exact ihp (fun x hx => hpre x (List.mem_cons_of_mem _ hx))
    simp only [structSQLScanner.scanType, henv]
    exact hloop pre hpre

/-- On `Item`, with the identifier `v` excluded, `scanType` uses up every budget. -/
theorem scanType_item_excluded (fuel : Nat) (scanner : structSQLScanner)
    (hex : (GoMap.find scanner.exclusions "v").getD false = true) :
    structSQLScanner.scanType selfEnv fuel scanner (.struct 1) = .timeout := by
  induction fuel with
  | zero => rfl
  | succ fuel ih =>
    have hadd : scanner.addValue (StructField.mk "V" "" (.basic .Int) [("sql", "v")])
        (.basic .Int) nilValuer = .ret (scanner, none) := by
      apply addValue_of_not_included scanner
        (Leaf.mk (StructField.mk "V" "" (.basic .Int) [("sql", "v")]) (.basic .Int) nilValuer)
      rintro ⟨_, _, h3⟩
      have hn : SQLName (StructField.mk "V" "" (.basic .Int) [("sql", "v")]) = "v" := rfl
      rw [hn, hex] at h3
      simp at h3
    have hexp1 : (StructField.mk "V" "" (.basic .Int) [("sql", "v")]).IsExported = true := rfl
    have hexp2 : (StructField.mk "Next" "" (.ptr (.struct 1)) []).IsExported = true := rfl
    have hk1 : ¬ Kind.Int = Kind.Struct := by decide
    have hd1 : derefType (StructField.mk "V" "" (.basic .Int) [("sql", "v")]).Typ
        = .basic .Int := rfl
    have hd2 : derefType (StructField.mk "Next" "" (.ptr (.struct 1)) []).Typ
        = .struct 1 := rfl
    simp only [structSQLScanner.scanType, selfEnv, structSQLScanner.scanType.loop, hexp1,
      hexp2, Bool.true_eq_false, if_false, structSQLScanner.scanType.field, hd1, hadd,
      hd2, GoType.Kind, hk1, if_true, ih]

/-- On `Ping` and on `Pong`, which refer to each other, `scanType` uses up every budget. -/
theorem scanType_ping_pong (fuel : Nat) (scanner : structSQLScanner) :
    structSQLScanner.scanType selfEnv fuel scanner (.struct 2) = .timeout
      ∧ structSQLScanner.scanType selfEnv fuel scanner (.struct 3) = .timeout := by
  induction fuel with
  | zero => exact ⟨rfl, rfl⟩
  | succ fuel ih =>
    have hexp2 : (StructField.mk "Pong" "" (.ptr (.struct 3)) []).IsExported = true := rfl
    have hexp3 : (StructField.mk "Ping" "" (.ptr (.struct 2)) []).IsExported = true := rfl
    have hd2 : derefType (StructField.mk "Pong" "" (.ptr (.struct 3)) []).Typ
        = .struct 3 := rfl
    have hd3 : derefType (StructField.mk "Ping" "" (.ptr (.struct 2)) []).Typ
        = .struct 2 := rfl
    constructor
    · simp only [structSQLScanner.scanType, selfEnv, structSQLScanner.scanType.loop, hexp2,
        Bool.true_eq_false, if_false, structSQLScanner.scanType.field, hd2, GoType.Kind,
        if_true, ih.2]
    · simp only [structSQLScanner.scanType, selfEnv, structSQLScanner.scanType.loop, hexp3,
        Bool.true_eq_false, if_false, structSQLScanner.scanType.field, hd3, GoType.Kind,
        if_true, ih.1]

/-- The walk of a live struct whose exported field `i` is a nil pointer to a struct hands the
struct type behind the pointer to `scanType`. -/
theorem ScanValue_field_nil_ptr (env : TypeEnv)
    (recurV : structSQLScanner → Value → Res (structSQLScanner × Option Error))
    (recurT : structSQLScanner → GoType → Res (structSQLScanner × Option Error))
    (R : Nat) (ds : List Data) (field : StructField) (i S : Nat) (scanner : structSQLScanner)
    (hfield : (env R)[i]? = some field) (htyp : field.Typ = .ptr (.struct S))
    (hds : ds[i]? = some .nil) :
    structSQLScanner.ScanValue.field env recurV recurT (.mk (.struct R) (.struct ds)) field i
        scanner
      = recurT scanner (.struct S) := by
  simp [structSQLScanner.ScanValue.field, Value.Field, hfield, hds, Value.Type, htyp,
    derefValue, Value.Elem, GoType.Kind, structSQLScanner.structFieldColumns, Value.IsValid]

/-- Claim C21 at the failing inputs: the zero values `Node{}` for `struct { Next *Node }`,
`Item{}` for `struct { V int "sql:\"v\""; Next *Item }` with `v` excluded, `Ping{}` for
`struct { Pong *Pong }` with `Pong` a `struct { Ping *Ping }`, and `Tail{}` for
`struct { Next *Tail; V int "sql:\"v\"" }`. The pointer is nil, so the walk goes on in
`scanType`, which calls itself on the same type again without end: whatever the budget for the
depth of the recursion, the budget is used up and `SQLValues` gives neither a mapping nor an
error. On `Item{}` without exclusion the second visit of `V` ends the walk with the duplicate
error. -/
theorem SQLValues_self_reference (fuel : Nat) :
    SQLValues selfEnv fuel (some (.struct 0, .struct [.nil])) [] = .timeout
      ∧ SQLValues selfEnv fuel (some (.struct 1, .struct [.int 0, .nil])) ["v"] = .timeout
      ∧ SQLValues selfEnv fuel (some (.struct 2, .struct [.nil])) [] = .timeout
      ∧ SQLValues selfEnv fuel (some (.struct 4, .struct [.nil, .int 0])) [] = .timeout
      ∧ SQLValues selfEnv (fuel + 2) (some (.struct 1, .struct [.int 0, .nil])) []
        = .ret (some [("v", some (.basic .Int, .int 0))],
            some (newError "s2x: duplicate SQL column %q in struct %v"
              [.str "v", .value (Value.mk (.struct 1) (.struct [.int 0, .nil]))])) := by
  refine ⟨?_, ?_, ?_, ?_, rfl⟩
  · cases fuel with
    | zero => rfl
    | succ fuel =>
      have hf := ScanValue_field_nil_ptr selfEnv (structSQLScanner.ScanValue selfEnv fuel)
        (structSQLScanner.scanType selfEnv fuel) 0 [.nil]
        (StructField.mk "Next" "" (.ptr (.struct 0)) []) 0 0
        (structSQLScanner.mk (.mk (.struct 0) (.struct [.nil])) (toMap []) []) rfl rfl rfl
      rw [scanType_self_reference selfEnv 0 [] [] _ rfl (fun g hg => by simp at hg) rfl rfl]
        at hf
      have hs : structValue (some (.struct 0, .struct [.nil]))
          = .ret (.mk (.struct 0) (.struct [.nil]), none) := rfl
      have hexp : (StructField.mk "Next" "" (.ptr (.struct 0)) []).IsExported = true := rfl
      simp only [SQLValues, hs, structSQLScanner.ScanValue, selfEnv,
        structSQLScanner.ScanValue.loop, hexp, Bool.true_eq_false, if_false, hf]
  · cases fuel with
    | zero => rfl
    | succ fuel =>
      have hf := ScanValue_field_nil_ptr selfEnv (structSQLScanner.ScanValue selfEnv fuel)
        (structSQLScanner.scanType selfEnv fuel) 1 [.int 0, .nil]
        (StructField.mk "Next" "" (.ptr (.struct 1)) []) 1 1
        (structSQLScanner.mk (.mk (.struct 1) (.struct [.int 0, .nil])) (toMap ["v"]) [])
        rfl rfl rfl
      rw [scanType_item_excluded fuel
        (structSQLScanner.mk (.mk (.struct 1) (.struct [.int 0, .nil])) (toMap ["v"]) [])
        rfl] at hf
      have hs : structValue (some (.struct 1, .struct [.int 0, .nil]))
          = .ret (.mk (.struct 1) (.struct [.int 0, .nil]), none) := rfl
      have hexp1 : (StructField.mk "V" "" (.basic .Int) [("sql", "v")]).IsExported = true :=
        rfl
      have hexp2 : (StructField.mk "Next" "" (.ptr (.struct 1)) []).IsExported = true := rfl
      have hv : structSQLScanner.ScanValue.field selfEnv
          (structSQLScanner.ScanValue selfEnv fuel) (structSQLScanner.scanType selfEnv fuel)
          (.mk (.struct 1) (.struct [.int 0, .nil]))
          (StructField.mk "V" "" (.basic .Int) [("sql", "v")]) 0
          (structSQLScanner.mk (.mk (.struct 1) (.struct [.int 0, .nil])) (toMap ["v"]) [])
          = .ret (structSQLScanner.mk (.mk (.struct 1) (.struct [.int 0, .nil]))
              (toMap ["v"]) [], none) := rfl
      simp only [SQLValues, hs, structSQLScanner.ScanValue, selfEnv,
        structSQLScanner.ScanValue.loop, hexp1, hexp2, Bool.true_eq_false, if_false, hv,
        Nat.zero_add, hf]
  · cases fuel with
    | zero => rfl
    | succ fuel =>
      have hf := ScanValue_field_nil_ptr selfEnv (structSQLScanner.ScanValue selfEnv fuel)
        (structSQLScanner.scanType selfEnv fuel) 2 [.nil]
        (StructField.mk "Pong" "" (.ptr (.struct 3)) []) 0 3
        (structSQLScanner.mk (.mk (.struct 2) (.struct [.nil])) (toMap []) []) rfl rfl rfl
      rw [(scanType_ping_pong fuel _).2] at hf
      have hs : structValue (some (.struct 2, .struct [.nil]))
          = .ret (.mk (.struct 2) (.struct [.nil]), none) := rfl
      have hexp : (StructField.mk "Pong" "" (.ptr (.struct 3)) []).IsExported = true := rfl
      simp only [SQLValues, hs, structSQLScanner.ScanValue, selfEnv,
        structSQLScanner.ScanValue.loop, hexp, Bool.true_eq_false, if_false, hf]
  · cases fuel with
    | zero => rfl
    | succ fuel =>
      have hf := ScanValue_field_nil_ptr selfEnv (structSQLScanner.ScanValue selfEnv fuel)
        (structSQLScanner.scanType selfEnv fuel) 4 [.nil, .int 0]
        (StructField.mk "Next" "" (.ptr (.struct 4)) []) 0 4
        (structSQLScanner.mk (.mk (.struct 4) (.struct [.nil, .int 0])) (toMap []) [])
        rfl rfl rfl
      rw [scanType_self_reference selfEnv 4 [] _ _ rfl (fun g hg => by simp at hg) rfl rfl]
        at hf
      have hs : structValue (some (.struct 4, .struct [.nil, .int 0]))
          = .ret (.mk (.struct 4) (.struct [.nil, .int 0]), none) := rfl
      have hexp : (StructField.mk "Next" "" (.ptr (.struct 4)) []).IsExported = true := rfl
      simp only [SQLValues, hs, structSQLScanner.ScanValue, selfEnv,
        structSQLScanner.ScanValue.loop, hexp, Bool.true_eq_false, if_false, hf]

end S2x
